import Mathlib

/-!
# EDR server: rule matcher, rule catalog, agent registry, dispatcher; the agent methods

A shallow embedding of the rule matcher, the rule catalog, the agent registry and the
dispatcher of `pkg/server/server.go`, of the helpers of `pkg/server/util.go` and
`pkg/server/file.go` they call, and of the unary methods of `pkg/agent/agent.go` with the
helpers of `pkg/agent/windows.go`, followed by the properties proved about them.

Conventions of the embedding.

* A Go `map[string]string` is a list of entries with distinct keys (`StrMap`).  Reading a key
  that is absent gives the empty string, as indexing does in Go.  A `for ... range` over a map
  visits the entries in the order of the list; Go leaves that order unspecified, so a statement
  that holds for every list holds for every order a run may pick.
* A Go map is a reference.  `FilterRulesLog` writes into the map it receives and appends
  that same map to its result, so the embedding threads the contents of this one map object
  through the loop and counts the references appended.
* A panic is the result `none`.
* The package `regexp` of the Go library is a parameter (`Regexp`).  The two fixed patterns of
  `CheckRule` are embedded by hand.
* A function that decodes JSON itself is embedded from the decoded object on.
* A file of JSON lines is the list of its lines, each line given as the map it encodes.  A
  flag tells whether the file can be opened; a file that cannot be opened is left as it was.
* The agent side of the RPC, the file system and the clock are parameters (`World`).  A
  `Request` function returns its reply together with the calls it made and the directories
  and files it made (`Effects`).
* On the agent, the operating system is a parameter (`Os`): it answers each action with an
  error or none, and the command `netsh` with the bytes of its combined output.  A method
  returns its reply together with the actions it asked for.  An `int` has 64 bits and
  `int32(n)` keeps the low 32 bits.
* A Go string is a `String`.  Where the code counts, indexes or cuts bytes (`strconv.Atoi`,
  the slice of the output of `netsh`), the bytes are those of the UTF-8 encoding
  (`utf8Bytes`).
-/

namespace EDR

/-! ## String maps -/

/-- A Go `map[string]string`: a list of entries with distinct keys. -/
abbrev StrMap := List (String × String)

/-- Go `m[k]`: the value stored under `k`, the empty string when `k` is absent. -/
def StrMap.get : StrMap → String → String
  | [], _ => ""
  | (k', v) :: rest, k => if k' = k then v else StrMap.get rest k

/-- Go `m[k] = v`: replaces the value under `k`, or adds the entry. -/
def StrMap.set : StrMap → String → String → StrMap
  | [], k, v => [(k, v)]
  | (k', v') :: rest, k, v => if k' = k then (k, v) :: rest else (k', v') :: StrMap.set rest k v

/-! ## Values decoded from JSON -/

/-- What `encoding/json` stores in an `interface{}`.  A number is a `float64`; it is kept as
the text `%v` prints for it. -/
inductive Value where
  | null : Value
  | bool : Bool → Value
  | number : String → Value
  | string : String → Value
  | array : List Value → Value
  | object : List (String × Value) → Value

/-- Inserts an entry into a list of rendered entries sorted by key. -/
def insertByKey (e : String × String) : List (String × String) → List (String × String)
  | [] => [e]
  | x :: rest => if e.1 ≤ x.1 then e :: x :: rest else x :: insertByKey e rest

/-- Sorts rendered entries by key, the order in which `fmt` prints a map. -/
def sortByKey : List (String × String) → List (String × String)
  | [] => []
  | x :: rest => insertByKey x (sortByKey rest)

mutual
/-- Go `fmt.Sprintf("%v", v)` for a value decoded from JSON. -/
def sprintV : Value → String
  | .null => "<nil>"
  | .bool true => "true"
  | .bool false => "false"
  | .number shown => shown
  | .string s => s
  | .array items => "[" ++ " ".intercalate (sprintItems items) ++ "]"
  | .object fields =>
      "map[" ++ " ".intercalate ((sortByKey (sprintFields fields)).map
        (fun e => e.1 ++ ":" ++ e.2)) ++ "]"
/-- The renderings of the elements of an array. -/
def sprintItems : List Value → List String
  | [] => []
  | v :: rest => sprintV v :: sprintItems rest
/-- The keys of an object, each with the rendering of its value. -/
def sprintFields : List (String × Value) → List (String × String)
  | [] => []
  | (k, v) :: rest => (k, sprintV v) :: sprintFields rest
end

/-! ## The package `regexp` -/

/-- The part of the Go package `regexp` that the matcher uses on the patterns of a rule.
`compile p` is `regexp.Compile`: `none` when `p` is not a valid expression, otherwise the
compiled expression, given as the function that returns the leftmost match of the expression
in a text (`none` when the text holds no match). -/
structure Regexp where
  compile : String → Option (String → Option String)

/-- What every compiled expression of the library satisfies: a match is a piece of the text
that was searched. -/
def Regexp.MatchWithin (lib : Regexp) : Prop :=
  ∀ p re s m, lib.compile p = some re → re s = some m → m.data <:+: s.data

/-- Go `re.FindString(s)`: the text of the leftmost match, and the empty string when there
is no match. -/
def Regexp.FindString (re : String → Option String) (s : String) : String :=
  (re s).getD ""

/-- The class `[a-zA-Z]`. -/
def isLetter (c : Char) : Bool :=
  (97 ≤ c.toNat && c.toNat ≤ 122) || (65 ≤ c.toNat && c.toNat ≤ 90)

/-- The lines of a text: the pieces between line feeds.  In multi-line mode `^` matches at the
start of a line and `$` at its end. -/
def splitLines : List Char → List (List Char)
  | [] => [[]]
  | c :: rest =>
    if c = '\n' then [] :: splitLines rest
    else match splitLines rest with
      | [] => [[c]]
      | l :: ls => (c :: l) :: ls

/-- The tail `[a-zA-Z]*\$` of both fixed patterns, matched up to the end of the line. -/
def lettersThenDollar : List Char → Bool
  | [] => false
  | [c] => c = '$'
  | c :: rest => isLetter c && lettersThenDollar rest

/-- A whole line of the form `\$[a-zA-Z]+\$`. -/
def similarLine : List Char → Bool
  | c₁ :: c₂ :: rest => c₁ = '$' && isLetter c₂ && lettersThenDollar rest
  | _ => false

/-- A whole line of the form `\$\$[a-zA-Z]+\$`. -/
def differentLine : List Char → Bool
  | c₁ :: c₂ :: c₃ :: rest => c₁ = '$' && c₂ = '$' && isLetter c₃ && lettersThenDollar rest
  | _ => false

/-- The text of the first line accepted by `line`, the empty string when there is none. -/
def firstLine (line : List Char → Bool) (s : String) : String :=
  match (splitLines s.data).find? line with
  | some l => String.mk l
  | none => ""

/-- Go `reSimilar.FindString(s)` for `reSimilar = (?m)^\$[a-zA-Z]+\$$`.  A match starts at the
start of a line, ends at the end of a line and holds no line feed, so it is a whole line, and
the leftmost match is the first such line. -/
def reSimilar.FindString (s : String) : String := firstLine similarLine s

/-- Go `reDifferent.FindString(s)` for `reDifferent = (?m)^\$\$[a-zA-Z]+\$$`. -/
def reDifferent.FindString (s : String) : String := firstLine differentLine s

/-- Go `strings.Replace(s, "$", "", -1)`: `s` without its dollar signs. -/
def stripDollar (s : String) : String := String.mk (s.data.filter (fun c => c ≠ '$'))

/-! ## `CheckRule` -/

/-- The body of the loop of `CheckRule` for one key of `ruleRegex`: `some true` when the loop
goes on to the next key, `some false` when `CheckRule` returns false, `none` when
`regexp.MustCompile` panics. -/
def CheckRule.body (lib : Regexp) (log : StrMap) (key pattern : String) : Option Bool :=
  if reSimilar.FindString pattern ≠ "" then
    let keyLogSimilar := stripDollar pattern
    if log.get key ≠ log.get keyLogSimilar then some false else some true
  else if reDifferent.FindString pattern ≠ "" then
    let keyLogDifferent := stripDollar pattern
    if log.get key = log.get keyLogDifferent then some false else some true
  else
    match lib.compile pattern with
    | none => none
    | some re => if Regexp.FindString re (log.get key) = "" then some false else some true

/-- Go `CheckRule(log, ruleRegex)`, the keys of `ruleRegex` visited in the order of the list:
`some b` when the call returns `b`, `none` when it panics. -/
def CheckRule (lib : Regexp) (log : StrMap) : StrMap → Option Bool
  | [] => some true
  | (key, pattern) :: rest =>
    match CheckRule.body lib log key pattern with
    | some true => CheckRule lib log rest
    | some false => some false
    | none => none

/-! ## `FilterRulesLog` -/

/-- A rule of the catalog: a Go `map[string]interface{}`. -/
abbrev Rule := List (String × Value)

/-- Go `rule[k]` on a `map[string]interface{}`: the nil interface when `k` is absent. -/
def Rule.index : Rule → String → Value
  | [], _ => Value.null
  | (k', v) :: rest, k => if k' = k then v else Rule.index rest k

/-- Go `ConvertInterfaceToString(mapInterface)`. -/
def ConvertInterfaceToString (mapInterface : List (String × Value)) : StrMap :=
  mapInterface.foldl (fun mapString e => mapString.set e.1 (sprintV e.2)) []

/-- The state of the loop of `FilterRulesLog`.  `log` is the contents of the map object the
caller passed in; `hits` is the length of `objRequests`, every element of which is a reference
to that same map object. -/
structure Filtered where
  log : StrMap
  hits : Nat
deriving DecidableEq, Repr

/-- The slice `FilterRulesLog` returns, as the caller reads it: one element per append, each
of them the one map object with the contents it has when the call returns. -/
def Filtered.objRequests (r : Filtered) : List StrMap := List.replicate r.hits r.log

/-- One pass of the loop of `FilterRulesLog`; `none` when the pass panics (the type assertion
on `rule["Data"]`, or `CheckRule`). -/
def FilterRulesLog.step (lib : Regexp) (st : Filtered) (rule : Rule) : Option Filtered :=
  match Rule.index rule "Data" with
  | Value.object fields =>
    let ruleRegex := ConvertInterfaceToString fields
    if st.log.get "EventCode" ≠ ruleRegex.get "EventCode" then some st
    else
      match CheckRule lib st.log ruleRegex with
      | none => none
      | some false => some st
      | some true =>
        some ⟨((st.log.set "Type" (sprintV (Rule.index rule "Type"))).set
                "Message" (sprintV (Rule.index rule "Message"))).set
                "Action" (sprintV (Rule.index rule "Action")),
              st.hits + 1⟩
  | _ => none

/-- The loop of `FilterRulesLog` over the rules still to visit. -/
def FilterRulesLog.loop (lib : Regexp) : List Rule → Filtered → Option Filtered
  | [], st => some st
  | rule :: rest, st =>
    match FilterRulesLog.step lib st rule with
    | none => none
    | some st' => FilterRulesLog.loop lib rest st'

/-- Go `FilterRulesLog(log)` with the catalog `rules` (a package variable in the source). -/
def FilterRulesLog (lib : Regexp) (rules : List Rule) (log : StrMap) : Option Filtered :=
  FilterRulesLog.loop lib rules ⟨log, 0⟩

/-! ## A fragment of the expression language

The expressions built from letters, digits, `.` and the postfix `*`, with the leftmost-first
matching of the Go library.  It instantiates `Regexp` on concrete inputs.  `compile` answers
`none` for every pattern outside this fragment, so the instance stands for the library on the
patterns of the fragment and on patterns the library rejects as well, such as `(`. -/

/-- An element of an expression of the fragment: a literal character, or `.` (`none`). -/
abbrev Atom := Option Char

/-- Whether the element matches the character; `.` matches all but the line feed. -/
def Atom.accepts : Atom → Char → Bool
  | some a, c => a = c
  | none, c => c ≠ '\n'

/-- The element a character of a pattern stands for, `none` outside the fragment. -/
def atomOf (c : Char) : Option Atom :=
  if c = '.' then some none
  else if isLetter c || (48 ≤ c.toNat && c.toNat ≤ 57) then some (some c)
  else none

/-- Reads one more character of a pattern; the elements read so far are kept last first.
A `*` marks the element before it, which must be there and not be marked yet. -/
def parseStep (acc : Option (List (Atom × Bool))) (c : Char) : Option (List (Atom × Bool)) :=
  match acc with
  | none => none
  | some items =>
    if c = '*' then
      match items with
      | (a, false) :: more => some ((a, true) :: more)
      | _ => none
    else
      match atomOf c with
      | some a => some ((a, false) :: items)
      | none => none

/-- Parses a pattern of the fragment into its elements, each with its `*` flag. -/
def parseItems (p : List Char) : Option (List (Atom × Bool)) :=
  (p.foldl parseStep (some [])).map List.reverse

/-- The match of `a*` followed by the continuation `k` at the start of a text: as many
repetitions as possible first. -/
def matchStar (a : Atom) (k : List Char → Option (List Char)) : List Char → Option (List Char)
  | [] => k []
  | c :: rest =>
    if a.accepts c then
      match matchStar a k rest with
      | some m => some (c :: m)
      | none => k (c :: rest)
    else k (c :: rest)

/-- The match of a sequence of elements at the start of a text. -/
def matchHere : List (Atom × Bool) → List Char → Option (List Char)
  | [], _ => some []
  | (a, true) :: items, t => matchStar a (matchHere items) t
  | (_, false) :: _, [] => none
  | (a, false) :: items, c :: rest =>
    if a.accepts c then (matchHere items rest).map (fun m => c :: m) else none

/-- The leftmost match of a sequence of elements in a text. -/
def findFrom (items : List (Atom × Bool)) : List Char → Option (List Char)
  | [] => matchHere items []
  | c :: rest =>
    match matchHere items (c :: rest) with
    | some m => some m
    | none => findFrom items rest

/-- The compiled form of a pattern of the fragment. -/
def miniCompile (p : String) : Option (String → Option String) :=
  (parseItems p.data).map (fun items s => (findFrom items s.data).map String.mk)

/-- The fragment as an instance of the library. -/
def miniRegexp : Regexp := ⟨miniCompile⟩

/-! ## Sample rules and records -/

/-- A rule that kills the process of an `evil` image. -/
def ruleKill : Rule :=
  [("Type", Value.string "T1"), ("Message", Value.string "M1"), ("Action", Value.string "kill"),
   ("Data", Value.object [("EventCode", Value.string "1"), ("Image", Value.string "evil")])]

/-- A second rule on the same records, with another action. -/
def ruleSuspend : Rule :=
  [("Type", Value.string "T2"), ("Message", Value.string "M2"),
   ("Action", Value.string "suspend"),
   ("Data", Value.object [("EventCode", Value.string "1"), ("Image", Value.string "evil")])]

/-- A rule of another event code whose pattern is not a valid expression. -/
def ruleBroken : Rule :=
  [("Type", Value.string "T3"), ("Message", Value.string "M3"), ("Action", Value.string "kill"),
   ("Data", Value.object [("EventCode", Value.string "3"), ("Image", Value.string "(")])]

/-- A rule of the event code of `recordEvil` whose pattern is not a valid expression. -/
def ruleUnclosed : Rule :=
  [("Type", Value.string "T4"), ("Message", Value.string "M4"), ("Action", Value.string "kill"),
   ("Data", Value.object [("EventCode", Value.string "1"), ("Image", Value.string "(")])]

/-- A rule with an empty `EventCode`. -/
def ruleNoCode : Rule :=
  [("Type", Value.string "T5"), ("Message", Value.string "M5"), ("Action", Value.string "kill"),
   ("Data", Value.object [("EventCode", Value.string ""), ("Image", Value.string "evil")])]

/-- A process-creation record. -/
def recordEvil : StrMap :=
  [("ComputerName", "H1"), ("EventCode", "1"), ("ProcessId", "42"), ("Image", "evil")]

/-- A process-access record whose source and target process are the same. -/
def recordSame : StrMap :=
  [("EventCode", "10"), ("SourceProcessId", "7"), ("TargetProcessId", "7"), ("ProcessId", "7"),
   ("ComputerName", "H1")]

/-- The same record with another target process. -/
def recordOther : StrMap :=
  [("EventCode", "10"), ("SourceProcessId", "7"), ("TargetProcessId", "8"), ("ProcessId", "7"),
   ("ComputerName", "H1")]

/-- A network record whose two addresses are equal. -/
def recordLoop : StrMap :=
  [("EventCode", "3"), ("SourceIp", "10.0.0.1"), ("DestinationIp", "10.0.0.1"),
   ("ComputerName", "H1")]

/-- A network record whose two addresses differ. -/
def recordOut : StrMap :=
  [("EventCode", "3"), ("SourceIp", "10.0.0.1"), ("DestinationIp", "10.0.0.9"),
   ("ComputerName", "H1")]

/-! ## The rule catalog: `CheckMapEqual` and `HandleRule` -/

/-- Go `CheckMapEqual(data1, data2)`; `len` of a map is the number of its entries. -/
def CheckMapEqual (data1 data2 : StrMap) : Bool :=
  if data1.length ≠ data2.length then false
  else data1.all (fun e => decide (e.2 = data2.get e.1))

/-- Whether the text is what `%v` prints for a `float64` that is zero: `0` for the zero and
`-0` for the negative zero. -/
def zeroText (shown : String) : Bool := shown = "0" || shown = "-0"

/-- Go `a == b` on two `interface{}` values decoded from JSON: `none` is the run-time panic
of comparing two values of the same uncomparable type (two arrays, two objects); values of
different types are unequal.  Two numbers are compared as `float64`: they are equal when
`%v` prints the same text for both, which it does for no two different numbers, and when they
are the zero and the negative zero, which are equal and print as `0` and `-0`. -/
def interfaceEq : Value → Value → Option Bool
  | Value.null, Value.null => some true
  | Value.bool a, Value.bool b => some (decide (a = b))
  | Value.number a, Value.number b => some (decide (a = b) || (zeroText a && zeroText b))
  | Value.string a, Value.string b => some (decide (a = b))
  | Value.array _, Value.array _ => none
  | Value.object _, Value.object _ => none
  | _, _ => some false

/-- Go `a && b` where both sides may panic: `b` is evaluated only when `a` is true. -/
def andThen (a : Option Bool) (b : Option Bool) : Option Bool :=
  match a with
  | some true => b
  | some false => some false
  | none => none

/-- The test of the loop of the verb `delete` on one rule of the catalog: the two type
assertions on `Data`, then the condition of the `if`. -/
def HandleRule.same (rule ruleInterface : Rule) : Option Bool :=
  match Rule.index rule "Data", Rule.index ruleInterface "Data" with
  | Value.object fields1, Value.object fields2 =>
    let data1 := ConvertInterfaceToString fields1
    let data2 := ConvertInterfaceToString fields2
    andThen (interfaceEq (Rule.index rule "Type") (Rule.index ruleInterface "Type"))
      (andThen (interfaceEq (Rule.index rule "Message") (Rule.index ruleInterface "Message"))
        (andThen (interfaceEq (Rule.index rule "Action") (Rule.index ruleInterface "Action"))
          (some (CheckMapEqual data1 data2))))
  | _, _ => none

/-- The loop of the verb `delete` up to its `break`: the first index at which the test
accepts (`some none` when the loop ends without one, `none` when a pass panics). -/
def HandleRule.search (ruleInterface : Rule) : List Rule → Option (Option Nat)
  | [] => some none
  | rule :: rest =>
    match HandleRule.same rule ruleInterface with
    | none => none
    | some true => some (some 0)
    | some false => (HandleRule.search ruleInterface rest).map (Option.map (fun i => i + 1))

/-- Go `delete(m, k)` on a `map[string]interface{}`. -/
def Rule.delete (m : Rule) (k : String) : Rule := m.filter (fun e => decide (e.1 ≠ k))

/-- The catalog: the package variable `rules` and the lines of the rules file, each line
given as the object it encodes. -/
structure Catalog where
  rules : List Rule
  file : List Rule

/-- Go `WriteSliceMapInterface(ruleFilePath, rules)`: the file is opened with truncation and
the lines of `rules` are written.  The error of the open is dropped, so the call returns nil
also when the file cannot be opened (`ioOk = false`) and is left as it was. -/
def WriteSliceMapInterface (ioOk : Bool) (file rules : List Rule) : List Rule × Bool :=
  if ioOk then (rules, false) else (file, false)

/-- Go `WriteMapInterface(ruleFilePath, rule)`: one line is appended; the error of the open is
returned (the second component is true) and the file is left as it was. -/
def WriteMapInterface (ioOk : Bool) (file : List Rule) (rule : Rule) : List Rule × Bool :=
  if ioOk then (file ++ [rule], false) else (file, true)

/-- Go `HandleRule(ruleString)` from the decoding on: `ruleInterface` is the object that
`ConvertJsonToInterface` gives for the rewritten text.  The result is the catalog after the
call and whether the call returned an error; `none` when the call panics. -/
def HandleRule (ioOk : Bool) (ruleInterface : Rule) (c : Catalog) : Option (Catalog × Bool) :=
  let ruleAction := sprintV (Rule.index ruleInterface "Action Rule")
  let ruleInterface := Rule.delete ruleInterface "Action Rule"
  if ruleAction = "delete" then
    match HandleRule.search ruleInterface c.rules with
    | none => none
    | some none => some (c, false)
    | some (some index) =>
      let rules := c.rules.eraseIdx index
      let w := WriteSliceMapInterface ioOk c.file rules
      some (⟨rules, w.1⟩, w.2)
  else if ruleAction = "add" then
    let rules := c.rules ++ [ruleInterface]
    let w := WriteMapInterface ioOk c.file ruleInterface
    some (⟨rules, w.1⟩, w.2)
  else some (c, false)

/-! ## The agent registry: `HandleWindowsConn` -/

/-- A client connection, given by the address it targets. -/
abbrev Conn := String

/-- The registry: the package variables `sliceAgentConfig` and `mapClientConns`, and the lines
of the agents file, each line given as the map it encodes. -/
structure Registry where
  sliceAgentConfig : List StrMap
  file : List StrMap
  mapClientConns : List (String × Conn)

/-- Go `mapClientConns[computerName]`: `none` is the nil connection of an absent key. -/
def lookupConn : List (String × Conn) → String → Option Conn
  | [], _ => none
  | (k, c) :: rest, name => if k = name then some c else lookupConn rest name

/-- Go `mapClientConns[computerName] = agentConn`. -/
def storeConn : List (String × Conn) → String → Conn → List (String × Conn)
  | [], name, c => [(name, c)]
  | (k, c') :: rest, name, c =>
    if k = name then (name, c) :: rest else (k, c') :: storeConn rest name c

/-- The loop of `HandleWindowsConn` over `sliceAgentConfig`: `none` when no agent has the
name (`agentExist` stays false), otherwise the slice after the pass that breaks and whether
that pass changed the agent. -/
def HandleWindowsConn.loop (computerName agentHost agentPort : String) :
    List StrMap → Option (List StrMap × Bool)
  | [] => none
  | agent :: rest =>
    if agent.get "ComputerName" = computerName then
      if agent.get "AgentHost" ≠ agentHost ∨ agent.get "AgentPort" ≠ agentPort then
        some (((agent.set "AgentHost" agentHost).set "AgentPort" agentPort) :: rest, true)
      else some (agent :: rest, false)
    else
      (HandleWindowsConn.loop computerName agentHost agentPort rest).map
        (fun r => (agent :: r.1, r.2))

/-- Go `HandleWindowsConn(conn)` from the decoding on: `agentInterface` is the object read
from the connection, `ioOk` tells whether the agents file can be opened, `dial` is
`grpc.Dial` (`none`: an error). -/
def HandleWindowsConn (ioOk : Bool) (dial : String → Option Conn) (agentInterface : Rule)
    (reg : Registry) : Registry :=
  let agentConfig := ConvertInterfaceToString agentInterface
  let computerName := agentConfig.get "ComputerName"
  let agentHost := agentConfig.get "AgentHost"
  let agentPort := agentConfig.get "AgentPort"
  let agentAddress := agentHost ++ ":" ++ agentPort
  let written : List StrMap × List StrMap :=
    match HandleWindowsConn.loop computerName agentHost agentPort reg.sliceAgentConfig with
    | some (slice, true) => (slice, if ioOk then slice else reg.file)
    | some (slice, false) => (slice, reg.file)
    | none =>
      (reg.sliceAgentConfig ++ [agentConfig],
        if ioOk then reg.file ++ [agentConfig] else reg.file)
  match dial agentAddress with
  | none => ⟨written.1, written.2, reg.mapClientConns⟩
  | some agentConn => ⟨written.1, written.2, storeConn reg.mapClientConns computerName agentConn⟩

/-- The object an agent sends at a check-in. -/
def descriptor (computerName agentHost agentPort : String) : Rule :=
  [("ComputerName", Value.string computerName), ("AgentHost", Value.string agentHost),
   ("AgentPort", Value.string agentPort)]

/-- A sequence of check-ins, the agents file writable at each of them. -/
def checkIns (dial : String → Option Conn) (messages : List Rule) (reg : Registry) : Registry :=
  messages.foldl (fun r m => HandleWindowsConn true dial m r) reg

/-! ## The dispatcher: `HandleRespone`, the `Request` functions, `HandleResult` -/

/-- Modelled from the spec: the message `ResponseResult` of package `rpc`, which is generated
code that is not part of the sources: `ResponseResult { ResultInfo: string, Result: bool }`. -/
structure ResponseResult where
  ResultInfo : String
  Result : Bool
deriving DecidableEq, Repr

/-- Modelled from the spec: the request messages of package `rpc`, which is generated code
that is not part of the sources; one constructor for each message type of the RPC surface,
with its fields in the order the spec lists them.  The method a message goes to is the one of
its type: `ManagerEventCode1` for `EventCode1`, and so on, `ManagerNetworkAdapter` for
`NetworkAdapter`, `ManagerGetFile` for `FileInfo`. -/
inductive Request where
  | EventCode1 (ProcessId Action : String)
  | EventCode3 (ProcessId SourceIp SourcePort DestinationIp DestinationPort Action : String)
  | EventCode7 (ProcessId ImageLoaded Action : String)
  | EventCode8 (SourceProcessId Action : String)
  | EventCode9 (ProcessId Action : String)
  | EventCode10 (ProcessId Action : String)
  | EventCode11 (TargetFilename Action : String)
  | EventCode12 (TargetObject Action : String)
  | EventCode13 (TargetObject Action : String)
  | EventCode14 (EventType TargetObject NewName Action : String)
  | NetworkAdapter (Action : String)
  | FileInfo (FilePath : String)
deriving DecidableEq, Repr

/-- A chunk of a file: its bytes. -/
abbrev Bytes := List Nat

/-- What a stream of `ManagerGetFile` delivers to `Recv`: the chunks, then `io.EOF`
(`ending = none`) or an error. -/
structure FileStream where
  chunks : List Bytes
  ending : Option String

/-- Modelled from the spec: the client stub of package `rpc` with the connection it is built
on.  `unary conn request` is the call of the unary method of the request and `getFile conn
filePath` the call of `ManagerGetFile`: `none` when the call does not return, an error text
when it returns an error, otherwise the reply, or the stream. -/
structure Agent where
  unary : Option Conn → Request → Option (Except String ResponseResult)
  getFile : Option Conn → String → Option (Except String FileStream)

/-- What the file system answers during a download: whether `os.Stat` reports the directory as
missing, the errors of `os.MkdirAll` and of `os.Create` (`none`: no error), and the error of
each `Write` to the file, by its rank from zero. -/
structure Disk where
  dirMissing : Bool
  mkdirAll : Option String
  create : Option String
  write : Nat → Option String

/-- What the dispatcher runs in: the agent side, the file system, the configured parent
directory, the values of `FormatCurrentDate()` and `FormatCurrentDateMilisecond()`, and
whether the result log can be opened. -/
structure World where
  agent : Agent
  disk : Disk
  parentDirPath : String
  date : String
  now : String
  logOk : Bool

/-- What a `Request` function does outside the program: the calls made, each with the
connection it was made on, the directories made, and the files created, each with the chunks
written to it. -/
structure Effects where
  calls : List (Option Conn × Request)
  dirs : List String
  files : List (String × List Bytes)
deriving DecidableEq, Repr

/-- The result of a `Request` function: the reply it returns (`none` when the call of the
agent does not return) and what it did. -/
structure Requested where
  result : Option ResponseResult
  effects : Effects
deriving DecidableEq, Repr

/-- The part the unary `Request` functions share: the call, and the reply made of an
error. -/
def requestUnary (agent : Agent) (conn : Option Conn) (request : Request) : Requested :=
  match agent.unary conn request with
  | none => ⟨none, ⟨[(conn, request)], [], []⟩⟩
  | some (Except.error err) => ⟨some ⟨"Error occurs: " ++ err, false⟩, ⟨[(conn, request)], [], []⟩⟩
  | some (Except.ok result) => ⟨some result, ⟨[(conn, request)], [], []⟩⟩

/-- Go `RequestEventCode1(objRequest, conn)`. -/
def RequestEventCode1 (agent : Agent) (objRequest : StrMap) (conn : Option Conn) : Requested :=
  requestUnary agent conn
    (Request.EventCode1 (objRequest.get "ProcessId") (objRequest.get "Action"))

/-- Go `RequestEventCode3(objRequest, conn)`. -/
def RequestEventCode3 (agent : Agent) (objRequest : StrMap) (conn : Option Conn) : Requested :=
  requestUnary agent conn
    (Request.EventCode3 (objRequest.get "ProcessId") (objRequest.get "SourceIp")
      (objRequest.get "SourcePort") (objRequest.get "DestinationIp")
      (objRequest.get "DestinationPort") (objRequest.get "Action"))

/-- Go `RequestEventCode7(objRequest, conn)`. -/
def RequestEventCode7 (agent : Agent) (objRequest : StrMap) (conn : Option Conn) : Requested :=
  requestUnary agent conn
    (Request.EventCode7 (objRequest.get "ProcessId") (objRequest.get "ImageLoaded")
      (objRequest.get "Action"))

/-- Go `RequestEventCode8(objRequest, conn)`. -/
def RequestEventCode8 (agent : Agent) (objRequest : StrMap) (conn : Option Conn) : Requested :=
  requestUnary agent conn
    (Request.EventCode8 (objRequest.get "SourceProcessId") (objRequest.get "Action"))

/-- Go `RequestEventCode9(objRequest, conn)`. -/
def RequestEventCode9 (agent : Agent) (objRequest : StrMap) (conn : Option Conn) : Requested :=
  requestUnary agent conn
    (Request.EventCode9 (objRequest.get "ProcessId") (objRequest.get "Action"))

/-- Go `RequestEventCode10(objRequest, conn)`. -/
def RequestEventCode10 (agent : Agent) (objRequest : StrMap) (conn : Option Conn) : Requested :=
  requestUnary agent conn
    (Request.EventCode10 (objRequest.get "ProcessId") (objRequest.get "Action"))

/-- Go `RequestEventCode11(objRequest, conn)`. -/
def RequestEventCode11 (agent : Agent) (objRequest : StrMap) (conn : Option Conn) : Requested :=
  requestUnary agent conn
    (Request.EventCode11 (objRequest.get "TargetFilename") (objRequest.get "Action"))

/-- Go `RequestEventCode12(objRequest, conn)`. -/
def RequestEventCode12 (agent : Agent) (objRequest : StrMap) (conn : Option Conn) : Requested :=
  requestUnary agent conn
    (Request.EventCode12 (objRequest.get "TargetObject") (objRequest.get "Action"))

/-- Go `RequestEventCode13(objRequest, conn)`. -/
def RequestEventCode13 (agent : Agent) (objRequest : StrMap) (conn : Option Conn) : Requested :=
  requestUnary agent conn
    (Request.EventCode13 (objRequest.get "TargetObject") (objRequest.get "Action"))

/-- Go `RequestEventCode14(objRequest, conn)`. -/
def RequestEventCode14 (agent : Agent) (objRequest : StrMap) (conn : Option Conn) : Requested :=
  requestUnary agent conn
    (Request.EventCode14 (objRequest.get "EventType") (objRequest.get "TargetObject")
      (objRequest.get "NewName") (objRequest.get "Action"))

/-- Go `RequestNetworkAdapter(objRequest, conn)`. -/
def RequestNetworkAdapter (agent : Agent) (objRequest : StrMap) (conn : Option Conn) :
    Requested :=
  requestUnary agent conn (Request.NetworkAdapter (objRequest.get "Action"))

/-- The pieces of a text between backslashes, as `re.Split(s, -1)` gives them for the
expression that matches one backslash. -/
def splitBackslash : List Char → List (List Char)
  | [] => [[]]
  | c :: rest =>
    if c = '\\' then [] :: splitBackslash rest
    else match splitBackslash rest with
      | [] => [[c]]
      | l :: ls => (c :: l) :: ls

/-- Go `SplitName(targetObject)`: the last of the pieces. -/
def SplitName (targetObject : String) : String :=
  String.mk ((splitBackslash targetObject.data).getLast?.getD [])

/-- Go `CreateDir(parrentDirPath, dirName)`, with the directories it makes. -/
def CreateDir (disk : Disk) (parrentDirPath dirName : String) :
    Except String String × List String :=
  let dirPath := parrentDirPath ++ "/" ++ dirName
  if disk.dirMissing then
    match disk.mkdirAll with
    | some err => (Except.error err, [])
    | none => (Except.ok dirPath, [dirPath])
  else (Except.ok dirPath, [])

/-- The loop of `RequestGetFile` from the chunk of rank `k` on: the text of the error that
ends it (`none` when `Recv` gives `io.EOF`) and the chunks written.  A `Write` that fails
writes nothing. -/
def RequestGetFile.loop (write : Nat → Option String) (ending : Option String) :
    Nat → List Bytes → Option String × List Bytes
  | _, [] => (ending, [])
  | k, chunk :: rest =>
    match write k with
    | some err => (some err, [])
    | none =>
      let r := RequestGetFile.loop write ending (k + 1) rest
      (r.1, chunk :: r.2)

/-- Go `RequestGetFile(objRequest, grpcClient)`. -/
def RequestGetFile (w : World) (objRequest : StrMap) (grpcClient : Option Conn) : Requested :=
  let eventCode := objRequest.get "EventCode"
  let selected : Option String :=
    if eventCode = "1" then some (objRequest.get "Image")
    else if eventCode = "7" then some (objRequest.get "ImageLoaded")
    else if eventCode = "11" then some (objRequest.get "TargetFilename")
    else none
  match selected with
  | none =>
    ⟨some ⟨"Error: Action get file is not support for EventCode" ++ eventCode, false⟩,
      ⟨[], [], []⟩⟩
  | some filePath =>
    let calls := [(grpcClient, Request.FileInfo filePath)]
    match w.agent.getFile grpcClient filePath with
    | none => ⟨none, ⟨calls, [], []⟩⟩
    | some (Except.error err) => ⟨some ⟨"Error: " ++ err, false⟩, ⟨calls, [], []⟩⟩
    | some (Except.ok stream) =>
      let fileName := SplitName filePath
      let made := CreateDir w.disk w.parentDirPath (objRequest.get "ComputerName")
      match made.1 with
      | Except.error err => ⟨some ⟨"Error: " ++ err, false⟩, ⟨calls, made.2, []⟩⟩
      | Except.ok dirPath =>
        let fileSave := dirPath ++ "/" ++ w.date ++ fileName
        match w.disk.create with
        | some err => ⟨some ⟨"Error: " ++ err, false⟩, ⟨calls, made.2, []⟩⟩
        | none =>
          let r := RequestGetFile.loop w.disk.write stream.ending 0 stream.chunks
          match r.1 with
          | some err =>
            ⟨some ⟨"Error: " ++ err, false⟩, ⟨calls, made.2, [(fileSave, r.2)]⟩⟩
          | none =>
            ⟨some ⟨"Download file " ++ fileName ++ " successfully", true⟩,
              ⟨calls, made.2, [(fileSave, r.2)]⟩⟩

/-- Go `WriteMapString(resultLogPath, objRequest)` on the lines of the result log: one line is
appended, unless the file cannot be opened. -/
def WriteMapString (ioOk : Bool) (file : List StrMap) (mapString : StrMap) : List StrMap :=
  if ioOk then file ++ [mapString] else file

/-- Go `HandleResult(responseResult, objRequest)`: the map of the request after the three
writes, and the result log after the append. -/
def HandleResult (w : World) (responseResult : ResponseResult) (objRequest : StrMap)
    (resultLog : List StrMap) : StrMap × List StrMap :=
  let o₁ := objRequest.set "ResultInfo" responseResult.ResultInfo
  let o₂ := if responseResult.Result then o₁.set "Result" "Success"
    else o₁.set "Result" "Failure"
  let o₃ := o₂.set "ResultTime" w.now
  (o₃, WriteMapString w.logOk resultLog o₃)

/-- What a call of `HandleRespone` leaves: what it did outside the program, whether it
returned, the map of the request and the lines of the result log. -/
structure Handled where
  effects : Effects
  returned : Bool
  objRequest : StrMap
  resultLog : List StrMap
deriving DecidableEq, Repr

/-- The end of every branch of `HandleRespone`: `HandleResult` on the reply of the `Request`
function, when that function returned. -/
def HandleRespone.finish (w : World) (r : Requested) (objRequest : StrMap)
    (resultLog : List StrMap) : Handled :=
  match r.result with
  | none => ⟨r.effects, false, objRequest, resultLog⟩
  | some responseResult =>
    let h := HandleResult w responseResult objRequest resultLog
    ⟨r.effects, true, h.1, h.2⟩

/-- Go `HandleRespone(clientConn, objRequest)`. -/
def HandleRespone (w : World) (clientConn : Option Conn) (objRequest : StrMap)
    (resultLog : List StrMap) : Handled :=
  if objRequest.get "Action" = "getfile" then
    HandleRespone.finish w (RequestGetFile w objRequest clientConn) objRequest resultLog
  else if objRequest.get "Action" = "disable" ∨ objRequest.get "Action" = "enable" then
    HandleRespone.finish w (RequestNetworkAdapter w.agent objRequest clientConn)
      objRequest resultLog
  else if objRequest.get "EventCode" = "1" then
    HandleRespone.finish w (RequestEventCode1 w.agent objRequest clientConn) objRequest resultLog
  else if objRequest.get "EventCode" = "3" then
    HandleRespone.finish w (RequestEventCode3 w.agent objRequest clientConn) objRequest resultLog
  else if objRequest.get "EventCode" = "7" then
    HandleRespone.finish w (RequestEventCode7 w.agent objRequest clientConn) objRequest resultLog
  else if objRequest.get "EventCode" = "8" then
    HandleRespone.finish w (RequestEventCode8 w.agent objRequest clientConn) objRequest resultLog
  else if objRequest.get "EventCode" = "9" then
    HandleRespone.finish w (RequestEventCode9 w.agent objRequest clientConn) objRequest resultLog
  else if objRequest.get "EventCode" = "10" then
    HandleRespone.finish w (RequestEventCode10 w.agent objRequest clientConn) objRequest resultLog
  else if objRequest.get "EventCode" = "11" then
    HandleRespone.finish w (RequestEventCode11 w.agent objRequest clientConn) objRequest resultLog
  else if objRequest.get "EventCode" = "12" then
    HandleRespone.finish w (RequestEventCode12 w.agent objRequest clientConn) objRequest resultLog
  else if objRequest.get "EventCode" = "13" then
    HandleRespone.finish w (RequestEventCode13 w.agent objRequest clientConn) objRequest resultLog
  else if objRequest.get "EventCode" = "14" then
    HandleRespone.finish w (RequestEventCode14 w.agent objRequest clientConn) objRequest resultLog
  else
    HandleRespone.finish w
      ⟨some ⟨"Error: Not support for EventCode" ++ objRequest.get "EventCode", false⟩,
        ⟨[], [], []⟩⟩
      objRequest resultLog

/-! ## The telemetry session: a message that is not a rule update -/

/-- Go `_, ok := m[k]`: whether the map has the key. -/
def StrMap.has (m : StrMap) (k : String) : Bool := m.any (fun e => decide (e.1 = k))

/-- The effects of one call followed by those of another. -/
def Effects.append (a b : Effects) : Effects :=
  ⟨a.calls ++ b.calls, a.dirs ++ b.dirs, a.files ++ b.files⟩

/-- The loop of `HandleSplunkConn` over `objRequests`, with `n` elements still to visit.  Every
element is the one map `FilterRulesLog` wrote into, so each call of `HandleRespone` receives
the map as the call before left it.  The loop ends when a call does not return. -/
def HandleSplunkConn.each (w : World) (connRequest : Option Conn) : Nat → Handled → Handled
  | 0, h => h
  | n + 1, h =>
    let h' := HandleRespone w connRequest h.objRequest h.resultLog
    let acc : Handled := ⟨Effects.append h.effects h'.effects, h'.returned, h'.objRequest,
      h'.resultLog⟩
    if h'.returned then HandleSplunkConn.each w connRequest n acc else acc

/-- Lines 319 to 345 of `HandleSplunkConn`: the handling of a message without the key
`Action Rule`, from its decoding `logMapInterface` on.  The second component tells whether the
loop of the session breaks after the message. -/
def HandleSplunkConn.respond (lib : Regexp) (w : World) (rules : List Rule)
    (mapClientConns : List (String × Conn)) (logMapInterface : Rule)
    (resultLog : List StrMap) : Handled × Bool :=
  let logMapString := ConvertInterfaceToString logMapInterface
  let computerName := logMapString.get "ComputerName"
  let connRequest := lookupConn mapClientConns computerName
  if logMapString.has "Action" then
    (HandleRespone w connRequest logMapString resultLog, true)
  else
    match FilterRulesLog lib rules logMapString with
    | none => (⟨⟨[], [], []⟩, false, logMapString, resultLog⟩, false)
    | some r =>
      (HandleSplunkConn.each w connRequest r.hits ⟨⟨[], [], []⟩, true, r.log, resultLog⟩, false)

/-- Go `_, ok := m[k]` on a `map[string]interface{}`. -/
def Rule.has (m : Rule) (k : String) : Bool := m.any (fun e => decide (e.1 = k))

/-- What the handling of one message of a session leaves: the catalog (`none` when
`HandleRule` panicked), the dispatch that took place (`none` when `HandleRespone` was not
reached), and whether the loop of the session breaks after the message. -/
structure Message where
  catalog : Option Catalog
  handled : Option Handled
  stop : Bool

/-- One turn of the loop of `HandleSplunkConn` on a message that is not empty, from its
decoding `logMapInterface` on; `ruleInterface` is the decoding of the text as `HandleRule`
rewrites it.  The error that `HandleRule` returns goes to the application log only. -/
def HandleSplunkConn.message (lib : Regexp) (w : World) (ioOk : Bool) (c : Catalog)
    (mapClientConns : List (String × Conn)) (logMapInterface ruleInterface : Rule)
    (resultLog : List StrMap) : Message :=
  if logMapInterface.has "Action Rule" then
    ⟨(HandleRule ioOk ruleInterface c).map Prod.fst, none, true⟩
  else
    let r := HandleSplunkConn.respond lib w c.rules mapClientConns logMapInterface resultLog
    ⟨some c, some r.1, r.2⟩

/-! ## A sample world -/

/-- An agent that answers every call made on a connection, and from which a call made on the
nil connection does not return. -/
def sampleAgent : Agent :=
  ⟨fun conn _ => match conn with
      | none => none
      | some _ => some (Except.ok ⟨"done", true⟩),
   fun conn _ => match conn with
      | none => none
      | some _ => some (Except.ok ⟨[[1, 2], [3]], none⟩)⟩

/-- A file system on which everything succeeds. -/
def sampleDisk : Disk := ⟨true, none, none, fun _ => none⟩

/-- A world with a writable result log. -/
def sampleWorld : World :=
  ⟨sampleAgent, sampleDisk, "/srv/edr", "20240101_120000_", "2024-01-01 12:00:00.000", true⟩

/-- The same world with a result log that cannot be opened. -/
def sampleWorldNoLog : World :=
  ⟨sampleAgent, sampleDisk, "/srv/edr", "20240101_120000_", "2024-01-01 12:00:00.000", false⟩

/-- A decision to kill a process on the host `H1`. -/
def decisionKill : StrMap :=
  [("ComputerName", "H1"), ("EventCode", "1"), ("ProcessId", "42"), ("Action", "kill")]

/-- A decision of an event code outside the table. -/
def decisionOther : StrMap :=
  [("ComputerName", "H1"), ("EventCode", "99"), ("ProcessId", "42"), ("Action", "kill")]

/-- A decision to fetch the file of event code 11. -/
def decisionFetch : StrMap :=
  [("ComputerName", "H1"), ("EventCode", "11"), ("TargetFilename", "C:\\a\\b.dat"),
   ("Action", "getfile")]

/-! ## The agent: `pkg/agent/windows.go` -/

/-- Go `strings.Join(elems, "\\")`. -/
def joinBackslash : List (List Char) → List Char
  | [] => []
  | [x] => x
  | x :: rest => x ++ '\\' :: joinBackslash rest

/-- Go `SplitKeyPath(targetObject)`: `split[0]` and the join of `split[1:]`. -/
def SplitKeyPath (targetObject : String) : String × String :=
  let split := splitBackslash targetObject.data
  (String.mk (split.head?.getD []), String.mk (joinBackslash (split.drop 1)))

/-- Go `SplitKeyPathName(targetObject)`: `split[0]`, the join of `split[1:len(split)-1]` and
`split[len(split)-1]`; `none` is the panic of the slice expression, whose bounds must satisfy
`1 ≤ len(split)-1`. -/
def SplitKeyPathName (targetObject : String) : Option (String × String × String) :=
  let split := splitBackslash targetObject.data
  let keyStr := String.mk (split.head?.getD [])
  let name := String.mk (split.getLast?.getD [])
  if 1 ≤ split.length - 1 then
    some (keyStr, String.mk (joinBackslash ((split.take (split.length - 1)).drop 1)), name)
  else none

/-- Modelled from the spec: the root keys of package `registry`, a library that is not part of
the sources; the four hive shortcuts and the current-config hive. -/
inductive Hive where
  | CLASSES_ROOT
  | CURRENT_USER
  | LOCAL_MACHINE
  | USERS
  | CURRENT_CONFIG
deriving DecidableEq, Repr

/-- Go `ConvertKey(keyStr)`. -/
def ConvertKey (keyStr : String) : Hive :=
  if keyStr = "HKCR" then Hive.CLASSES_ROOT
  else if keyStr = "HKCU" then Hive.CURRENT_USER
  else if keyStr = "HKLM" then Hive.LOCAL_MACHINE
  else if keyStr = "HKU" then Hive.USERS
  else Hive.CURRENT_CONFIG

/-- What the agent asks of the operating system. -/
inductive OsAction where
  | KillTreeProcess (pid32 : Int)
  | KillProcess (pid32 : Int)
  | SuspendProcess (pid32 : Int)
  | Remove (filePath : String)
  | DeleteKey (key : Hive) (path : String)
  | OpenKey (key : Hive) (path : String)
  | DeleteValue (key : Hive) (path name : String)
  | netsh (args : List String)
deriving DecidableEq, Repr

/-- What the operating system answers: the error of each action (`none`: no error), and for
the command `netsh` its combined output and whether it failed.  `KillTreeProcess`,
`KillProcess` and `SuspendProcess` of `windows.go` go through the library `gopsutil` only and
are taken with their answer. -/
structure Os where
  KillTreeProcess : Int → Option String
  KillProcess : Int → Option String
  SuspendProcess : Int → Option String
  Remove : String → Option String
  DeleteKey : Hive → String → Option String
  OpenKey : Hive → String → Option String
  DeleteValue : Hive → String → String → Option String
  netsh : List String → Bytes × Bool

/-- The bytes of a character in UTF-8, the encoding of a Go string. -/
def utf8Bytes.ofChar (c : Char) : Bytes :=
  if c.toNat < 128 then [c.toNat]
  else if c.toNat < 2048 then [192 + c.toNat / 64, 128 + c.toNat % 64]
  else if c.toNat < 65536 then
    [224 + c.toNat / 4096, 128 + c.toNat / 64 % 64, 128 + c.toNat % 64]
  else
    [240 + c.toNat / 262144, 128 + c.toNat / 4096 % 64, 128 + c.toNat / 64 % 64,
      128 + c.toNat % 64]

/-- The bytes of the characters of a text, one character after the other. -/
def utf8Bytes.ofChars : List Char → Bytes
  | [] => []
  | c :: rest => utf8Bytes.ofChar c ++ utf8Bytes.ofChars rest

/-- The bytes of a Go string: `len(s)` is their number and `s[i]` is one of them. -/
def utf8Bytes (s : String) : Bytes := utf8Bytes.ofChars s.data

/-- Go `output[2 : len(output)-4]` on the bytes of the output: `none` is the panic of a
slice expression out of range, which the bounds `2 ≤ len(output)-4` exclude. -/
def trimOutput (output : Bytes) : Option Bytes :=
  if 6 ≤ output.length then some ((output.take (output.length - 4)).drop 2) else none

/-- Go `string(output)`: the text that has these bytes.  Each byte is written as the
character of its code, which is the text itself when the output is ASCII. -/
def stringOfBytes (output : Bytes) : String := String.mk (output.map Char.ofNat)

/-- The body the wrappers of `netsh` share: the error they return (`some none`: nil), `none`
when the trimming of the output panics. -/
def netshError (os : Os) (args : List String) : Option (Option String) :=
  if (os.netsh args).2 then
    (trimOutput (os.netsh args).1).map (fun output => some (stringOfBytes output))
  else some none

/-- Go `BlockInboundIp(ip)`: the arguments passed to `netsh`. -/
def BlockInboundIp.args (ip : String) : List String :=
  ["advfirewall", "firewall", "add", "rule", "name=BLOCK IP " ++ ip ++ " INBOUND",
    "interface=any", "dir=in", "action=block", "remoteip=" ++ ip]

/-- Go `BlockInboundIp(ip)`. -/
def BlockInboundIp (os : Os) (ip : String) : Option (Option String) :=
  netshError os (BlockInboundIp.args ip)

/-- Go `BlockOutboundIp(ip)`: the arguments passed to `netsh`. -/
def BlockOutboundIp.args (ip : String) : List String :=
  ["advfirewall", "firewall", "add", "rule", "name=BLOCK IP " ++ ip ++ " OUTBOUND",
    "interface=any", "dir=out", "action=block", "remoteip=" ++ ip]

/-- Go `BlockOutboundIp(ip)`. -/
def BlockOutboundIp (os : Os) (ip : String) : Option (Option String) :=
  netshError os (BlockOutboundIp.args ip)

/-- Go `UnblockInboundIp(ip)`. -/
def UnblockInboundIp (os : Os) (ip : String) : Option (Option String) :=
  netshError os ["advfirewall", "firewall", "delete", "rule",
    "name=BLOCK IP " ++ ip ++ " INBOUND", "remoteip=" ++ ip]

/-- Go `UnblockOutboundIp(ip)`. -/
def UnblockOutboundIp (os : Os) (ip : String) : Option (Option String) :=
  netshError os ["advfirewall", "firewall", "delete", "rule",
    "name=BLOCK IP " ++ ip ++ " OUTBOUND", "remoteip=" ++ ip]

/-- Go `BlockInboundPort(port)`. -/
def BlockInboundPort (os : Os) (port : String) : Option (Option String) :=
  netshError os ["advfirewall", "firewall", "add", "rule",
    "name=BLOCK PORT " ++ port ++ " INBOUND", "interface=any", "dir=in", "action=block",
    "remoteip=" ++ port]

/-- Go `BlockOutboundPort(port)`; the source passes the same arguments as for the inbound
port. -/
def BlockOutboundPort (os : Os) (port : String) : Option (Option String) :=
  netshError os ["advfirewall", "firewall", "add", "rule",
    "name=BLOCK PORT " ++ port ++ " INBOUND", "interface=any", "dir=in", "action=block",
    "remoteip=" ++ port]

/-- Go `UnblockInboundPort(port)`. -/
def UnblockInboundPort (os : Os) (port : String) : Option (Option String) :=
  netshError os ["advfirewall", "firewall", "delete", "rule",
    "name=BLOCK PORT " ++ port ++ " INBOUND", "remoteip=" ++ port]

/-- Go `UnblockOutboundPort(port)`. -/
def UnblockOutboundPort (os : Os) (port : String) : Option (Option String) :=
  netshError os ["advfirewall", "firewall", "delete", "rule",
    "name=BLOCK PORT " ++ port ++ " OUTBOUND", "remoteip=" ++ port]

/-- Go `DisableNetworkAdapter(adapterName)`: the arguments passed to `netsh`. -/
def DisableNetworkAdapter.args (adapterName : String) : List String :=
  ["interface", "set", "interface", adapterName, "disable"]

/-- Go `DisableNetworkAdapter(adapterName)`. -/
def DisableNetworkAdapter (os : Os) (adapterName : String) : Option (Option String) :=
  netshError os (DisableNetworkAdapter.args adapterName)

/-- Go `EnableNetworkAdapter(adapterName)`: the arguments passed to `netsh`. -/
def EnableNetworkAdapter.args (adapterName : String) : List String :=
  ["interface", "set", "interface", adapterName, "enable"]

/-- Go `EnableNetworkAdapter(adapterName)`. -/
def EnableNetworkAdapter (os : Os) (adapterName : String) : Option (Option String) :=
  netshError os (EnableNetworkAdapter.args adapterName)

/-- Go `DeleteValue(key, path, name)`, with the actions asked of the system. -/
def DeleteValue (os : Os) (key : Hive) (path name : String) : Option String × List OsAction :=
  match os.OpenKey key path with
  | some err => (some err, [OsAction.OpenKey key path])
  | none => (os.DeleteValue key path name,
      [OsAction.OpenKey key path, OsAction.DeleteValue key path name])

/-! ## The agent: `pkg/agent/agent.go` -/

/-- The errors of package `strconv`. -/
inductive NumError where
  | ErrSyntax
  | ErrRange
deriving DecidableEq, Repr

/-- The loop of Go `strconv.ParseUint(s, 10, 64)` over the bytes still to read, with `n` read
so far.  A byte that is not a decimal digit ends the loop with 0 and a syntax error.  A digit
that takes the number above 64 bits ends it with the largest number and a range error, and
the bytes after that digit are not read. -/
def ParseUint.loop : Bytes → Nat → Nat × Option NumError
  | [], n => (n, none)
  | c :: rest, n =>
    if 48 ≤ c ∧ c ≤ 57 then
      if 1844674407370955162 ≤ n then (18446744073709551615, some NumError.ErrRange)
      else if 18446744073709551615 < n * 10 + (c - 48) then
        (18446744073709551615, some NumError.ErrRange)
      else ParseUint.loop rest (n * 10 + (c - 48))
    else (0, some NumError.ErrSyntax)

/-- Go `strconv.ParseUint(s, 10, 64)`: the number and the error (`none`: nil). -/
def ParseUint (s : Bytes) : Nat × Option NumError :=
  match s with
  | [] => (0, some NumError.ErrSyntax)
  | c :: rest => ParseUint.loop (c :: rest) 0

/-- Go `strconv.ParseInt(s, 10, 0)` where `int` has 64 bits: one leading sign is taken off,
the rest is read by `ParseUint`; a syntax error gives 0, and a number out of the range of 64
bits with a sign gives the nearest bound with a range error. -/
def ParseInt (s : Bytes) : Int × Option NumError :=
  match s with
  | [] => (0, some NumError.ErrSyntax)
  | c :: rest =>
    let neg : Bool := decide (c = 45)
    let un := ParseUint (if c = 43 then rest else if c = 45 then rest else c :: rest)
    if un.2 = some NumError.ErrSyntax then (0, some NumError.ErrSyntax)
    else if !neg && decide (9223372036854775808 ≤ un.1) then
      (9223372036854775807, some NumError.ErrRange)
    else if neg && decide (9223372036854775808 < un.1) then
      (-9223372036854775808, some NumError.ErrRange)
    else (if neg then -(un.1 : Int) else (un.1 : Int), none)

/-- The loop of the fast path of `Atoi`, with `n` read so far: `none` when a byte is not a
decimal digit. -/
def Atoi.fast : Bytes → Nat → Option Nat
  | [], n => some n
  | ch :: rest, n =>
    if 48 ≤ ch ∧ ch ≤ 57 then Atoi.fast rest (n * 10 + (ch - 48)) else none

/-- Go `strconv.Atoi(s)` where `int` has 64 bits: the number and the error (`none`: nil).  A
text of 1 to 18 bytes is read by the fast path, every other text by `ParseInt`. -/
def Atoi (s : String) : Int × Option NumError :=
  if 0 < (utf8Bytes s).length ∧ (utf8Bytes s).length < 19 then
    match utf8Bytes s with
    | [] => (0, some NumError.ErrSyntax)
    | c :: rest =>
      if (c = 45 ∨ c = 43) ∧ rest.length < 1 then (0, some NumError.ErrSyntax)
      else
        match Atoi.fast (if c = 45 ∨ c = 43 then rest else c :: rest) 0 with
        | none => (0, some NumError.ErrSyntax)
        | some n => (if c = 45 then -(n : Int) else (n : Int), none)
  else ParseInt (utf8Bytes s)

/-- Go `int32(number)`: the low 32 bits, read as a signed number. -/
def toInt32 (number : Int) : Int := (number + 2147483648) % 4294967296 - 2147483648

/-- Go `ConvertStringToInt32(numberString)`; the error of `Atoi` is dropped. -/
def ConvertStringToInt32 (numberString : String) : Int := toInt32 (Atoi numberString).1

/-- The reply of a case of a `switch` on the action: the error text and `Result` false when
the action failed, the success text otherwise. -/
def replyOf (err : Option String) (failure success : String) : ResponseResult :=
  match err with
  | some e => ⟨failure ++ ": " ++ e, false⟩
  | none => ⟨success, true⟩

/-- The cases `killtree` and `kill`, which six methods share, and the case `suspend`. -/
def processCase (os : Os) (action pid : String) (pid32 : Int) :
    Option (ResponseResult × List OsAction) :=
  if action = "killtree" then
    some (replyOf (os.KillTreeProcess pid32) ("Error kills tree ProcessId " ++ pid)
      ("Success kills tree ProcessId " ++ pid), [OsAction.KillTreeProcess pid32])
  else if action = "kill" then
    some (replyOf (os.KillProcess pid32) ("Error kills ProcessId " ++ pid)
      ("Success kills ProcessId " ++ pid), [OsAction.KillProcess pid32])
  else none

/-- The reply of the `default` case of a method. -/
def notSupported (action subject : String) : ResponseResult :=
  ⟨"Error: Action " ++ action ++ " is not supported for " ++ subject, false⟩

/-- Go `ManagerEventCode1(ctx, in)`: the reply and the actions asked of the system; the RPC
error is always nil.  `none` when the method panics. -/
def ManagerEventCode1 (os : Os) (ProcessId Action : String) :
    Option (ResponseResult × List OsAction) :=
  let action := Action
  let pid := ProcessId
  let pid32 := ConvertStringToInt32 pid
  match processCase os action pid pid32 with
  | some r => some r
  | none =>
    if action = "suspend" then
      some (replyOf (os.SuspendProcess pid32) ("Error suppeds ProcessId " ++ pid)
        ("Success suspends ProcessId " ++ pid), [OsAction.SuspendProcess pid32])
    else some (notSupported action "EventCode 1", [])

/-- Go `ManagerEventCode3(ctx, in)`. -/
def ManagerEventCode3 (os : Os) (ProcessId SourceIp DestinationIp Action : String) :
    Option (ResponseResult × List OsAction) :=
  let action := Action
  let pid := ProcessId
  let pid32 := ConvertStringToInt32 pid
  let sIp := SourceIp
  let dIp := DestinationIp
  match processCase os action pid pid32 with
  | some r => some r
  | none =>
    if action = "block_src_ip" then
      (BlockInboundIp os sIp).map (fun err =>
        (replyOf err ("Error blocks inbound ip " ++ sIp) ("Success blocks inbound ip " ++ sIp),
          [OsAction.netsh (BlockInboundIp.args sIp)]))
    else if action = "block_dst_ip" then
      (BlockOutboundIp os dIp).map (fun err =>
        (replyOf err ("Error blocks outbound ip " ++ dIp)
          ("Success blocks outbound ip " ++ dIp),
          [OsAction.netsh (BlockOutboundIp.args dIp)]))
    else some (notSupported action "EventCode 3", [])

/-- Go `ManagerEventCode7(ctx, in)`. -/
def ManagerEventCode7 (os : Os) (ProcessId ImageLoaded Action : String) :
    Option (ResponseResult × List OsAction) :=
  let action := Action
  let pid := ProcessId
  let pid32 := ConvertStringToInt32 pid
  let filePath := ImageLoaded
  match processCase os action pid pid32 with
  | some r => some r
  | none =>
    if action = "delete" then
      some (replyOf (os.Remove filePath) ("Error deletes file " ++ filePath)
        ("Success deletes file " ++ filePath), [OsAction.Remove filePath])
    else some (notSupported action "EventCode 7", [])

/-- Go `ManagerEventCode8(ctx, in)`. -/
def ManagerEventCode8 (os : Os) (SourceProcessId Action : String) :
    Option (ResponseResult × List OsAction) :=
  let action := Action
  let pid := SourceProcessId
  let pid32 := ConvertStringToInt32 pid
  match processCase os action pid pid32 with
  | some r => some r
  | none => some (notSupported action "EventCode 8", [])

/-- Go `ManagerEventCode9(ctx, in)`. -/
def ManagerEventCode9 (os : Os) (ProcessId Action : String) :
    Option (ResponseResult × List OsAction) :=
  let action := Action
  let pid := ProcessId
  let pid32 := ConvertStringToInt32 pid
  match processCase os action pid pid32 with
  | some r => some r
  | none => some (notSupported action "EventCode 9", [])

/-- Go `ManagerEventCode10(ctx, in)`. -/
def ManagerEventCode10 (os : Os) (ProcessId Action : String) :
    Option (ResponseResult × List OsAction) :=
  let action := Action
  let pid := ProcessId
  let pid32 := ConvertStringToInt32 pid
  match processCase os action pid pid32 with
  | some r => some r
  | none => some (notSupported action "EventCode 10", [])

/-- Go `ManagerEventCode11(ctx, in)`. -/
def ManagerEventCode11 (os : Os) (TargetFilename Action : String) :
    Option (ResponseResult × List OsAction) :=
  let action := Action
  let filePath := TargetFilename
  if action = "delete" then
    some (replyOf (os.Remove filePath) ("Error deletes file " ++ filePath)
      ("Success deletes file " ++ filePath), [OsAction.Remove filePath])
  else some (notSupported action "EventCode 11", [])

/-- Go `ManagerEventCode12(ctx, in)`. -/
def ManagerEventCode12 (os : Os) (TargetObject Action : String) :
    Option (ResponseResult × List OsAction) :=
  let targetObject := TargetObject
  let split := SplitKeyPath targetObject
  let key := ConvertKey split.1
  let action := Action
  if action = "delete" then
    some (replyOf (os.DeleteKey key split.2) ("Error deletes Registry Key " ++ targetObject)
      ("Success deletes Registry Key " ++ targetObject), [OsAction.DeleteKey key split.2])
  else some (notSupported action "EventCode 12", [])

/-- Go `ManagerEventCode13(ctx, in)`; `SplitKeyPathName` is called before the `switch`. -/
def ManagerEventCode13 (os : Os) (TargetObject Action : String) :
    Option (ResponseResult × List OsAction) :=
  let targetObject := TargetObject
  match SplitKeyPathName targetObject with
  | none => none
  | some (keyStr, path, name) =>
    let key := ConvertKey keyStr
    let action := Action
    if action = "delete" then
      some (replyOf (DeleteValue os key path name).1
        ("Error deletes Registry Value " ++ targetObject)
        ("Success deletes Registry Value " ++ targetObject), (DeleteValue os key path name).2)
    else some (notSupported action "EventCode 13", [])

/-- Go `ManagerEventCode14(ctx, in)`. -/
def ManagerEventCode14 (os : Os) (NewName Action : String) :
    Option (ResponseResult × List OsAction) :=
  let newName := NewName
  let split := SplitKeyPath newName
  let key := ConvertKey split.1
  let action := Action
  if action = "delete" then
    some (replyOf (os.DeleteKey key split.2) ("Error deletes Registry Key " ++ newName)
      ("Success deletes Registry Key " ++ newName), [OsAction.DeleteKey key split.2])
  else some (notSupported action "EventCode 14", [])

/-- Go `ManagerNetworkAdapter(ctx, in)`, with the configured adapter `adapterInternet` (a
package variable in the source). -/
def ManagerNetworkAdapter (os : Os) (adapterInternet Action : String) :
    Option (ResponseResult × List OsAction) :=
  let action := Action
  if action = "disable" then
    (DisableNetworkAdapter os adapterInternet).map (fun err =>
      (replyOf err ("Error disable Network Adapter " ++ adapterInternet)
        ("Success disable Network Adapter " ++ adapterInternet),
        [OsAction.netsh (DisableNetworkAdapter.args adapterInternet)]))
  else if action = "enable" then
    (EnableNetworkAdapter os adapterInternet).map (fun err =>
      (replyOf err ("Error enable Network Adapter " ++ adapterInternet)
        ("Success enable Network Adapter " ++ adapterInternet),
        [OsAction.netsh (EnableNetworkAdapter.args adapterInternet)]))
  else some (notSupported action "Network Adapter", [])

/-- An operating system on which every action succeeds and `netsh` prints a line. -/
def sampleOs : Os :=
  ⟨fun _ => none, fun _ => none, fun _ => none, fun _ => none, fun _ _ => none,
   fun _ _ => none, fun _ _ _ => none, fun _ => (utf8Bytes "\r\nOk.\r\n\r\n", false)⟩

/-- An operating system on which `netsh` cannot be run: it fails with no output. -/
def sampleOsNoNetsh : Os :=
  ⟨fun _ => none, fun _ => none, fun _ => none, fun _ => none, fun _ _ => none,
   fun _ _ => none, fun _ _ _ => none, fun _ => ([], true)⟩

/-- The words of the specification for a text that writes an integer in decimal: an optional
sign, then one decimal digit or more. -/
def isDecimalInteger (s : String) : Bool :=
  match s.data with
  | [] => false
  | c :: rest =>
    if c = '+' ∨ c = '-' then !rest.isEmpty && rest.all Char.isDigit
    else (c :: rest).all Char.isDigit

/-- A message that asks to add a rule and also carries the key `Action`. -/
def messageRule : Rule :=
  [("Action Rule", Value.string "add"), ("Action", Value.string "kill"),
   ("EventCode", Value.string "1"), ("ComputerName", Value.string "H1")]

/-- A direct action of the administrator for the host `H1`. -/
def messageDirect : Rule :=
  [("Action", Value.string "kill"), ("EventCode", Value.string "1"),
   ("ProcessId", Value.string "42"), ("ComputerName", Value.string "H1")]

/-- A rule without the key `Data`, and the empty object that a line which is not JSON
decodes to. -/
def ruleNoData : Rule := [("Name", Value.string "incomplete"), ("Action", Value.string "kill")]

/-! ## The fragment: its matches, and some values -/

theorem matchStar_within (a : Atom) (k : List Char → Option (List Char))
    (hk : ∀ t m, k t = some m → m <+: t) :
    ∀ t m, matchStar a k t = some m → m <+: t := by
  intro t
  induction t with
  | nil => intro m h; exact hk [] m h
  | cons c rest ih =>
    intro m h
    unfold matchStar at h
    split at h
    · split at h
      · rename_i m' hm'
        cases h
        exact (List.prefix_cons_inj c).mpr (ih m' hm')
      · exact hk _ m h
    · exact hk _ m h

theorem matchHere_within : ∀ (items : List (Atom × Bool)) (t m : List Char),
    matchHere items t = some m → m <+: t := by
  intro items
  induction items with
  | nil => intro t m h; simp [matchHere] at h; subst h; exact List.nil_prefix
  | cons it items ih =>
    obtain ⟨a, star⟩ := it
    cases star with
    | true =>
      intro t m h
      simp only [matchHere] at h
      exact matchStar_within a (matchHere items) ih t m h
    | false =>
      intro t m h
      cases t with
      | nil => simp [matchHere] at h
      | cons c rest =>
        simp only [matchHere] at h
        split at h
        · cases hr : matchHere items rest with
          | none => simp [hr] at h
          | some m' =>
            simp [hr] at h
            subst h
            exact (List.prefix_cons_inj c).mpr (ih rest m' hr)
        · cases h

theorem findFrom_within (items : List (Atom × Bool)) :
    ∀ (t m : List Char), findFrom items t = some m → m <:+: t := by
  intro t
  induction t with
  | nil =>
    intro m h
    exact (matchHere_within items [] m h).isInfix
  | cons c rest ih =>
    intro m h
    unfold findFrom at h
    split at h
    · rename_i m' hm'
      cases h
      exact (matchHere_within items _ _ hm').isInfix
    · exact (ih m h).trans (List.suffix_cons c rest).isInfix

theorem miniRegexp_matchWithin : miniRegexp.MatchWithin := by
  intro p re s m hc hm
  simp only [miniRegexp, miniCompile] at hc
  cases hp : parseItems p.data with
  | none => simp [hp] at hc
  | some items =>
    simp [hp] at hc
    subst hc
    cases hf : findFrom items s.data with
    | none => simp [hf] at hm
    | some m' =>
      simp [hf] at hm
      subst hm
      exact findFrom_within items _ _ hf

/-- Values of the fragment; the library of Go gives the same on these inputs. -/
theorem miniRegexp_values :
    (miniRegexp.compile "a.*c").map (fun re => re "xxabcbcx") = some (some "abcbc") ∧
      (miniRegexp.compile "10").map (fun re => re "10") = some (some "10") ∧
      (miniRegexp.compile "").map (fun re => re "") = some (some "") ∧
      (miniRegexp.compile "ab").map (fun re => re "") = some none ∧
      (miniRegexp.compile "(").isSome = false ∧
      CheckRule miniRegexp [("Image", "xevil")] [("Image", "evil")] = some true := by
  decide

/-! ## Lemmas on string maps -/

theorem StrMap.get_set_self (m : StrMap) (k v : String) : (m.set k v).get k = v := by
  induction m with
  | nil => simp [StrMap.set, StrMap.get]
  | cons e rest ih =>
    obtain ⟨k', v'⟩ := e
    by_cases h : k' = k
    · simp [StrMap.set, StrMap.get, h]
    · simp [StrMap.set, StrMap.get, h, ih]

theorem StrMap.get_set_other (m : StrMap) (k v k₂ : String) (h : k ≠ k₂) :
    (m.set k v).get k₂ = m.get k₂ := by
  induction m with
  | nil => simp [StrMap.set, StrMap.get, h]
  | cons e rest ih =>
    obtain ⟨k', v'⟩ := e
    by_cases h₁ : k' = k
    · subst h₁
      simp [StrMap.set, StrMap.get, h]
    · by_cases h₂ : k' = k₂
      · subst h₂
        simp [StrMap.set, StrMap.get, h₁]
      · simp [StrMap.set, StrMap.get, h₁, h₂, ih]

theorem StrMap.get_absent (m : StrMap) (k : String) (h : ∀ v, (k, v) ∉ m) : m.get k = "" := by
  induction m with
  | nil => rfl
  | cons e rest ih =>
    obtain ⟨k', v'⟩ := e
    have hne : k' ≠ k := by
      intro hk
      exact h v' (by simp [hk])
    simp only [StrMap.get, hne, if_false]
    exact ih (fun v hv => h v (List.mem_cons_of_mem _ hv))

/-! ## Lemmas on the two loops -/

theorem CheckRule_append (lib : Regexp) (log : StrMap) (a b : StrMap) :
    CheckRule lib log (a ++ b) =
      match CheckRule lib log a with
      | some true => CheckRule lib log b
      | some false => some false
      | none => none := by
  induction a with
  | nil => simp [CheckRule]
  | cons e rest ih =>
    obtain ⟨k, p⟩ := e
    simp only [List.cons_append, CheckRule]
    cases hb : CheckRule.body lib log k p with
    | none => rfl
    | some r =>
      cases r with
      | true => simpa using ih
      | false => rfl

theorem CheckRule_true_iff (lib : Regexp) (log : StrMap) (data : StrMap) :
    CheckRule lib log data = some true ↔
      ∀ kp ∈ data, CheckRule.body lib log kp.1 kp.2 = some true := by
  induction data with
  | nil => simp [CheckRule]
  | cons e rest ih =>
    obtain ⟨k, p⟩ := e
    simp only [CheckRule, List.forall_mem_cons]
    cases hb : CheckRule.body lib log k p with
    | none => simp
    | some r =>
      cases r with
      | true => simpa using ih
      | false => simp

theorem CheckRule_false_iff (lib : Regexp) (log : StrMap) (data : StrMap)
    (hc : ∀ kp ∈ data, CheckRule.body lib log kp.1 kp.2 ≠ none) :
    CheckRule lib log data = some false ↔
      ∃ kp ∈ data, CheckRule.body lib log kp.1 kp.2 = some false := by
  induction data with
  | nil => simp [CheckRule]
  | cons e rest ih =>
    obtain ⟨k, p⟩ := e
    have hk := hc (k, p) (List.mem_cons_self _ _)
    have ih' := ih (fun kp hkp => hc kp (List.mem_cons_of_mem _ hkp))
    simp only [CheckRule, List.exists_mem_cons_iff]
    cases hb : CheckRule.body lib log k p with
    | none => exact absurd hb hk
    | some r =>
      cases r with
      | true => simpa using ih'
      | false => simp

theorem CheckRule_returns (lib : Regexp) (log : StrMap) (data : StrMap)
    (hc : ∀ kp ∈ data, CheckRule.body lib log kp.1 kp.2 ≠ none) :
    CheckRule lib log data ≠ none := by
  induction data with
  | nil => simp [CheckRule]
  | cons e rest ih =>
    obtain ⟨k, p⟩ := e
    have hk := hc (k, p) (List.mem_cons_self _ _)
    have ih' := ih (fun kp hkp => hc kp (List.mem_cons_of_mem _ hkp))
    simp only [CheckRule]
    cases hb : CheckRule.body lib log k p with
    | none => exact absurd hb hk
    | some r =>
      cases r with
      | true => simpa using ih'
      | false => simp

theorem CheckRule.body_returns (lib : Regexp) (log : StrMap) (key pattern : String)
    (hc : reSimilar.FindString pattern = "" → reDifferent.FindString pattern = "" →
      (lib.compile pattern).isSome = true) :
    CheckRule.body lib log key pattern ≠ none := by
  unfold CheckRule.body
  split
  · simp only
    split <;> simp
  · split
    · simp only
      split <;> simp
    · rename_i h₁ h₂
      have h := hc (by simpa using h₁) (by simpa using h₂)
      obtain ⟨re, hre⟩ := Option.isSome_iff_exists.mp h
      rw [hre]
      simp only
      split <;> simp

/-- On an empty text `FindString` gives the empty string. -/
theorem FindString_empty (lib : Regexp) (hlib : lib.MatchWithin) (p : String)
    (re : String → Option String) (hc : lib.compile p = some re) :
    Regexp.FindString re "" = "" := by
  unfold Regexp.FindString
  cases hm : re "" with
  | none => rfl
  | some m =>
    have h := hlib p re "" m hc hm
    have hd : m.data = [] := by simpa using h
    simp only [Option.getD]
    exact String.ext hd

theorem FilterRulesLog.loop_append (lib : Regexp) (a b : List Rule) (st : Filtered) :
    FilterRulesLog.loop lib (a ++ b) st =
      (FilterRulesLog.loop lib a st).bind (FilterRulesLog.loop lib b) := by
  induction a generalizing st with
  | nil => simp [FilterRulesLog.loop]
  | cons r rest ih =>
    simp only [List.cons_append, FilterRulesLog.loop]
    cases FilterRulesLog.step lib st r with
    | none => rfl
    | some st' => simpa using ih st'

/-- One pass of the loop of `FilterRulesLog` leaves every field but `Type`, `Message` and
`Action` as it was, and leaves the record as it was when it appends nothing. -/
theorem FilterRulesLog.step_frame (lib : Regexp) (st st' : Filtered) (rule : Rule)
    (h : FilterRulesLog.step lib st rule = some st') :
    (∀ k, k ≠ "Type" → k ≠ "Message" → k ≠ "Action" → st'.log.get k = st.log.get k) ∧
    st.hits ≤ st'.hits ∧ (st'.hits = st.hits → st' = st) := by
  unfold FilterRulesLog.step at h
  split at h
  · simp only at h
    split at h
    · cases h
      exact ⟨fun _ _ _ _ => rfl, le_refl _, fun _ => rfl⟩
    · split at h
      · cases h
      · cases h
        exact ⟨fun _ _ _ _ => rfl, le_refl _, fun _ => rfl⟩
      · cases h
        refine ⟨?_, Nat.le_succ _, ?_⟩
        · intro k h₁ h₂ h₃
          simp only
          rw [StrMap.get_set_other _ _ _ _ (Ne.symm h₃),
            StrMap.get_set_other _ _ _ _ (Ne.symm h₂),
            StrMap.get_set_other _ _ _ _ (Ne.symm h₁)]
        · intro hh
          simp at hh
  · cases h

theorem FilterRulesLog.loop_frame (lib : Regexp) (rules : List Rule) :
    ∀ (st st' : Filtered), FilterRulesLog.loop lib rules st = some st' →
    (∀ k, k ≠ "Type" → k ≠ "Message" → k ≠ "Action" → st'.log.get k = st.log.get k) ∧
    st.hits ≤ st'.hits ∧ (st'.hits = st.hits → st' = st) := by
  induction rules with
  | nil =>
    intro st st' h
    simp [FilterRulesLog.loop] at h
    subst h
    exact ⟨fun _ _ _ _ => rfl, le_refl _, fun _ => rfl⟩
  | cons r rest ih =>
    intro st st' h
    simp only [FilterRulesLog.loop] at h
    cases hs : FilterRulesLog.step lib st r with
    | none => simp [hs] at h
    | some mid =>
      simp only [hs] at h
      obtain ⟨f₁, l₁, e₁⟩ := FilterRulesLog.step_frame lib st mid r hs
      obtain ⟨f₂, l₂, e₂⟩ := ih mid st' h
      refine ⟨fun k h₁ h₂ h₃ => (f₂ k h₁ h₂ h₃).trans (f₁ k h₁ h₂ h₃), le_trans l₁ l₂, ?_⟩
      intro hh
      have hm : mid.hits = st.hits := by omega
      have : st' = mid := e₂ (by omega)
      rw [this]
      exact e₁ hm

/-! ## Lemmas on the two fixed patterns -/

theorem isLetter_ne_dollar (c : Char) (h : isLetter c = true) : c ≠ '$' := by
  intro hc
  subst hc
  simp [isLetter] at h

theorem isLetter_ne_newline (c : Char) (h : isLetter c = true) : c ≠ '\n' := by
  intro hc
  subst hc
  simp [isLetter] at h

theorem splitLines_single (l : List Char) (h : ∀ c ∈ l, c ≠ '\n') : splitLines l = [l] := by
  induction l with
  | nil => rfl
  | cons c rest ih =>
    have hc : c ≠ '\n' := h c (List.mem_cons_self _ _)
    have hr := ih (fun d hd => h d (List.mem_cons_of_mem _ hd))
    simp [splitLines, hc, hr]

theorem lettersThenDollar_letters (l : List Char) (h : ∀ c ∈ l, isLetter c = true) :
    lettersThenDollar (l ++ ['$']) = true := by
  induction l with
  | nil => simp [lettersThenDollar]
  | cons c rest ih =>
    have hc : isLetter c = true := h c (List.mem_cons_self _ _)
    have hr := ih (fun d hd => h d (List.mem_cons_of_mem _ hd))
    cases rest with
    | nil => simp [lettersThenDollar, hc]
    | cons d rest₂ =>
      simp only [List.cons_append] at hr ⊢
      simp [lettersThenDollar, hc, hr]

theorem filter_dollar_letters (l : List Char) (h : ∀ c ∈ l, isLetter c = true) :
    l.filter (fun c => !decide (c = '$')) = l := by
  rw [List.filter_eq_self]
  intro c hc
  simpa using isLetter_ne_dollar c (h c hc)

/-- The characters of the pattern `$K$`, and of `$$K$` with one more dollar sign in front. -/
theorem data_dollar_name (K : String) : ("$" ++ K ++ "$").data = '$' :: (K.data ++ ['$']) := by
  simp [String.data_append]

theorem data_dollar_dollar_name (K : String) :
    ("$$" ++ K ++ "$").data = '$' :: '$' :: (K.data ++ ['$']) := by
  simp [String.data_append]

theorem no_newline_in_name (K : String) (hL : ∀ c ∈ K.data, isLetter c = true)
    (pre : List Char) (hpre : ∀ c ∈ pre, c = '$') :
    ∀ c ∈ pre ++ (K.data ++ ['$']), c ≠ '\n' := by
  intro c hc
  simp only [List.mem_append, List.mem_singleton] at hc
  rcases hc with hc | hc | hc
  · rw [hpre c hc]; decide
  · exact isLetter_ne_newline c (hL c hc)
  · rw [hc]; decide

theorem firstLine_single (line : List Char → Bool) (s : String)
    (h : ∀ c ∈ s.data, c ≠ '\n') :
    firstLine line s = if line s.data = true then s else "" := by
  unfold firstLine
  rw [splitLines_single s.data h]
  cases hl : line s.data <;> simp [List.find?, hl]

theorem reSimilar_name (K : String) (hK : K ≠ "") (hL : ∀ c ∈ K.data, isLetter c = true) :
    reSimilar.FindString ("$" ++ K ++ "$") = "$" ++ K ++ "$" := by
  have hnl : ∀ c ∈ ("$" ++ K ++ "$").data, c ≠ '\n' := by
    rw [data_dollar_name]
    exact no_newline_in_name K hL ['$'] (by simp)
  have hline : similarLine ("$" ++ K ++ "$").data = true := by
    rw [data_dollar_name]
    obtain ⟨l⟩ := K
    cases l with
    | nil => exact absurd rfl hK
    | cons c rest =>
      have hc : isLetter c = true := hL c (List.mem_cons_self _ _)
      have hr := lettersThenDollar_letters rest (fun d hd => hL d (List.mem_cons_of_mem _ hd))
      simp [similarLine, hc, hr]
  unfold reSimilar.FindString
  rw [firstLine_single _ _ hnl, if_pos hline]

theorem reSimilar_dollar_name (K : String) (hL : ∀ c ∈ K.data, isLetter c = true) :
    reSimilar.FindString ("$$" ++ K ++ "$") = "" := by
  have hnl : ∀ c ∈ ("$$" ++ K ++ "$").data, c ≠ '\n' := by
    rw [data_dollar_dollar_name]
    exact no_newline_in_name K hL ['$', '$'] (by simp)
  have hline : ¬ similarLine ("$$" ++ K ++ "$").data = true := by
    rw [data_dollar_dollar_name]
    simp [similarLine, isLetter]
  unfold reSimilar.FindString
  rw [firstLine_single _ _ hnl, if_neg hline]

theorem reDifferent_dollar_name (K : String) (hK : K ≠ "")
    (hL : ∀ c ∈ K.data, isLetter c = true) :
    reDifferent.FindString ("$$" ++ K ++ "$") = "$$" ++ K ++ "$" := by
  have hnl : ∀ c ∈ ("$$" ++ K ++ "$").data, c ≠ '\n' := by
    rw [data_dollar_dollar_name]
    exact no_newline_in_name K hL ['$', '$'] (by simp)
  have hline : differentLine ("$$" ++ K ++ "$").data = true := by
    rw [data_dollar_dollar_name]
    obtain ⟨l⟩ := K
    cases l with
    | nil => exact absurd rfl hK
    | cons c rest =>
      have hc : isLetter c = true := hL c (List.mem_cons_self _ _)
      have hr := lettersThenDollar_letters rest (fun d hd => hL d (List.mem_cons_of_mem _ hd))
      simp [differentLine, hc, hr]
  unfold reDifferent.FindString
  rw [firstLine_single _ _ hnl, if_pos hline]

theorem stripDollar_name (K : String) (hL : ∀ c ∈ K.data, isLetter c = true) :
    stripDollar ("$" ++ K ++ "$") = K ∧ stripDollar ("$$" ++ K ++ "$") = K := by
  have hf := filter_dollar_letters K.data hL
  constructor
  · unfold stripDollar
    rw [data_dollar_name]
    simp [List.filter_cons, List.filter_append, hf]
  · unfold stripDollar
    rw [data_dollar_dollar_name]
    simp [List.filter_cons, List.filter_append, hf]

theorem dollar_name_ne_empty (pre K : String) : pre ++ K ++ "$" ≠ "" := by
  intro he
  have := congrArg String.data he
  simp [String.data_append] at this

/-! ## The scenarios of the two references -/

/-- The rule `Data:{EventCode:"10", SourceProcessId:"$TargetProcessId$"}` accepts the record
whose two process ids are `7` and rejects the one whose target process id is `8`. -/
theorem scenario_same_field :
    CheckRule miniRegexp recordSame
        [("EventCode", "10"), ("SourceProcessId", "$TargetProcessId$")] = some true ∧
      CheckRule miniRegexp recordOther
        [("EventCode", "10"), ("SourceProcessId", "$TargetProcessId$")] = some false := by
  decide

/-- The rule `Data:{EventCode:"3", SourceIp:"$$DestinationIp$"}` rejects the record whose two
addresses are equal and accepts the one whose addresses differ. -/
theorem scenario_different_field :
    CheckRule miniRegexp recordLoop
        [("EventCode", "3"), ("SourceIp", "$$DestinationIp$")] = some false ∧
      CheckRule miniRegexp recordOut
        [("EventCode", "3"), ("SourceIp", "$$DestinationIp$")] = some true := by
  decide

/-! ## Catalog evaluation -/

/-- C1, the code at the failing input: two rules match the record and ask for `kill` and
for `suspend`; `FilterRulesLog` returns two decisions and both carry the `Type`, `Message`
and `Action` of the second rule, because both are the one map that was passed in. -/
theorem C1_decisions_share_last_rule :
    (FilterRulesLog miniRegexp [ruleKill, ruleSuspend] recordEvil).map
        (fun r => r.objRequests.map (fun d => (d.get "Type", d.get "Message", d.get "Action")))
      = some [("T2", "M2", "suspend"), ("T2", "M2", "suspend")] := by
  decide

/-- C2, as stated, fails: after a call with one matching rule the record that was passed in
holds three more fields, `Type`, `Message` and `Action`. -/
theorem C2_record_is_written :
    (FilterRulesLog miniRegexp [ruleKill] recordEvil).map (fun r => r.log)
        = some (recordEvil ++ [("Type", "T1"), ("Message", "M1"), ("Action", "kill")]) ∧
      (FilterRulesLog miniRegexp [ruleKill] recordEvil).map (fun r => decide (r.log = recordEvil))
        = some false ∧
      recordEvil.get "Action" = "" := by
  decide

/-- C2, amended: a call of `FilterRulesLog` that returns leaves every field of the record it
was given, other than `Type`, `Message` and `Action`, with the value it had, and leaves the
whole record as it was when it returns no decision. -/
theorem C2_record_frame (lib : Regexp) (rules : List Rule) (log : StrMap) (r : Filtered)
    (h : FilterRulesLog lib rules log = some r) :
    (∀ k, k ≠ "Type" → k ≠ "Message" → k ≠ "Action" → r.log.get k = log.get k) ∧
    (r.hits = 0 → r.log = log) := by
  obtain ⟨hf, _, he⟩ := FilterRulesLog.loop_frame lib rules ⟨log, 0⟩ r h
  refine ⟨hf, fun h0 => ?_⟩
  have := he h0
  rw [this]

theorem C2_record_frame_witness :
    FilterRulesLog miniRegexp [ruleKill, ruleBroken] recordEvil
        = some ⟨recordEvil ++ [("Type", "T1"), ("Message", "M1"), ("Action", "kill")], 1⟩ ∧
      (recordEvil ++ [("Type", "T1"), ("Message", "M1"), ("Action", "kill")]).get "Image"
        = recordEvil.get "Image" :=
  ⟨by decide,
   (C2_record_frame miniRegexp [ruleKill, ruleBroken] recordEvil
      ⟨recordEvil ++ [("Type", "T1"), ("Message", "M1"), ("Action", "kill")], 1⟩
      (by decide)).1 "Image" (by decide) (by decide) (by decide)⟩

/-- C3: a rule whose `Data.EventCode` differs from the `EventCode` of the record is passed
over by the loop of `FilterRulesLog` without a call of `CheckRule`: the pass returns with the
state it had, for every library, one that compiles no pattern included, and the call gives
the result it gives on the catalog without that rule. -/
theorem C3_prefilter (lib : Regexp) (pre post : List Rule) (rule : Rule)
    (fields : List (String × Value)) (log : StrMap)
    (hData : Rule.index rule "Data" = Value.object fields)
    (hCode : log.get "EventCode" ≠ (ConvertInterfaceToString fields).get "EventCode") :
    (∀ st : Filtered, st.log.get "EventCode" = log.get "EventCode" →
        FilterRulesLog.step lib st rule = some st) ∧
    FilterRulesLog lib (pre ++ rule :: post) log = FilterRulesLog lib (pre ++ post) log := by
  have hstep : ∀ st : Filtered, st.log.get "EventCode" = log.get "EventCode" →
      FilterRulesLog.step lib st rule = some st := by
    intro st hst
    unfold FilterRulesLog.step
    rw [hData]
    simp only
    rw [hst, if_pos hCode]
  refine ⟨hstep, ?_⟩
  unfold FilterRulesLog
  rw [FilterRulesLog.loop_append, FilterRulesLog.loop_append]
  cases hp : FilterRulesLog.loop lib pre ⟨log, 0⟩ with
  | none => rfl
  | some mid =>
    have hmid : mid.log.get "EventCode" = log.get "EventCode" :=
      (FilterRulesLog.loop_frame lib pre _ mid hp).1 "EventCode"
        (by decide) (by decide) (by decide)
    simp only [Option.bind, FilterRulesLog.loop, hstep mid hmid]

theorem C3_prefilter_witness :
    Rule.index ruleBroken "Data"
        = Value.object [("EventCode", Value.string "3"), ("Image", Value.string "(")] ∧
      recordEvil.get "EventCode" ≠
        (ConvertInterfaceToString
          [("EventCode", Value.string "3"), ("Image", Value.string "(")]).get "EventCode" ∧
      FilterRulesLog miniRegexp ([ruleKill] ++ ruleBroken :: [ruleSuspend]) recordEvil
        = FilterRulesLog miniRegexp ([ruleKill] ++ [ruleSuspend]) recordEvil :=
  ⟨rfl, by decide,
   (C3_prefilter miniRegexp [ruleKill] [ruleSuspend] ruleBroken
      [("EventCode", Value.string "3"), ("Image", Value.string "(")] recordEvil
      rfl (by decide)).2⟩

/-! ## The three modes of a pattern -/

/-- C4, the code at the failing input: the expression `a*` has a match in `b` and in `baa`,
the empty match at the start of the text, which is the leftmost one; `FindString` returns the
empty string for it and `CheckRule` rejects the key. -/
theorem C4_empty_match_rejected :
    (miniRegexp.compile "a*").map (fun re => (re "b", re "baa")) = some (some "", some "") ∧
      CheckRule.body miniRegexp [("Image", "b")] "Image" "a*" = some false ∧
      CheckRule miniRegexp [("Image", "b")] [("Image", "a*")] = some false ∧
      CheckRule miniRegexp [("Image", "baa")] [("Image", "a*")] = some false := by
  decide

/-- C5: for a pattern `$K$` with `K` a non-empty string of letters, the loop of `CheckRule`
goes on to the next key when `log[key]` equals `log[K]` and `CheckRule` returns false when it
does not. -/
theorem C5_same_field_reference (lib : Regexp) (log : StrMap) (key K : String) (rest : StrMap)
    (hK : K ≠ "") (hL : ∀ c ∈ K.data, isLetter c = true) :
    CheckRule.body lib log key ("$" ++ K ++ "$") = some (decide (log.get key = log.get K)) ∧
    CheckRule lib log ((key, "$" ++ K ++ "$") :: rest) =
      if log.get key = log.get K then CheckRule lib log rest else some false := by
  have hb : CheckRule.body lib log key ("$" ++ K ++ "$")
      = some (decide (log.get key = log.get K)) := by
    unfold CheckRule.body
    rw [reSimilar_name K hK hL, if_pos (dollar_name_ne_empty "$" K)]
    simp only [(stripDollar_name K hL).1]
    by_cases h : log.get key = log.get K <;> simp [h]
  refine ⟨hb, ?_⟩
  simp only [CheckRule, hb]
  by_cases h : log.get key = log.get K <;> simp [h]

theorem C5_same_field_reference_witness :
    "TargetProcessId" ≠ "" ∧ (∀ c ∈ "TargetProcessId".data, isLetter c = true) ∧
      CheckRule miniRegexp recordSame
          [("SourceProcessId", "$" ++ "TargetProcessId" ++ "$"), ("EventCode", "10")]
        = (if recordSame.get "SourceProcessId" = recordSame.get "TargetProcessId"
            then CheckRule miniRegexp recordSame [("EventCode", "10")] else some false) :=
  ⟨by decide, by decide,
   (C5_same_field_reference miniRegexp recordSame "SourceProcessId" "TargetProcessId"
      [("EventCode", "10")] (by decide) (by decide)).2⟩

/-- C6: a pattern `$$K$` with `K` a non-empty string of letters is not matched by the pattern
of the same-field reference; the loop of `CheckRule` goes on to the next key when `log[key]`
differs from `log[K]` and `CheckRule` returns false when the two are equal. -/
theorem C6_different_field_reference (lib : Regexp) (log : StrMap) (key K : String)
    (rest : StrMap) (hK : K ≠ "") (hL : ∀ c ∈ K.data, isLetter c = true) :
    reSimilar.FindString ("$$" ++ K ++ "$") = "" ∧
    CheckRule.body lib log key ("$$" ++ K ++ "$") = some (decide (log.get key ≠ log.get K)) ∧
    CheckRule lib log ((key, "$$" ++ K ++ "$") :: rest) =
      if log.get key ≠ log.get K then CheckRule lib log rest else some false := by
  have hs := reSimilar_dollar_name K hL
  have hb : CheckRule.body lib log key ("$$" ++ K ++ "$")
      = some (decide (log.get key ≠ log.get K)) := by
    unfold CheckRule.body
    rw [hs, if_neg (by simp), reDifferent_dollar_name K hK hL,
      if_pos (dollar_name_ne_empty "$$" K)]
    simp only [(stripDollar_name K hL).2]
    by_cases h : log.get key = log.get K <;> simp [h]
  refine ⟨hs, hb, ?_⟩
  simp only [CheckRule, hb]
  by_cases h : log.get key = log.get K <;> simp [h]

theorem C6_different_field_reference_witness :
    "DestinationIp" ≠ "" ∧ (∀ c ∈ "DestinationIp".data, isLetter c = true) ∧
      CheckRule.body miniRegexp recordOut "SourceIp" ("$$" ++ "DestinationIp" ++ "$")
        = some (decide (recordOut.get "SourceIp" ≠ recordOut.get "DestinationIp")) :=
  ⟨by decide, by decide,
   (C6_different_field_reference miniRegexp recordOut "SourceIp" "DestinationIp" []
      (by decide) (by decide)).2.1⟩

/-- C7: with a library whose matches are pieces of the text searched, when a key of `Data`
holds a pattern of the third mode that compiles and the record has no such field, the field reads as the empty string, `CheckRule` returns false at that key,
so it never returns true for the record, and it returns false when no other pattern makes it
panic; the pass of `FilterRulesLog` over a rule with this `Data` appends no decision. -/
theorem C7_absent_field_rejects (lib : Regexp) (hlib : lib.MatchWithin) (log data : StrMap)
    (key pattern : String)
    (hmem : (key, pattern) ∈ data)
    (hs : reSimilar.FindString pattern = "") (hd : reDifferent.FindString pattern = "")
    (hcomp : (lib.compile pattern).isSome = true)
    (habs : ∀ v, (key, v) ∉ log) :
    log.get key = "" ∧
    CheckRule.body lib log key pattern = some false ∧
    CheckRule lib log data ≠ some true ∧
    ((∀ kp ∈ data, CheckRule.body lib log kp.1 kp.2 ≠ none) →
      CheckRule lib log data = some false) ∧
    (∀ (rule : Rule) (fields : List (String × Value)) (st : Filtered),
      Rule.index rule "Data" = Value.object fields → ConvertInterfaceToString fields = data →
      st.log = log →
      FilterRulesLog.step lib st rule = some st ∨ FilterRulesLog.step lib st rule = none) := by
  obtain ⟨re, hc⟩ := Option.isSome_iff_exists.mp hcomp
  have hget := StrMap.get_absent log key habs
  have hb : CheckRule.body lib log key pattern = some false := by
    unfold CheckRule.body
    rw [hs, hd, hget]
    simp [hc, FindString_empty lib hlib pattern re hc]
  have hnt : CheckRule lib log data ≠ some true := by
    intro ht
    have := (CheckRule_true_iff lib log data).mp ht (key, pattern) hmem
    rw [hb] at this
    cases this
  refine ⟨hget, hb, hnt, ?_, ?_⟩
  · intro hall
    exact (CheckRule_false_iff lib log data hall).mpr ⟨(key, pattern), hmem, hb⟩
  · intro rule fields st hData hConv hst
    unfold FilterRulesLog.step
    rw [hData]
    simp only [hConv, hst]
    split
    · exact Or.inl rfl
    · cases hcr : CheckRule lib log data with
      | none => exact Or.inr rfl
      | some b =>
        cases b with
        | false => exact Or.inl rfl
        | true => exact absurd hcr hnt

theorem C7_absent_field_rejects_witness :
    (("Image", "evil") ∈ [("EventCode", "1"), ("Image", "evil")]) ∧
      reSimilar.FindString "evil" = "" ∧ reDifferent.FindString "evil" = "" ∧
      (miniRegexp.compile "evil").isSome = true ∧
      (∀ v, ("Image", v) ∉ [("ComputerName", "H1"), ("EventCode", "1")]) ∧
      CheckRule miniRegexp [("ComputerName", "H1"), ("EventCode", "1")]
        [("EventCode", "1"), ("Image", "evil")] ≠ some true :=
  ⟨by decide, by decide, by decide, by decide, by simp,
   (C7_absent_field_rejects miniRegexp miniRegexp_matchWithin
      [("ComputerName", "H1"), ("EventCode", "1")]
      [("EventCode", "1"), ("Image", "evil")] "Image" "evil"
      (by decide) (by decide) (by decide) (by decide) (by simp)).2.2.1⟩

/-! ## Patterns that do not compile, the `EventCode` key, all keys together -/

/-- C8, as stated, fails: `(` is not a valid expression; on a record of the event code of the
rule `CheckRule` panics in `regexp.MustCompile` and so does `FilterRulesLog`. -/
theorem C8_invalid_pattern_panics :
    (miniRegexp.compile "(").isSome = false ∧
      CheckRule miniRegexp recordEvil [("EventCode", "1"), ("Image", "(")] = none ∧
      FilterRulesLog miniRegexp [ruleUnclosed] recordEvil = none ∧
      FilterRulesLog miniRegexp [ruleKill, ruleUnclosed, ruleSuspend] recordEvil = none := by
  decide

/-- C8, amended: a rule whose `Data` holds, under some key, a pattern of the third mode that
does not compile never matches a record; `CheckRule` returns false when a key visited before
that one fails its test, and panics when all the keys visited before it pass, in which case
`FilterRulesLog` on a catalog that starts with the rule panics as well. -/
theorem C8_invalid_pattern (lib : Regexp) (log pre post : StrMap) (key pattern : String)
    (hs : reSimilar.FindString pattern = "") (hd : reDifferent.FindString pattern = "")
    (hc : (lib.compile pattern).isSome = false) :
    CheckRule lib log (pre ++ (key, pattern) :: post) ≠ some true ∧
    (CheckRule lib log pre = some false →
      CheckRule lib log (pre ++ (key, pattern) :: post) = some false) ∧
    (CheckRule lib log pre = some true →
      CheckRule lib log (pre ++ (key, pattern) :: post) = none) ∧
    (∀ (rule : Rule) (fields : List (String × Value)) (rules : List Rule),
      Rule.index rule "Data" = Value.object fields →
      ConvertInterfaceToString fields = pre ++ (key, pattern) :: post →
      log.get "EventCode" = (pre ++ (key, pattern) :: post).get "EventCode" →
      CheckRule lib log pre = some true →
      FilterRulesLog lib (rule :: rules) log = none) := by
  have hnone : lib.compile pattern = none := by
    cases h : lib.compile pattern with
    | none => rfl
    | some re => rw [h] at hc; cases hc
  have hb : CheckRule.body lib log key pattern = none := by
    unfold CheckRule.body
    rw [hs, hd]
    simp [hnone]
  have hhere : CheckRule lib log ((key, pattern) :: post) = none := by
    simp only [CheckRule, hb]
  have hpanic : CheckRule lib log pre = some true →
      CheckRule lib log (pre ++ (key, pattern) :: post) = none := by
    intro hp
    rw [CheckRule_append, hp]
    exact hhere
  refine ⟨?_, ?_, hpanic, ?_⟩
  · intro ht
    have := (CheckRule_true_iff lib log _).mp ht (key, pattern) (by simp)
    rw [hb] at this
    cases this
  · intro hp
    rw [CheckRule_append, hp]
  · intro rule fields rules hData hConv hCode hp
    unfold FilterRulesLog
    simp only [FilterRulesLog.loop, FilterRulesLog.step, hData, hConv]
    rw [if_neg (by simpa using hCode), hpanic hp]

theorem C8_invalid_pattern_witness :
    reSimilar.FindString "(" = "" ∧ reDifferent.FindString "(" = "" ∧
      (miniRegexp.compile "(").isSome = false ∧
      CheckRule miniRegexp recordEvil [("EventCode", "1")] = some true ∧
      CheckRule miniRegexp recordEvil ([("EventCode", "1")] ++ ("Image", "(") :: []) = none :=
  ⟨by decide, by decide, by decide, by decide,
   (C8_invalid_pattern miniRegexp recordEvil [("EventCode", "1")] [] "Image" "("
      (by decide) (by decide) (by decide)).2.2.1 (by decide)⟩

/-- C9, as stated, fails: `CheckRule` tests the key `EventCode` as it tests any other key.
With both `EventCode` values empty the other key passes alone but the rule is rejected, and
`FilterRulesLog` returns no decision; with both values `(` the call panics. -/
theorem C9_event_code_is_evaluated :
    CheckRule miniRegexp [("Image", "evil")] [("Image", "evil")] = some true ∧
      CheckRule miniRegexp [("Image", "evil")] [("EventCode", ""), ("Image", "evil")]
        = some false ∧
      FilterRulesLog miniRegexp [ruleNoCode] [("Image", "evil")]
        = some ⟨[("Image", "evil")], 0⟩ ∧
      CheckRule miniRegexp [("EventCode", "("), ("Image", "evil")] [("Image", "evil")]
        = some true ∧
      CheckRule miniRegexp [("EventCode", "("), ("Image", "evil")]
        [("EventCode", "("), ("Image", "evil")] = none := by
  decide

/-- C9, amended: `CheckRule` tests the key `EventCode` like every other key of `Data`.  Let
the record and the rule hold the same `EventCode` value, not of one of the two reference
forms.  When the value compiles and `FindString` on the value itself is not empty, the key
passes and the result of `CheckRule` is its result on the other keys alone.  When the value
compiles and `FindString` on the value itself is empty, as for the empty value, the key is
rejected: `CheckRule` never returns true, and returns false when the keys visited before
pass.  When the value does not compile, `CheckRule` never returns true: it panics when the
keys visited before pass, and returns false when one of them is rejected. -/
theorem C9_event_code_key (lib : Regexp) (log pre post : StrMap) (code : String)
    (hlog : log.get "EventCode" = code)
    (hs : reSimilar.FindString code = "") (hd : reDifferent.FindString code = "") :
    ((lib.compile code).map (fun re => decide (Regexp.FindString re code = "")) = some false →
      CheckRule.body lib log "EventCode" code = some true ∧
      CheckRule lib log (pre ++ ("EventCode", code) :: post)
        = CheckRule lib log (pre ++ post)) ∧
    ((lib.compile code).map (fun re => decide (Regexp.FindString re code = "")) = some true →
      CheckRule.body lib log "EventCode" code = some false ∧
      CheckRule lib log (pre ++ ("EventCode", code) :: post) ≠ some true ∧
      (CheckRule lib log pre = some true →
        CheckRule lib log (pre ++ ("EventCode", code) :: post) = some false)) ∧
    ((lib.compile code).isSome = false →
      CheckRule.body lib log "EventCode" code = none ∧
      CheckRule lib log (pre ++ ("EventCode", code) :: post) ≠ some true ∧
      (CheckRule lib log pre = some true →
        CheckRule lib log (pre ++ ("EventCode", code) :: post) = none) ∧
      (CheckRule lib log pre = some false →
        CheckRule lib log (pre ++ ("EventCode", code) :: post) = some false)) ∧
    (code = "" → lib.MatchWithin →
      CheckRule lib log (pre ++ ("EventCode", code) :: post) ≠ some true) := by
  have hbody : CheckRule.body lib log "EventCode" code
      = match lib.compile code with
        | none => none
        | some re => if Regexp.FindString re code = "" then some false else some true := by
    unfold CheckRule.body
    rw [hs, hd, hlog]
    simp
  have happ : CheckRule lib log (pre ++ ("EventCode", code) :: post)
      = match CheckRule lib log pre with
        | some true =>
          (match CheckRule.body lib log "EventCode" code with
            | some true => CheckRule lib log post
            | some false => some false
            | none => none)
        | some false => some false
        | none => none := by
    rw [CheckRule_append]
    simp only [CheckRule]
  have hfalse : CheckRule.body lib log "EventCode" code = some false →
      CheckRule lib log (pre ++ ("EventCode", code) :: post) ≠ some true ∧
      (CheckRule lib log pre = some true →
        CheckRule lib log (pre ++ ("EventCode", code) :: post) = some false) := by
    intro hb
    rw [happ, hb]
    cases hpre : CheckRule lib log pre with
    | none => simp
    | some b => cases b <;> simp
  have hnone : CheckRule.body lib log "EventCode" code = none →
      CheckRule lib log (pre ++ ("EventCode", code) :: post) ≠ some true ∧
      (CheckRule lib log pre = some true →
        CheckRule lib log (pre ++ ("EventCode", code) :: post) = none) ∧
      (CheckRule lib log pre = some false →
        CheckRule lib log (pre ++ ("EventCode", code) :: post) = some false) := by
    intro hb
    rw [happ, hb]
    cases hpre : CheckRule lib log pre with
    | none => simp
    | some b => cases b <;> simp
  refine ⟨?_, ?_, ?_, ?_⟩
  · intro hfind
    have hb : CheckRule.body lib log "EventCode" code = some true := by
      rw [hbody]
      cases hcomp : lib.compile code with
      | none => rw [hcomp] at hfind; cases hfind
      | some re =>
        rw [hcomp] at hfind
        have hne : ¬ Regexp.FindString re code = "" := by simpa using hfind
        simp [hne]
    refine ⟨hb, ?_⟩
    rw [CheckRule_append, CheckRule_append]
    simp only [CheckRule, hb]
  · intro hfind
    have hb : CheckRule.body lib log "EventCode" code = some false := by
      rw [hbody]
      cases hcomp : lib.compile code with
      | none => rw [hcomp] at hfind; cases hfind
      | some re =>
        rw [hcomp] at hfind
        have he : Regexp.FindString re code = "" := by simpa using hfind
        simp [he]
    exact ⟨hb, hfalse hb⟩
  · intro hcomp
    have hb : CheckRule.body lib log "EventCode" code = none := by
      rw [hbody]
      cases hc : lib.compile code with
      | none => rfl
      | some re => rw [hc] at hcomp; simp at hcomp
    exact ⟨hb, hnone hb⟩
  · intro hempty hlib
    subst hempty
    cases hc : lib.compile "" with
    | none =>
      have hb : CheckRule.body lib log "EventCode" "" = none := by
        rw [hbody, hc]
      exact (hnone hb).1
    | some re =>
      have he := FindString_empty lib hlib "" re hc
      have hb : CheckRule.body lib log "EventCode" "" = some false := by
        rw [hbody, hc]
        simp [he]
      exact (hfalse hb).1

theorem C9_event_code_key_witness :
    recordSame.get "EventCode" = "10" ∧
      reSimilar.FindString "10" = "" ∧ reDifferent.FindString "10" = "" ∧
      (miniRegexp.compile "10").map (fun re => decide (Regexp.FindString re "10" = ""))
        = some false ∧
      CheckRule miniRegexp recordSame
          ([("ProcessId", "7")] ++ ("EventCode", "10") :: [("SourceProcessId", "7")])
        = CheckRule miniRegexp recordSame ([("ProcessId", "7")] ++ [("SourceProcessId", "7")]) ∧
      (miniRegexp.compile "").map (fun re => decide (Regexp.FindString re "" = ""))
        = some true ∧
      CheckRule miniRegexp [("Image", "evil")]
          ([("Image", "evil")] ++ ("EventCode", "") :: []) = some false ∧
      (miniRegexp.compile "(").isSome = false ∧
      CheckRule miniRegexp [("EventCode", "("), ("Image", "evil")]
          ([("Image", "evil")] ++ ("EventCode", "(") :: []) = none ∧
      CheckRule miniRegexp [("EventCode", "("), ("Image", "evil")]
          ([("Image", "good")] ++ ("EventCode", "(") :: []) = some false :=
  ⟨by decide, by decide, by decide, by decide,
   ((C9_event_code_key miniRegexp recordSame [("ProcessId", "7")] [("SourceProcessId", "7")]
      "10" (by decide) (by decide) (by decide)).1 (by decide)).2,
   by decide,
   ((C9_event_code_key miniRegexp [("Image", "evil")] [("Image", "evil")] [] ""
      (by decide) (by decide) (by decide)).2.1 (by decide)).2.2 (by decide),
   by decide,
   ((C9_event_code_key miniRegexp [("EventCode", "("), ("Image", "evil")] [("Image", "evil")]
      [] "(" (by decide) (by decide) (by decide)).2.2.1 (by decide)).2.2.1 (by decide),
   ((C9_event_code_key miniRegexp [("EventCode", "("), ("Image", "evil")] [("Image", "good")]
      [] "(" (by decide) (by decide) (by decide)).2.2.1 (by decide)).2.2.2 (by decide)⟩

/-- C10: when every pattern of the third mode in `Data` compiles, `CheckRule` returns; it
returns true exactly when the loop body passes every key, false exactly when the loop body
rejects some key, and the result is the same for every order of the keys. -/
theorem C10_every_key_must_pass (lib : Regexp) (log data : StrMap)
    (hc : ∀ kp ∈ data, reSimilar.FindString kp.2 = "" → reDifferent.FindString kp.2 = "" →
      (lib.compile kp.2).isSome = true) :
    (CheckRule lib log data).isSome = true ∧
    (CheckRule lib log data = some true ↔
      ∀ kp ∈ data, CheckRule.body lib log kp.1 kp.2 = some true) ∧
    (CheckRule lib log data = some false ↔
      ∃ kp ∈ data, CheckRule.body lib log kp.1 kp.2 = some false) ∧
    (∀ data' : StrMap, data'.Perm data → CheckRule lib log data' = CheckRule lib log data) := by
  have hret : ∀ kp ∈ data, CheckRule.body lib log kp.1 kp.2 ≠ none :=
    fun kp hkp => CheckRule.body_returns lib log kp.1 kp.2 (hc kp hkp)
  refine ⟨?_, CheckRule_true_iff lib log data, CheckRule_false_iff lib log data hret, ?_⟩
  · have := CheckRule_returns lib log data hret
    cases h : CheckRule lib log data with
    | none => exact absurd h this
    | some b => rfl
  · intro data' hperm
    have hret' : ∀ kp ∈ data', CheckRule.body lib log kp.1 kp.2 ≠ none :=
      fun kp hkp => hret kp (hperm.mem_iff.mp hkp)
    cases h' : CheckRule lib log data' with
    | none => exact absurd h' (CheckRule_returns lib log data' hret')
    | some b =>
      cases b with
      | true =>
        have hall := (CheckRule_true_iff lib log data').mp h'
        exact ((CheckRule_true_iff lib log data).mpr
          (fun kp hkp => hall kp (hperm.mem_iff.mpr hkp))).symm
      | false =>
        obtain ⟨kp, hkp, hf⟩ := (CheckRule_false_iff lib log data' hret').mp h'
        exact ((CheckRule_false_iff lib log data hret).mpr
          ⟨kp, hperm.mem_iff.mp hkp, hf⟩).symm

theorem C10_every_key_must_pass_witness :
    (∀ kp ∈ [("EventCode", "10"), ("SourceProcessId", "$TargetProcessId$"), ("ProcessId", "7")],
        reSimilar.FindString kp.2 = "" → reDifferent.FindString kp.2 = "" →
        (miniRegexp.compile kp.2).isSome = true) ∧
      CheckRule miniRegexp recordOther
          [("ProcessId", "7"), ("SourceProcessId", "$TargetProcessId$"), ("EventCode", "10")]
        = CheckRule miniRegexp recordOther
          [("EventCode", "10"), ("SourceProcessId", "$TargetProcessId$"), ("ProcessId", "7")] :=
  ⟨by decide,
   (C10_every_key_must_pass miniRegexp recordOther
      [("EventCode", "10"), ("SourceProcessId", "$TargetProcessId$"), ("ProcessId", "7")]
      (by decide)).2.2.2
      [("ProcessId", "7"), ("SourceProcessId", "$TargetProcessId$"), ("EventCode", "10")]
      (by decide)⟩

/-! ## Lemmas on the catalog -/

theorem HandleRule.search_none (cand : Rule) (rules : List Rule) :
    HandleRule.search cand rules = some none ↔
      ∀ rule ∈ rules, HandleRule.same rule cand = some false := by
  induction rules with
  | nil => simp [HandleRule.search]
  | cons r rest ih =>
    simp only [HandleRule.search, List.forall_mem_cons]
    cases hs : HandleRule.same r cand with
    | none => simp
    | some b =>
      cases b with
      | true => simp
      | false =>
        simp only [true_and]
        rw [← ih]
        cases HandleRule.search cand rest with
        | none => simp
        | some o => cases o <;> simp

theorem HandleRule.search_some (cand : Rule) (rules : List Rule) (i : Nat)
    (h : HandleRule.search cand rules = some (some i)) :
    ∃ pre r post, rules = pre ++ r :: post ∧ pre.length = i ∧
      (∀ x ∈ pre, HandleRule.same x cand = some false) ∧
      HandleRule.same r cand = some true := by
  induction rules generalizing i with
  | nil => simp [HandleRule.search] at h
  | cons r rest ih =>
    simp only [HandleRule.search] at h
    cases hs : HandleRule.same r cand with
    | none => simp [hs] at h
    | some b =>
      cases b with
      | true =>
        simp [hs] at h
        subst h
        exact ⟨[], r, rest, rfl, rfl, by simp, hs⟩
      | false =>
        simp only [hs] at h
        cases hr : HandleRule.search cand rest with
        | none => simp [hr] at h
        | some o =>
          cases o with
          | none => simp [hr] at h
          | some j =>
            simp [hr] at h
            obtain ⟨pre, r', post, he, hl, hp, ht⟩ := ih j hr
            refine ⟨r :: pre, r', post, by simp [he], by simp [hl, h], ?_, ht⟩
            intro x hx
            rcases List.mem_cons.mp hx with hx | hx
            · rw [hx]; exact hs
            · exact hp x hx

theorem HandleRule.search_returns (cand : Rule) (rules : List Rule)
    (hwf : ∀ rule ∈ rules, HandleRule.same rule cand ≠ none) :
    HandleRule.search cand rules ≠ none := by
  induction rules with
  | nil => simp [HandleRule.search]
  | cons r rest ih =>
    have hr := hwf r (List.mem_cons_self _ _)
    have ih' := ih (fun x hx => hwf x (List.mem_cons_of_mem _ hx))
    simp only [HandleRule.search]
    cases hs : HandleRule.same r cand with
    | none => exact absurd hs hr
    | some b =>
      cases b with
      | true => simp
      | false =>
        cases hsr : HandleRule.search cand rest with
        | none => exact absurd hsr ih'
        | some o => simp

theorem eraseIdx_middle {α : Type} (pre : List α) (r : α) (post : List α) :
    (pre ++ r :: post).eraseIdx pre.length = pre ++ post := by
  induction pre with
  | nil => rfl
  | cons x xs ih => simp [List.eraseIdx, ih]

/-- The verb `delete` on a catalog whose rules the test can be applied to: the call returns,
and either it removes the rule at the first index the test accepts, or the test rejects every
rule and the catalog is the one before the call. -/
theorem HandleRule.delete_cases (ioOk : Bool) (ruleInterface : Rule) (c : Catalog)
    (hverb : sprintV (Rule.index ruleInterface "Action Rule") = "delete")
    (hwf : ∀ rule ∈ c.rules,
      HandleRule.same rule (Rule.delete ruleInterface "Action Rule") ≠ none) :
    (∃ pre r post, c.rules = pre ++ r :: post ∧
        (∀ x ∈ pre, HandleRule.same x (Rule.delete ruleInterface "Action Rule") = some false) ∧
        HandleRule.same r (Rule.delete ruleInterface "Action Rule") = some true ∧
        HandleRule ioOk ruleInterface c =
          some (⟨pre ++ post, (WriteSliceMapInterface ioOk c.file (pre ++ post)).1⟩, false)) ∨
    ((∀ x ∈ c.rules, HandleRule.same x (Rule.delete ruleInterface "Action Rule") = some false) ∧
        HandleRule ioOk ruleInterface c = some (c, false)) := by
  have hret := HandleRule.search_returns _ c.rules hwf
  cases hs : HandleRule.search (Rule.delete ruleInterface "Action Rule") c.rules with
  | none => exact absurd hs hret
  | some o =>
    cases o with
    | none =>
      right
      refine ⟨(HandleRule.search_none _ _).mp hs, ?_⟩
      simp [HandleRule, hverb, hs]
    | some i =>
      left
      obtain ⟨pre, r, post, he, hl, hp, ht⟩ := HandleRule.search_some _ _ i hs
      refine ⟨pre, r, post, he, hp, ht, ?_⟩
      have herase : c.rules.eraseIdx i = pre ++ post := by
        rw [he, ← hl]
        exact eraseIdx_middle pre r post
      simp only [HandleRule, hverb, if_true, hs, herase]
      cases ioOk <;> simp [WriteSliceMapInterface]

/-! ## The verbs `delete` and `add` -/

/-- The test of the loop of the verb `delete`, for two rules whose `Data` are objects: it
accepts exactly when `==` holds of the two `Type`, of the two `Message` and of the two
`Action`, and `CheckMapEqual` accepts the two `Data` converted to text. -/
theorem HandleRule.same_iff (rule cand : Rule) (fields1 fields2 : List (String × Value))
    (h1 : Rule.index rule "Data" = Value.object fields1)
    (h2 : Rule.index cand "Data" = Value.object fields2) :
    HandleRule.same rule cand = some true ↔
      interfaceEq (Rule.index rule "Type") (Rule.index cand "Type") = some true ∧
      interfaceEq (Rule.index rule "Message") (Rule.index cand "Message") = some true ∧
      interfaceEq (Rule.index rule "Action") (Rule.index cand "Action") = some true ∧
      CheckMapEqual (ConvertInterfaceToString fields1) (ConvertInterfaceToString fields2)
        = true := by
  have hsame : HandleRule.same rule cand
      = andThen (interfaceEq (Rule.index rule "Type") (Rule.index cand "Type"))
          (andThen (interfaceEq (Rule.index rule "Message") (Rule.index cand "Message"))
            (andThen (interfaceEq (Rule.index rule "Action") (Rule.index cand "Action"))
              (some (CheckMapEqual (ConvertInterfaceToString fields1)
                (ConvertInterfaceToString fields2))))) := by
    unfold HandleRule.same
    rw [h1, h2]
  rw [hsame]
  cases interfaceEq (Rule.index rule "Type") (Rule.index cand "Type") with
  | none => simp [andThen]
  | some t =>
    cases t with
    | false => simp [andThen]
    | true =>
      cases interfaceEq (Rule.index rule "Message") (Rule.index cand "Message") with
      | none => simp [andThen]
      | some m =>
        cases m with
        | false => simp [andThen]
        | true =>
          cases interfaceEq (Rule.index rule "Action") (Rule.index cand "Action") with
          | none => simp [andThen]
          | some a => cases a <;> simp [andThen]

/-- The same test when `Type`, `Message` and `Action` are texts on both sides: the three
texts are compared, then the two `Data`. -/
theorem HandleRule.same_strings (rule cand : Rule) (fields1 fields2 : List (String × Value))
    (t1 t2 m1 m2 a1 a2 : String)
    (h1 : Rule.index rule "Data" = Value.object fields1)
    (h2 : Rule.index cand "Data" = Value.object fields2)
    (ht1 : Rule.index rule "Type" = Value.string t1)
    (ht2 : Rule.index cand "Type" = Value.string t2)
    (hm1 : Rule.index rule "Message" = Value.string m1)
    (hm2 : Rule.index cand "Message" = Value.string m2)
    (ha1 : Rule.index rule "Action" = Value.string a1)
    (ha2 : Rule.index cand "Action" = Value.string a2) :
    HandleRule.same rule cand
      = some (decide (t1 = t2 ∧ m1 = m2 ∧ a1 = a2) &&
          CheckMapEqual (ConvertInterfaceToString fields1) (ConvertInterfaceToString fields2)) := by
  unfold HandleRule.same
  rw [h1, h2]
  simp only [ht1, ht2, hm1, hm2, ha1, ha2, interfaceEq]
  by_cases ht : t1 = t2 <;> by_cases hm : m1 = m2 <;> by_cases ha : a1 = a2 <;>
    simp [andThen, ht, hm, ha]

theorem interfaceEq_values :
    interfaceEq (Value.number "0") (Value.number "-0") = some true ∧
      interfaceEq (Value.number "1") (Value.number "1") = some true ∧
      interfaceEq (Value.number "1") (Value.number "2") = some false ∧
      interfaceEq (Value.number "1") (Value.string "1") = some false ∧
      interfaceEq Value.null Value.null = some true ∧
      interfaceEq (Value.array []) (Value.array []) = none ∧
      interfaceEq (Value.string "kill") (Value.string "kill") = some true ∧
      interfaceEq (Value.string "kill") (Value.string "Kill") = some false := by
  decide

/-- C11: with the verb `delete`, a call of `HandleRule` that returns has either removed the
rule at the first index where the test of the loop accepts (every rule before it is rejected)
and kept the other rules in their order, or found that the test rejects every rule and left
the catalog as it was; the call returns when the test can be applied to every rule of the
catalog.  The test accepts a rule exactly when its `Type`, `Message` and `Action` are equal
to the candidate's and `CheckMapEqual` accepts the two `Data`; for texts this is the equality
of the three texts. -/
theorem C11_delete_first_match (ioOk : Bool) (ruleInterface : Rule) (c : Catalog)
    (hverb : sprintV (Rule.index ruleInterface "Action Rule") = "delete") :
    (∀ res, HandleRule ioOk ruleInterface c = some res →
      ((∃ pre r post, c.rules = pre ++ r :: post ∧
          (∀ x ∈ pre,
            HandleRule.same x (Rule.delete ruleInterface "Action Rule") = some false) ∧
          HandleRule.same r (Rule.delete ruleInterface "Action Rule") = some true ∧
          res.1.rules = pre ++ post) ∨
       ((∀ x ∈ c.rules,
            HandleRule.same x (Rule.delete ruleInterface "Action Rule") = some false) ∧
          res.1.rules = c.rules))) ∧
    ((∀ rule ∈ c.rules,
        HandleRule.same rule (Rule.delete ruleInterface "Action Rule") ≠ none) →
      (HandleRule ioOk ruleInterface c).isSome = true) ∧
    (∀ (rule cand : Rule) (fields1 fields2 : List (String × Value)),
      Rule.index rule "Data" = Value.object fields1 →
      Rule.index cand "Data" = Value.object fields2 →
      (HandleRule.same rule cand = some true ↔
        interfaceEq (Rule.index rule "Type") (Rule.index cand "Type") = some true ∧
        interfaceEq (Rule.index rule "Message") (Rule.index cand "Message") = some true ∧
        interfaceEq (Rule.index rule "Action") (Rule.index cand "Action") = some true ∧
        CheckMapEqual (ConvertInterfaceToString fields1) (ConvertInterfaceToString fields2)
          = true)) ∧
    (∀ (rule cand : Rule) (fields1 fields2 : List (String × Value))
        (t1 t2 m1 m2 a1 a2 : String),
      Rule.index rule "Data" = Value.object fields1 →
      Rule.index cand "Data" = Value.object fields2 →
      Rule.index rule "Type" = Value.string t1 → Rule.index cand "Type" = Value.string t2 →
      Rule.index rule "Message" = Value.string m1 →
      Rule.index cand "Message" = Value.string m2 →
      Rule.index rule "Action" = Value.string a1 → Rule.index cand "Action" = Value.string a2 →
      HandleRule.same rule cand
        = some (decide (t1 = t2 ∧ m1 = m2 ∧ a1 = a2) &&
            CheckMapEqual (ConvertInterfaceToString fields1)
              (ConvertInterfaceToString fields2))) := by
  refine ⟨?_, ?_, HandleRule.same_iff, HandleRule.same_strings⟩
  · intro res hres
    simp only [HandleRule, hverb, if_true] at hres
    cases hs : HandleRule.search (Rule.delete ruleInterface "Action Rule") c.rules with
    | none => simp [hs] at hres
    | some o =>
      cases o with
      | none =>
        simp only [hs, Option.some.injEq] at hres
        subst hres
        exact Or.inr ⟨(HandleRule.search_none _ _).mp hs, rfl⟩
      | some i =>
        simp only [hs, Option.some.injEq] at hres
        subst hres
        obtain ⟨pre, r, post, he, hl, hp, ht⟩ := HandleRule.search_some _ _ i hs
        refine Or.inl ⟨pre, r, post, he, hp, ht, ?_⟩
        simp only
        rw [he, ← hl]
        exact eraseIdx_middle pre r post
  · intro hwf
    rcases HandleRule.delete_cases ioOk ruleInterface c hverb hwf with
      ⟨_, _, _, _, _, _, hres⟩ | ⟨_, hres⟩ <;> rw [hres] <;> rfl

theorem C11_delete_first_match_witness :
    sprintV (Rule.index (("Action Rule", Value.string "delete") :: ruleSuspend) "Action Rule")
        = "delete" ∧
      (∀ rule ∈ [ruleKill, ruleSuspend, ruleSuspend],
        HandleRule.same rule
          (Rule.delete (("Action Rule", Value.string "delete") :: ruleSuspend) "Action Rule")
          ≠ none) ∧
      (HandleRule true (("Action Rule", Value.string "delete") :: ruleSuspend)
          ⟨[ruleKill, ruleSuspend, ruleSuspend], []⟩).isSome = true ∧
      HandleRule.same ruleSuspend
          (Rule.delete (("Action Rule", Value.string "delete") :: ruleSuspend) "Action Rule")
        = some true ∧
      HandleRule.same ruleKill
          (Rule.delete (("Action Rule", Value.string "delete") :: ruleSuspend) "Action Rule")
        = some false ∧
      (HandleRule true (("Action Rule", Value.string "delete") :: ruleSuspend)
          ⟨[ruleKill, ruleSuspend, ruleSuspend], []⟩).map
          (fun res => res.1.rules.map (fun rule => sprintV (Rule.index rule "Action")))
        = some ["kill", "suspend"] :=
  ⟨by decide, by decide,
   (C11_delete_first_match true (("Action Rule", Value.string "delete") :: ruleSuspend)
      ⟨[ruleKill, ruleSuspend, ruleSuspend], []⟩ (by decide)).2.1 (by decide),
   (C11_delete_first_match true (("Action Rule", Value.string "delete") :: ruleSuspend)
      ⟨[ruleKill, ruleSuspend, ruleSuspend], []⟩ (by decide)).2.2.2 ruleSuspend
      (Rule.delete (("Action Rule", Value.string "delete") :: ruleSuspend) "Action Rule")
      [("EventCode", Value.string "1"), ("Image", Value.string "evil")]
      [("EventCode", Value.string "1"), ("Image", Value.string "evil")]
      "T2" "T2" "M2" "M2" "suspend" "suspend" rfl rfl rfl rfl rfl rfl rfl rfl,
   (C11_delete_first_match true (("Action Rule", Value.string "delete") :: ruleSuspend)
      ⟨[ruleKill, ruleSuspend, ruleSuspend], []⟩ (by decide)).2.2.2 ruleKill
      (Rule.delete (("Action Rule", Value.string "delete") :: ruleSuspend) "Action Rule")
      [("EventCode", Value.string "1"), ("Image", Value.string "evil")]
      [("EventCode", Value.string "1"), ("Image", Value.string "evil")]
      "T1" "T2" "M1" "M2" "kill" "suspend" rfl rfl rfl rfl rfl rfl rfl rfl,
   by decide⟩

/-- The verb `delete` on three rules, the last two of them equal to the candidate: the first
of the two is removed, the other rules stay in their order. -/
theorem delete_sample :
    (HandleRule true (("Action Rule", Value.string "delete") :: ruleSuspend)
        ⟨[ruleKill, ruleSuspend, ruleSuspend], [ruleKill, ruleSuspend, ruleSuspend]⟩).map
        (fun res => (res.1.rules.map (fun rule => sprintV (Rule.index rule "Action")),
          res.1.file.map (fun rule => sprintV (Rule.index rule "Action")), res.2))
      = some (["kill", "suspend"], ["kill", "suspend"], false) := by
  decide

/-- C12, as stated, fails: the catalog holds the same rule twice, the verb `delete` removes
the first of the two, and the catalog left still holds a rule that passes the test; a record
that matches it still gives a decision with its `Action`. -/
theorem C12_duplicate_survives :
    (HandleRule true (("Action Rule", Value.string "delete") :: ruleKill)
        ⟨[ruleKill, ruleKill], [ruleKill, ruleKill]⟩).map
        (fun res => res.1.rules.map (fun rule => HandleRule.same rule ruleKill))
      = some [some true] ∧
    ((HandleRule true (("Action Rule", Value.string "delete") :: ruleKill)
        ⟨[ruleKill, ruleKill], [ruleKill, ruleKill]⟩).bind
        (fun res => FilterRulesLog miniRegexp res.1.rules recordEvil)).map
        (fun r => r.objRequests.map (fun d => d.get "Action"))
      = some ["kill"] := by
  decide

/-- The verb `add`: the call returns with the rule appended. -/
theorem HandleRule.add_result (ioOk : Bool) (ruleInterface : Rule) (c : Catalog)
    (hverb : sprintV (Rule.index ruleInterface "Action Rule") = "add") :
    HandleRule ioOk ruleInterface c =
      some (⟨c.rules ++ [Rule.delete ruleInterface "Action Rule"],
        (WriteMapInterface ioOk c.file (Rule.delete ruleInterface "Action Rule")).1⟩,
        (WriteMapInterface ioOk c.file (Rule.delete ruleInterface "Action Rule")).2) := by
  have hnd : ¬ ("add" = "delete") := by decide
  simp only [HandleRule, hverb, if_neg hnd, if_true]

/-- C12, amended: a `delete` that finds a rule leaves a catalog with one rule fewer among
those the test accepts; when the catalog held just one such rule the test rejects every rule
that is left, and when the catalog held one rule in all the catalog left is empty and
`FilterRulesLog` returns no decision on it, for every record. -/
theorem C12_delete_one_fewer (ioOk : Bool) (ruleInterface : Rule) (c : Catalog)
    (hverb : sprintV (Rule.index ruleInterface "Action Rule") = "delete")
    (hwf : ∀ rule ∈ c.rules,
      HandleRule.same rule (Rule.delete ruleInterface "Action Rule") ≠ none)
    (hfound : ∃ rule ∈ c.rules,
      HandleRule.same rule (Rule.delete ruleInterface "Action Rule") = some true) :
    ∃ res, HandleRule ioOk ruleInterface c = some res ∧
      res.1.rules.countP (fun rule =>
          decide (HandleRule.same rule (Rule.delete ruleInterface "Action Rule") = some true))
          + 1 =
        c.rules.countP (fun rule =>
          decide (HandleRule.same rule (Rule.delete ruleInterface "Action Rule") = some true)) ∧
      (c.rules.countP (fun rule =>
          decide (HandleRule.same rule (Rule.delete ruleInterface "Action Rule") = some true))
          = 1 →
        ∀ rule ∈ res.1.rules,
          HandleRule.same rule (Rule.delete ruleInterface "Action Rule") = some false) ∧
      (c.rules.length = 1 →
        ∀ (lib : Regexp) (log : StrMap),
          FilterRulesLog lib res.1.rules log = some ⟨log, 0⟩) := by
  rcases HandleRule.delete_cases ioOk ruleInterface c hverb hwf with
    ⟨pre, r, post, he, _, ht, hres⟩ | ⟨hall, _⟩
  · have hcount : (pre ++ post).countP (fun rule =>
          decide (HandleRule.same rule (Rule.delete ruleInterface "Action Rule") = some true))
          + 1 =
        c.rules.countP (fun rule =>
          decide (HandleRule.same rule (Rule.delete ruleInterface "Action Rule") = some true)) := by
      rw [he, List.countP_append, List.countP_append, List.countP_cons_of_pos _ _ (by simpa using ht)]
      omega
    refine ⟨_, hres, hcount, ?_, ?_⟩
    · intro hone rule hrule
      have hzero : (pre ++ post).countP (fun rule =>
          decide (HandleRule.same rule (Rule.delete ruleInterface "Action Rule") = some true))
          = 0 := by omega
      have hnot := (List.countP_eq_zero.mp hzero) rule hrule
      have hin : rule ∈ c.rules := by
        rw [he]
        rcases List.mem_append.mp hrule with h | h
        · exact List.mem_append_left _ h
        · exact List.mem_append_right _ (List.mem_cons_of_mem _ h)
      have hsome := hwf rule hin
      cases hsame : HandleRule.same rule (Rule.delete ruleInterface "Action Rule") with
      | none => exact absurd hsame hsome
      | some b =>
        cases b with
        | false => rfl
        | true => simp [hsame] at hnot
    · intro hlen lib log
      have hl : (pre ++ r :: post).length = 1 := by rw [← he]; exact hlen
      have hpre : pre = [] := by
        cases pre with
        | nil => rfl
        | cons x xs => simp at hl
      have hpost : post = [] := by
        subst hpre
        cases post with
        | nil => rfl
        | cons x xs => simp at hl
      subst hpre hpost
      rfl
  · obtain ⟨rule, hrule, htrue⟩ := hfound
    rw [hall rule hrule] at htrue
    cases htrue

theorem C12_delete_one_fewer_witness :
    sprintV (Rule.index (("Action Rule", Value.string "delete") :: ruleKill) "Action Rule")
        = "delete" ∧
      (∀ rule ∈ [ruleKill],
        HandleRule.same rule
          (Rule.delete (("Action Rule", Value.string "delete") :: ruleKill) "Action Rule")
          ≠ none) ∧
      (∃ rule ∈ [ruleKill],
        HandleRule.same rule
          (Rule.delete (("Action Rule", Value.string "delete") :: ruleKill) "Action Rule")
          = some true) ∧
      (HandleRule true (("Action Rule", Value.string "delete") :: ruleKill)
          ⟨[ruleKill], [ruleKill]⟩).isSome = true := by
  have hwf : ∀ rule ∈ [ruleKill],
      HandleRule.same rule
        (Rule.delete (("Action Rule", Value.string "delete") :: ruleKill) "Action Rule")
        ≠ none := by decide
  have hfound : ∃ rule ∈ [ruleKill],
      HandleRule.same rule
        (Rule.delete (("Action Rule", Value.string "delete") :: ruleKill) "Action Rule")
        = some true := ⟨ruleKill, by simp, by decide⟩
  obtain ⟨res, hres, _⟩ := C12_delete_one_fewer true
    (("Action Rule", Value.string "delete") :: ruleKill) ⟨[ruleKill], [ruleKill]⟩
    (by decide) hwf hfound
  exact ⟨by decide, hwf, hfound, by rw [hres]; rfl⟩

/-- C13, the code at the failing input: the maps `a ↦ ""` and `b ↦ ""` have different keys,
and so have the two `Data` maps below, yet `CheckMapEqual` returns true for both pairs: the
lengths agree and a key that is absent from `data2` reads as the empty string. -/
theorem C13_absent_key_reads_empty :
    CheckMapEqual [("a", "")] [("b", "")] = true ∧
      CheckMapEqual [("EventCode", "1"), ("Image", "")] [("EventCode", "1"), ("User", "x")]
        = true ∧
      CheckMapEqual [("EventCode", "1"), ("User", "x")] [("EventCode", "1"), ("Image", "")]
        = false := by
  decide

/-- Go `delete(m, k)` takes the key `k` away and keeps every other entry, in place. -/
theorem Rule.delete_frame (m : Rule) (k : String) :
    Rule.has (Rule.delete m k) k = false ∧
    Rule.index (Rule.delete m k) k = Value.null ∧
    (∀ k', k' ≠ k →
      Rule.index (Rule.delete m k) k' = Rule.index m k' ∧
      Rule.has (Rule.delete m k) k' = Rule.has m k') := by
  induction m with
  | nil => exact ⟨rfl, rfl, fun _ _ => ⟨rfl, rfl⟩⟩
  | cons e rest ih =>
    obtain ⟨hhas, hidx, hframe⟩ := ih
    simp only [Rule.has, Rule.delete] at hhas hidx hframe
    by_cases he : e.1 = k
    · refine ⟨?_, ?_, ?_⟩
      · simp [Rule.has, Rule.delete, List.filter_cons, he]
      · simpa [Rule.delete, List.filter_cons, he] using hidx
      · intro k' hk'
        have hne : ¬ k = k' := fun h => hk' h.symm
        have := hframe k' hk'
        simp only [Rule.has, Rule.delete, List.filter_cons, he, ne_eq, not_true_eq_false,
          decide_False, Bool.false_eq_true, if_false, Rule.index, hne, List.any_cons,
          Bool.false_or]
        exact this
    · refine ⟨?_, ?_, ?_⟩
      · simp only [Rule.has, Rule.delete, List.filter_cons, he, ne_eq, not_false_eq_true,
          decide_True, if_true, List.any_cons, decide_False, Bool.false_or]
        exact hhas
      · simp only [Rule.delete, List.filter_cons, he, ne_eq, not_false_eq_true,
          decide_True, if_true, Rule.index, if_false]
        exact hidx
      · intro k' hk'
        have := hframe k' hk'
        simp only [Rule.has, Rule.delete, List.filter_cons, he, ne_eq, not_false_eq_true,
          decide_True, if_true, Rule.index, List.any_cons]
        by_cases hk : e.1 = k'
        · simp [hk]
        · simp only [hk, if_false, decide_False, Bool.false_or]
          exact this

/-- C14: with the verb `add`, `HandleRule` returns, whether or not the rules file can be
written, and the catalog it leaves is the catalog before the call followed by one rule; the
rules already there keep index and content.  The rule appended is the rule received without
its key `Action Rule`: the key is absent from it, and every other key is present in it exactly
when it is in the rule received, with the same value. -/
theorem C14_add_appends (ioOk : Bool) (ruleInterface : Rule) (c : Catalog)
    (hverb : sprintV (Rule.index ruleInterface "Action Rule") = "add") :
    ∃ res added, HandleRule ioOk ruleInterface c = some res ∧
      res.1.rules = c.rules ++ [added] ∧
      (∀ i, i < c.rules.length → res.1.rules[i]? = c.rules[i]?) ∧
      added = ruleInterface.filter (fun e => decide (e.1 ≠ "Action Rule")) ∧
      Rule.has added "Action Rule" = false ∧
      Rule.index added "Action Rule" = Value.null ∧
      (∀ k, k ≠ "Action Rule" →
        Rule.index added k = Rule.index ruleInterface k ∧
        Rule.has added k = Rule.has ruleInterface k) := by
  have hf := Rule.delete_frame ruleInterface "Action Rule"
  refine ⟨_, Rule.delete ruleInterface "Action Rule",
    HandleRule.add_result ioOk ruleInterface c hverb, rfl, ?_, rfl, hf.1, hf.2.1, hf.2.2⟩
  intro i hi
  simp only
  rw [List.getElem?_append_left hi]

theorem C14_add_appends_witness :
    sprintV (Rule.index (("Action Rule", Value.string "add") :: ruleSuspend) "Action Rule")
        = "add" ∧
      (HandleRule false (("Action Rule", Value.string "add") :: ruleSuspend)
          ⟨[ruleKill], [ruleKill]⟩).isSome = true ∧
      (HandleRule false (("Action Rule", Value.string "add") :: ruleSuspend)
          ⟨[ruleKill], [ruleKill]⟩).map (fun res => res.1.rules.map (fun rule =>
            (sprintV (Rule.index rule "Type"), sprintV (Rule.index rule "Message"),
              sprintV (Rule.index rule "Action"), Rule.has rule "Data",
              Rule.has rule "Action Rule")))
        = some [("T1", "M1", "kill", true, false), ("T2", "M2", "suspend", true, false)] := by
  obtain ⟨res, added, hres, _⟩ := C14_add_appends false
    (("Action Rule", Value.string "add") :: ruleSuspend) ⟨[ruleKill], [ruleKill]⟩ (by decide)
  exact ⟨by decide, by rw [hres]; rfl, by decide⟩

/-- C15: when the rules file holds the catalog before a call of `HandleRule` and the file can
be written, a call that returns leaves a file that holds the catalog and reports no error;
the call returns for the verb `add`, and for the verb `delete` when the test of the loop can
be applied to every rule. -/
theorem C15_file_follows_catalog (ruleInterface : Rule) (c : Catalog)
    (hfile : c.file = c.rules) :
    (∀ res, HandleRule true ruleInterface c = some res →
        res.1.file = res.1.rules ∧ res.2 = false) ∧
    (sprintV (Rule.index ruleInterface "Action Rule") = "add" →
        (HandleRule true ruleInterface c).isSome = true) ∧
    (sprintV (Rule.index ruleInterface "Action Rule") = "delete" →
        (∀ rule ∈ c.rules,
          HandleRule.same rule (Rule.delete ruleInterface "Action Rule") ≠ none) →
        (HandleRule true ruleInterface c).isSome = true) := by
  refine ⟨?_, ?_, ?_⟩
  · intro res hres
    unfold HandleRule at hres
    simp only at hres
    split at hres
    · split at hres
      · cases hres
      · cases hres
        exact ⟨hfile, rfl⟩
      · cases hres
        simp [WriteSliceMapInterface]
    · split at hres
      · cases hres
        simp [WriteMapInterface, hfile]
      · cases hres
        exact ⟨hfile, rfl⟩
  · intro hverb
    rw [HandleRule.add_result true ruleInterface c hverb]; rfl
  · intro hverb hwf
    rcases HandleRule.delete_cases true ruleInterface c hverb hwf with
      ⟨_, _, _, _, _, _, hres⟩ | ⟨_, hres⟩ <;> rw [hres] <;> rfl

theorem C15_file_follows_catalog_witness :
    (⟨[ruleKill], [ruleKill]⟩ : Catalog).file = (⟨[ruleKill], [ruleKill]⟩ : Catalog).rules ∧
      sprintV (Rule.index (("Action Rule", Value.string "add") :: ruleSuspend) "Action Rule")
        = "add" ∧
      (HandleRule true (("Action Rule", Value.string "add") :: ruleSuspend)
        ⟨[ruleKill], [ruleKill]⟩).isSome = true :=
  ⟨rfl, by decide,
   (C15_file_follows_catalog (("Action Rule", Value.string "add") :: ruleSuspend)
      ⟨[ruleKill], [ruleKill]⟩ rfl).2.1 (by decide)⟩

/-! ## Check-ins -/

/-- The map a three-field descriptor decodes to. -/
theorem convert_descriptor (C h p : String) :
    ConvertInterfaceToString (descriptor C h p)
      = [("ComputerName", C), ("AgentHost", h), ("AgentPort", p)] := by
  simp [ConvertInterfaceToString, descriptor, StrMap.set, sprintV]

theorem HandleWindowsConn.loop_absent (C h p : String) (l : List StrMap)
    (hnew : ∀ agent ∈ l, agent.get "ComputerName" ≠ C) :
    HandleWindowsConn.loop C h p l = none := by
  induction l with
  | nil => rfl
  | cons a rest ih =>
    have ha := hnew a (List.mem_cons_self _ _)
    simp [HandleWindowsConn.loop, ha, ih (fun x hx => hnew x (List.mem_cons_of_mem _ hx))]

theorem HandleWindowsConn.loop_known (C h p h₀ p₀ : String) (l : List StrMap)
    (hnew : ∀ agent ∈ l, agent.get "ComputerName" ≠ C) :
    HandleWindowsConn.loop C h p
        (l ++ [[("ComputerName", C), ("AgentHost", h₀), ("AgentPort", p₀)]])
      = some (l ++ [[("ComputerName", C), ("AgentHost", h), ("AgentPort", p)]],
          decide (h₀ ≠ h ∨ p₀ ≠ p)) := by
  induction l with
  | nil =>
    by_cases hd : h₀ ≠ h ∨ p₀ ≠ p
    · have hd' : ¬ (h₀ = h ∧ p₀ = p) := by
        intro hh; rcases hd with hd | hd
        · exact hd hh.1
        · exact hd hh.2
      have hdec : decide (h₀ ≠ h ∨ p₀ ≠ p) = true := decide_eq_true hd
      rw [hdec]
      simp [HandleWindowsConn.loop, StrMap.get, StrMap.set, hd']
    · have hh : h₀ = h ∧ p₀ = p := by
        constructor
        · by_contra hne; exact hd (Or.inl hne)
        · by_contra hne; exact hd (Or.inr hne)
      have hdec : decide (h₀ ≠ h ∨ p₀ ≠ p) = false := decide_eq_false hd
      rw [hdec]
      simp [HandleWindowsConn.loop, StrMap.get, hh.1, hh.2]
  | cons a rest ih =>
    have ha := hnew a (List.mem_cons_self _ _)
    have hc := ih (fun x hx => hnew x (List.mem_cons_of_mem _ hx))
    simp [HandleWindowsConn.loop, ha, hc]

/-- A check-in of a new name appends its descriptor to the slice and to the file. -/
theorem HandleWindowsConn.first (dial : String → Option Conn) (reg : Registry) (C h p : String)
    (hnew : ∀ agent ∈ reg.sliceAgentConfig, agent.get "ComputerName" ≠ C) :
    (HandleWindowsConn true dial (descriptor C h p) reg).sliceAgentConfig
        = reg.sliceAgentConfig ++ [[("ComputerName", C), ("AgentHost", h), ("AgentPort", p)]] ∧
    (HandleWindowsConn true dial (descriptor C h p) reg).file
        = reg.file ++ [[("ComputerName", C), ("AgentHost", h), ("AgentPort", p)]] := by
  unfold HandleWindowsConn
  simp only [convert_descriptor]
  have hg : StrMap.get [("ComputerName", C), ("AgentHost", h), ("AgentPort", p)] "ComputerName"
      = C := by simp [StrMap.get]
  rw [hg, HandleWindowsConn.loop_absent C _ _ _ hnew]
  cases dial _ <;> simp

/-- A check-in of a name that has one entry, the last of the slice, leaves the descriptor
received in its place, and a file that holds the slice when it held it before. -/
theorem HandleWindowsConn.again (dial : String → Option Conn) (reg : Registry)
    (l : List StrMap) (C h p h₀ p₀ : String)
    (hnew : ∀ agent ∈ l, agent.get "ComputerName" ≠ C)
    (hslice : reg.sliceAgentConfig
      = l ++ [[("ComputerName", C), ("AgentHost", h₀), ("AgentPort", p₀)]])
    (hfile : reg.file = reg.sliceAgentConfig) :
    (HandleWindowsConn true dial (descriptor C h p) reg).sliceAgentConfig
        = l ++ [[("ComputerName", C), ("AgentHost", h), ("AgentPort", p)]] ∧
    (HandleWindowsConn true dial (descriptor C h p) reg).file
        = l ++ [[("ComputerName", C), ("AgentHost", h), ("AgentPort", p)]] := by
  have hc := HandleWindowsConn.loop_known C h p h₀ p₀ l hnew
  have hg : StrMap.get [("ComputerName", C), ("AgentHost", h), ("AgentPort", p)] "ComputerName"
      = C := by simp [StrMap.get]
  have hgh : StrMap.get [("ComputerName", C), ("AgentHost", h), ("AgentPort", p)] "AgentHost"
      = h := by simp [StrMap.get]
  have hgp : StrMap.get [("ComputerName", C), ("AgentHost", h), ("AgentPort", p)] "AgentPort"
      = p := by simp [StrMap.get]
  unfold HandleWindowsConn
  simp only [convert_descriptor, hg, hgh, hgp, hslice, hc]
  by_cases hd : h₀ ≠ h ∨ p₀ ≠ p
  · rw [decide_eq_true hd]
    cases dial _ <;> simp
  · have hh : h₀ = h ∧ p₀ = p := by
      constructor
      · by_contra hne; exact hd (Or.inl hne)
      · by_contra hne; exact hd (Or.inr hne)
    rw [decide_eq_false hd]
    cases dial _ <;> simp [hfile, hslice, hh.1, hh.2]

theorem checkIns_snoc (dial : String → Option Conn) (messages : List Rule) (m : Rule)
    (reg : Registry) :
    checkIns dial (messages ++ [m]) reg
      = HandleWindowsConn true dial m (checkIns dial messages reg) := by
  simp [checkIns, List.foldl_append]

/-- The registry after a non-empty sequence of check-ins of one new name. -/
theorem checkIns_last (dial : String → Option Conn) (reg : Registry) (C : String)
    (hagree : reg.file = reg.sliceAgentConfig)
    (hnew : ∀ agent ∈ reg.sliceAgentConfig, agent.get "ComputerName" ≠ C)
    (earlier : List (String × String)) (D : String × String) :
    (checkIns dial ((earlier ++ [D]).map (fun d => descriptor C d.1 d.2)) reg).sliceAgentConfig
        = reg.sliceAgentConfig ++ [[("ComputerName", C), ("AgentHost", D.1), ("AgentPort", D.2)]] ∧
    (checkIns dial ((earlier ++ [D]).map (fun d => descriptor C d.1 d.2)) reg).file
        = reg.sliceAgentConfig ++ [[("ComputerName", C), ("AgentHost", D.1), ("AgentPort", D.2)]] := by
  induction earlier using List.reverseRecOn generalizing D with
  | nil =>
    have h := HandleWindowsConn.first dial reg C D.1 D.2 hnew
    simp only [List.nil_append, List.map_cons, List.map_nil, checkIns, List.foldl_cons,
      List.foldl_nil]
    exact ⟨h.1, by rw [h.2, hagree]⟩
  | append_singleton ds d ih =>
    obtain ⟨hs, hf⟩ := ih d
    rw [List.map_append, List.map_cons, List.map_nil, checkIns_snoc]
    exact HandleWindowsConn.again dial _ reg.sliceAgentConfig C D.1 D.2 d.1 d.2 hnew hs
      (by rw [hf, hs])

/-- C16: from a registry whose slice and file agree and hold no entry of the name `C`, after
the check-ins of three-field descriptors of `C`, any number of them and then `D`, with the file
writable, the slice and the file are the ones before, followed by the one entry `D`; each
holds exactly one entry of the name `C`, and it is `D`. -/
theorem C16_check_ins_keep_last (dial : String → Option Conn) (reg : Registry) (C : String)
    (earlier : List (String × String)) (D : String × String)
    (hagree : reg.file = reg.sliceAgentConfig)
    (hnew : ∀ agent ∈ reg.sliceAgentConfig, agent.get "ComputerName" ≠ C) :
    (checkIns dial ((earlier ++ [D]).map (fun d => descriptor C d.1 d.2)) reg).sliceAgentConfig
        = reg.sliceAgentConfig ++ [ConvertInterfaceToString (descriptor C D.1 D.2)] ∧
    (checkIns dial ((earlier ++ [D]).map (fun d => descriptor C d.1 d.2)) reg).file
        = (checkIns dial ((earlier ++ [D]).map
            (fun d => descriptor C d.1 d.2)) reg).sliceAgentConfig ∧
    (checkIns dial ((earlier ++ [D]).map
        (fun d => descriptor C d.1 d.2)) reg).sliceAgentConfig.filter
        (fun agent => decide (agent.get "ComputerName" = C))
      = [ConvertInterfaceToString (descriptor C D.1 D.2)] ∧
    (checkIns dial ((earlier ++ [D]).map (fun d => descriptor C d.1 d.2)) reg).file.filter
        (fun agent => decide (agent.get "ComputerName" = C))
      = [ConvertInterfaceToString (descriptor C D.1 D.2)] := by
  obtain ⟨hs, hf⟩ := checkIns_last dial reg C hagree hnew earlier D
  have hfilter : (reg.sliceAgentConfig ++
      [[("ComputerName", C), ("AgentHost", D.1), ("AgentPort", D.2)]]).filter
        (fun agent => decide (agent.get "ComputerName" = C))
      = [[("ComputerName", C), ("AgentHost", D.1), ("AgentPort", D.2)]] := by
    rw [List.filter_append]
    have hnone : reg.sliceAgentConfig.filter
        (fun agent => decide (agent.get "ComputerName" = C)) = [] := by
      rw [List.filter_eq_nil_iff]
      intro a ha
      simpa using hnew a ha
    rw [hnone]
    simp [List.filter_cons, StrMap.get]
  rw [convert_descriptor, hs, hf]
  exact ⟨rfl, rfl, hfilter, hfilter⟩

theorem C16_check_ins_keep_last_witness :
    (⟨[[("ComputerName", "H2")]], [[("ComputerName", "H2")]], []⟩ : Registry).file
        = (⟨[[("ComputerName", "H2")]], [[("ComputerName", "H2")]], []⟩ : Registry).sliceAgentConfig ∧
      (∀ agent ∈ [[("ComputerName", "H2")]], StrMap.get agent "ComputerName" ≠ "H1") ∧
      (checkIns (fun a => some a)
          (([("10.0.0.1", "7001"), ("10.0.0.1", "7001")] ++ [("10.0.0.2", "7001")]).map
            (fun d => descriptor "H1" d.1 d.2))
          ⟨[[("ComputerName", "H2")]], [[("ComputerName", "H2")]], []⟩).file
        = [[("ComputerName", "H2")],
           [("ComputerName", "H1"), ("AgentHost", "10.0.0.2"), ("AgentPort", "7001")]] := by
  have h := C16_check_ins_keep_last (fun a => some a)
    ⟨[[("ComputerName", "H2")]], [[("ComputerName", "H2")]], []⟩ "H1"
    [("10.0.0.1", "7001"), ("10.0.0.1", "7001")] ("10.0.0.2", "7001") rfl (by decide)
  exact ⟨rfl, by decide, by rw [h.2.1, h.1]; rfl⟩

/-! ## The dispatcher -/

/-- The record `HandleResult` builds from a decision and a reply. -/
theorem HandleResult_record (w : World) (reply : ResponseResult) (objRequest : StrMap)
    (resultLog : List StrMap) :
    (HandleResult w reply objRequest resultLog).1.get "ResultInfo" = reply.ResultInfo ∧
    (HandleResult w reply objRequest resultLog).1.get "Result"
      = (if reply.Result then "Success" else "Failure") ∧
    (HandleResult w reply objRequest resultLog).1.get "ResultTime" = w.now ∧
    (∀ k, k ≠ "ResultInfo" → k ≠ "Result" → k ≠ "ResultTime" →
      (HandleResult w reply objRequest resultLog).1.get k = objRequest.get k) ∧
    (HandleResult w reply objRequest resultLog).2
      = (if w.logOk then resultLog ++ [(HandleResult w reply objRequest resultLog).1]
          else resultLog) := by
  unfold HandleResult WriteMapString
  cases hr : reply.Result
  · refine ⟨?_, ?_, ?_, ?_, rfl⟩
    · simp only [Bool.false_eq_true, if_false]
      rw [StrMap.get_set_other _ _ _ _ (by decide), StrMap.get_set_other _ _ _ _ (by decide),
        StrMap.get_set_self]
    · simp only [Bool.false_eq_true, if_false]
      rw [StrMap.get_set_other _ _ _ _ (by decide), StrMap.get_set_self]
    · simp only [Bool.false_eq_true, if_false]
      rw [StrMap.get_set_self]
    · intro k h₁ h₂ h₃
      simp only [Bool.false_eq_true, if_false]
      rw [StrMap.get_set_other _ _ _ _ (Ne.symm h₃), StrMap.get_set_other _ _ _ _ (Ne.symm h₂),
        StrMap.get_set_other _ _ _ _ (Ne.symm h₁)]
  · refine ⟨?_, ?_, ?_, ?_, rfl⟩
    · simp only [if_true]
      rw [StrMap.get_set_other _ _ _ _ (by decide), StrMap.get_set_other _ _ _ _ (by decide),
        StrMap.get_set_self]
    · simp only [if_true]
      rw [StrMap.get_set_other _ _ _ _ (by decide), StrMap.get_set_self]
    · simp only [if_true]
      rw [StrMap.get_set_self]
    · intro k h₁ h₂ h₃
      simp only [if_true]
      rw [StrMap.get_set_other _ _ _ _ (Ne.symm h₃), StrMap.get_set_other _ _ _ _ (Ne.symm h₂),
        StrMap.get_set_other _ _ _ _ (Ne.symm h₁)]

theorem requestUnary_calls (agent : Agent) (conn : Option Conn) (request : Request) :
    (requestUnary agent conn request).effects = ⟨[(conn, request)], [], []⟩ := by
  unfold requestUnary
  cases agent.unary conn request with
  | none => rfl
  | some r => cases r <;> rfl

theorem HandleRespone.finish_effects (w : World) (r : Requested) (objRequest : StrMap)
    (resultLog : List StrMap) :
    (HandleRespone.finish w r objRequest resultLog).effects = r.effects := by
  unfold HandleRespone.finish
  cases r.result <;> rfl

/-- C17, the claim as stated fails: a decision with the `Action` `getfile` and the `EventCode`
3 makes no call at all, and its outcome is `Failure` with the text of `RequestGetFile`; so
does one without `EventCode`. -/
theorem C17_getfile_without_call :
    (HandleRespone sampleWorld (some "10.0.0.1:7001")
        [("ComputerName", "H1"), ("EventCode", "3"), ("Action", "getfile")] []).effects.calls
        = [] ∧
      (HandleRespone sampleWorld (some "10.0.0.1:7001")
        [("ComputerName", "H1"), ("EventCode", "3"), ("Action", "getfile")]
          []).objRequest.get "ResultInfo"
        = "Error: Action get file is not support for EventCode3" ∧
      (HandleRespone sampleWorld (some "10.0.0.1:7001")
        [("ComputerName", "H1"), ("EventCode", "3"), ("Action", "getfile")]
          []).objRequest.get "Result" = "Failure" ∧
      (HandleRespone sampleWorld (some "10.0.0.1:7001")
        [("ComputerName", "H1"), ("Action", "getfile")] []).effects.calls = [] := by
  refine ⟨by decide, by decide, by decide, by decide⟩

/-- C17, amended: `HandleRespone` follows the decision table and makes at most one call.  The
`Action` `getfile` selects `RequestGetFile`: for the `EventCode` 1, 7 or 11 it makes the one
call of `ManagerGetFile`, with the path read from `Image`, `ImageLoaded` or `TargetFilename`;
for every other `EventCode` it makes no call, returns, and the outcome is `Failure` with the
text `Error: Action get file is not support for EventCode` and the code.  `disable` and
`enable` select the one call of `ManagerNetworkAdapter`, whatever the `EventCode`; for every
other `Action` the `EventCode` 1, 3, 7, 8, 9, 10, 11, 12, 13 or 14 selects the one call of its
method, with the fields of the table read from the decision (`SourceProcessId` for 8); for
every other `EventCode` no call is made, the call of `HandleRespone` returns and the outcome
is `Failure` with the text `Error: Not support for EventCode` and the code. -/
theorem C17_decision_table (w : World) (conn : Option Conn) (o : StrMap) (log : List StrMap) :
    (o.get "Action" = "getfile" →
      HandleRespone w conn o log = HandleRespone.finish w (RequestGetFile w o conn) o log ∧
      (o.get "EventCode" = "1" → (HandleRespone w conn o log).effects.calls
        = [(conn, Request.FileInfo (o.get "Image"))]) ∧
      (o.get "EventCode" = "7" → (HandleRespone w conn o log).effects.calls
        = [(conn, Request.FileInfo (o.get "ImageLoaded"))]) ∧
      (o.get "EventCode" = "11" → (HandleRespone w conn o log).effects.calls
        = [(conn, Request.FileInfo (o.get "TargetFilename"))]) ∧
      (o.get "EventCode" ∉ ["1", "7", "11"] →
        (HandleRespone w conn o log).effects = ⟨[], [], []⟩ ∧
        (HandleRespone w conn o log).returned = true ∧
        (HandleRespone w conn o log).objRequest.get "ResultInfo"
          = "Error: Action get file is not support for EventCode" ++ o.get "EventCode" ∧
        (HandleRespone w conn o log).objRequest.get "Result" = "Failure")) ∧
    (o.get "Action" = "disable" ∨ o.get "Action" = "enable" →
      (HandleRespone w conn o log).effects.calls
        = [(conn, Request.NetworkAdapter (o.get "Action"))]) ∧
    (o.get "Action" ≠ "getfile" → o.get "Action" ≠ "disable" → o.get "Action" ≠ "enable" →
      (o.get "EventCode" = "1" → (HandleRespone w conn o log).effects.calls
        = [(conn, Request.EventCode1 (o.get "ProcessId") (o.get "Action"))]) ∧
      (o.get "EventCode" = "3" → (HandleRespone w conn o log).effects.calls
        = [(conn, Request.EventCode3 (o.get "ProcessId") (o.get "SourceIp")
            (o.get "SourcePort") (o.get "DestinationIp") (o.get "DestinationPort")
            (o.get "Action"))]) ∧
      (o.get "EventCode" = "7" → (HandleRespone w conn o log).effects.calls
        = [(conn, Request.EventCode7 (o.get "ProcessId") (o.get "ImageLoaded")
            (o.get "Action"))]) ∧
      (o.get "EventCode" = "8" → (HandleRespone w conn o log).effects.calls
        = [(conn, Request.EventCode8 (o.get "SourceProcessId") (o.get "Action"))]) ∧
      (o.get "EventCode" = "9" → (HandleRespone w conn o log).effects.calls
        = [(conn, Request.EventCode9 (o.get "ProcessId") (o.get "Action"))]) ∧
      (o.get "EventCode" = "10" → (HandleRespone w conn o log).effects.calls
        = [(conn, Request.EventCode10 (o.get "ProcessId") (o.get "Action"))]) ∧
      (o.get "EventCode" = "11" → (HandleRespone w conn o log).effects.calls
        = [(conn, Request.EventCode11 (o.get "TargetFilename") (o.get "Action"))]) ∧
      (o.get "EventCode" = "12" → (HandleRespone w conn o log).effects.calls
        = [(conn, Request.EventCode12 (o.get "TargetObject") (o.get "Action"))]) ∧
      (o.get "EventCode" = "13" → (HandleRespone w conn o log).effects.calls
        = [(conn, Request.EventCode13 (o.get "TargetObject") (o.get "Action"))]) ∧
      (o.get "EventCode" = "14" → (HandleRespone w conn o log).effects.calls
        = [(conn, Request.EventCode14 (o.get "EventType") (o.get "TargetObject")
            (o.get "NewName") (o.get "Action"))]) ∧
      (o.get "EventCode" ∉ ["1", "3", "7", "8", "9", "10", "11", "12", "13", "14"] →
        (HandleRespone w conn o log).effects = ⟨[], [], []⟩ ∧
        (HandleRespone w conn o log).returned = true ∧
        (HandleRespone w conn o log).objRequest.get "ResultInfo"
          = "Error: Not support for EventCode" ++ o.get "EventCode" ∧
        (HandleRespone w conn o log).objRequest.get "Result" = "Failure")) := by
  refine ⟨?_, ?_, ?_⟩
  · intro ha
    have hsel : HandleRespone w conn o log
        = HandleRespone.finish w (RequestGetFile w o conn) o log := by
      simp [HandleRespone, ha]
    have h71 : ¬ ("7" = "1") := by decide
    have h111 : ¬ ("11" = "1") := by decide
    have h117 : ¬ ("11" = "7") := by decide
    refine ⟨hsel, ?_, ?_, ?_, ?_⟩
    · intro he
      rw [hsel, HandleRespone.finish_effects]
      simp only [RequestGetFile, he, if_true]
      repeat' split
      all_goals rfl
    · intro he
      rw [hsel, HandleRespone.finish_effects]
      simp only [RequestGetFile, he, if_neg h71, if_true]
      repeat' split
      all_goals rfl
    · intro he
      rw [hsel, HandleRespone.finish_effects]
      simp only [RequestGetFile, he, if_neg h111, if_neg h117, if_true]
      repeat' split
      all_goals rfl
    · intro he
      simp only [List.mem_cons, List.mem_singleton, List.not_mem_nil, or_false, not_or] at he
      obtain ⟨e1, e7, e11⟩ := he
      have hreq : RequestGetFile w o conn
          = ⟨some ⟨"Error: Action get file is not support for EventCode" ++ o.get "EventCode",
              false⟩, ⟨[], [], []⟩⟩ := by
        simp only [RequestGetFile, if_neg e1, if_neg e7, if_neg e11]
      have hrec := HandleResult_record w
        ⟨"Error: Action get file is not support for EventCode" ++ o.get "EventCode", false⟩
        o log
      rw [hsel, hreq]
      refine ⟨rfl, rfl, ?_, ?_⟩
      · exact hrec.1
      · simpa using hrec.2.1
  · intro ha
    have hng : o.get "Action" ≠ "getfile" := by
      rcases ha with ha | ha <;> rw [ha] <;> decide
    simp only [HandleRespone, hng, if_false, ha, if_true, HandleRespone.finish_effects,
      RequestNetworkAdapter, requestUnary_calls]
  · intro h₁ h₂ h₃
    have h₂₃ : ¬ (o.get "Action" = "disable" ∨ o.get "Action" = "enable") := by
      intro h; rcases h with h | h
      · exact h₂ h
      · exact h₃ h
    refine ⟨?_, ?_, ?_, ?_, ?_, ?_, ?_, ?_, ?_, ?_, ?_⟩
    · intro he
      simp [HandleRespone, h₁, h₂₃, he, HandleRespone.finish_effects, RequestEventCode1,
        requestUnary_calls]
    · intro he
      simp [HandleRespone, h₁, h₂₃, he, HandleRespone.finish_effects, RequestEventCode3,
        requestUnary_calls]
    · intro he
      simp [HandleRespone, h₁, h₂₃, he, HandleRespone.finish_effects, RequestEventCode7,
        requestUnary_calls]
    · intro he
      simp [HandleRespone, h₁, h₂₃, he, HandleRespone.finish_effects, RequestEventCode8,
        requestUnary_calls]
    · intro he
      simp [HandleRespone, h₁, h₂₃, he, HandleRespone.finish_effects, RequestEventCode9,
        requestUnary_calls]
    · intro he
      simp [HandleRespone, h₁, h₂₃, he, HandleRespone.finish_effects, RequestEventCode10,
        requestUnary_calls]
    · intro he
      simp [HandleRespone, h₁, h₂₃, he, HandleRespone.finish_effects, RequestEventCode11,
        requestUnary_calls]
    · intro he
      simp [HandleRespone, h₁, h₂₃, he, HandleRespone.finish_effects, RequestEventCode12,
        requestUnary_calls]
    · intro he
      simp [HandleRespone, h₁, h₂₃, he, HandleRespone.finish_effects, RequestEventCode13,
        requestUnary_calls]
    · intro he
      simp [HandleRespone, h₁, h₂₃, he, HandleRespone.finish_effects, RequestEventCode14,
        requestUnary_calls]
    · intro he
      simp only [List.mem_cons, List.mem_singleton, List.not_mem_nil, or_false, not_or] at he
      obtain ⟨e1, e3, e7, e8, e9, e10, e11, e12, e13, e14⟩ := he
      have hsel : HandleRespone w conn o log = HandleRespone.finish w
          ⟨some ⟨"Error: Not support for EventCode" ++ o.get "EventCode", false⟩,
            ⟨[], [], []⟩⟩ o log := by
        simp only [HandleRespone, h₁, h₂₃, e1, e3, e7, e8, e9, e10, e11, e12, e13, e14,
          if_false]
      have hrec := HandleResult_record w
        ⟨"Error: Not support for EventCode" ++ o.get "EventCode", false⟩ o log
      rw [hsel]
      refine ⟨rfl, rfl, ?_, ?_⟩
      · exact hrec.1
      · simpa using hrec.2.1

theorem C17_decision_table_witness :
    decisionKill.get "Action" ≠ "getfile" ∧ decisionKill.get "Action" ≠ "disable" ∧
      decisionKill.get "Action" ≠ "enable" ∧ decisionKill.get "EventCode" = "1" ∧
      (HandleRespone sampleWorld (some "10.0.0.1:7001") decisionKill []).effects.calls
        = [(some "10.0.0.1:7001", Request.EventCode1 "42" "kill")] ∧
      decisionFetch.get "Action" = "getfile" ∧ decisionFetch.get "EventCode" = "11" ∧
      (HandleRespone sampleWorld (some "10.0.0.1:7001") decisionFetch []).effects.calls
        = [(some "10.0.0.1:7001", Request.FileInfo "C:\\a\\b.dat")] ∧
      (HandleRespone sampleWorld (some "10.0.0.1:7001")
          [("EventCode", "3"), ("Action", "getfile")] []).effects = ⟨[], [], []⟩ :=
  ⟨by decide, by decide, by decide, by decide,
   ((C17_decision_table sampleWorld (some "10.0.0.1:7001") decisionKill []).2.2
      (by decide) (by decide) (by decide)).1 (by decide),
   by decide, by decide,
   ((C17_decision_table sampleWorld (some "10.0.0.1:7001") decisionFetch []).1
      (by decide)).2.2.2.1 (by decide),
   (((C17_decision_table sampleWorld (some "10.0.0.1:7001")
      [("EventCode", "3"), ("Action", "getfile")] []).1 (by decide)).2.2.2.2 (by decide)).1⟩

/-- C18, as stated, fails: the registry is empty, so the host `H1` of both decisions has no
connection.  The decision of an event code outside the table gets the outcome `Failure` with
the text of the table, not `agent not registered`; for the decision of event code 1 the call
of `ManagerEventCode1` is made, on the nil connection. -/
theorem C18_no_registry_check :
    lookupConn [] "H1" = none ∧
      (HandleSplunkConn.respond miniRegexp sampleWorld [] []
          [("ComputerName", Value.string "H1"), ("EventCode", Value.string "99"),
           ("ProcessId", Value.string "42"), ("Action", Value.string "kill")] []).1.resultLog.map
          (fun r => (r.get "Result", r.get "ResultInfo"))
        = [("Failure", "Error: Not support for EventCode99")] ∧
      (HandleSplunkConn.respond miniRegexp sampleWorld [] []
          [("ComputerName", Value.string "H1"), ("EventCode", Value.string "1"),
           ("ProcessId", Value.string "42"), ("Action", Value.string "kill")] []).1.effects.calls
        = [(none, Request.EventCode1 "42" "kill")] := by
  decide

/-- C18, amended: when the `ComputerName` of a message has no connection in the registry, the
session passes the nil connection on: to the one call of `HandleRespone` for a message that
carries an `Action`, and to the calls of `HandleRespone` for the decisions of
`FilterRulesLog` otherwise.  `HandleRespone` follows the decision table on the nil connection
as on any other: an `EventCode` 1 with an `Action` other than `getfile`, `disable`, `enable`
gives the one call of `ManagerEventCode1` on the nil connection, and an `EventCode` outside
the table gives no call and the outcome `Failure` with the text
`Error: Not support for EventCode` and the code. -/
theorem C18_nil_connection_dispatch (lib : Regexp) (w : World) (rules : List Rule)
    (mapClientConns : List (String × Conn)) (logMapInterface : Rule) (resultLog : List StrMap)
    (hconn : lookupConn mapClientConns
      ((ConvertInterfaceToString logMapInterface).get "ComputerName") = none) :
    ((ConvertInterfaceToString logMapInterface).has "Action" = true →
      HandleSplunkConn.respond lib w rules mapClientConns logMapInterface resultLog
        = (HandleRespone w none (ConvertInterfaceToString logMapInterface) resultLog, true)) ∧
    ((ConvertInterfaceToString logMapInterface).has "Action" = false →
      ∀ r, FilterRulesLog lib rules (ConvertInterfaceToString logMapInterface) = some r →
        HandleSplunkConn.respond lib w rules mapClientConns logMapInterface resultLog
          = (HandleSplunkConn.each w none r.hits ⟨⟨[], [], []⟩, true, r.log, resultLog⟩,
              false)) ∧
    (∀ (o : StrMap) (log : List StrMap),
      o.get "Action" ≠ "getfile" → o.get "Action" ≠ "disable" → o.get "Action" ≠ "enable" →
      (o.get "EventCode" = "1" →
        (HandleRespone w none o log).effects.calls
          = [(none, Request.EventCode1 (o.get "ProcessId") (o.get "Action"))]) ∧
      (o.get "EventCode" ∉ ["1", "3", "7", "8", "9", "10", "11", "12", "13", "14"] →
        (HandleRespone w none o log).effects.calls = [] ∧
        (HandleRespone w none o log).objRequest.get "Result" = "Failure" ∧
        (HandleRespone w none o log).objRequest.get "ResultInfo"
          = "Error: Not support for EventCode" ++ o.get "EventCode")) := by
  refine ⟨?_, ?_, ?_⟩
  · intro haction
    simp only [HandleSplunkConn.respond, hconn, haction, if_true]
  · intro haction r hr
    simp [HandleSplunkConn.respond, hconn, haction, hr]
  · intro o log h₁ h₂ h₃
    have h₂₃ : ¬ (o.get "Action" = "disable" ∨ o.get "Action" = "enable") := by
      intro h; rcases h with h | h
      · exact h₂ h
      · exact h₃ h
    constructor
    · intro he
      simp [HandleRespone, h₁, h₂₃, he, HandleRespone.finish_effects, RequestEventCode1,
        requestUnary_calls]
    · intro he
      simp only [List.mem_cons, List.mem_singleton, List.not_mem_nil, or_false, not_or] at he
      obtain ⟨e1, e3, e7, e8, e9, e10, e11, e12, e13, e14⟩ := he
      have hsel : HandleRespone w none o log = HandleRespone.finish w
          ⟨some ⟨"Error: Not support for EventCode" ++ o.get "EventCode", false⟩,
            ⟨[], [], []⟩⟩ o log := by
        simp only [HandleRespone, h₁, h₂₃, e1, e3, e7, e8, e9, e10, e11, e12, e13, e14,
          if_false]
      have hrec := HandleResult_record w
        ⟨"Error: Not support for EventCode" ++ o.get "EventCode", false⟩ o log
      simp only [hsel]
      refine ⟨rfl, ?_, ?_⟩
      · simpa using hrec.2.1
      · exact hrec.1

theorem C18_nil_connection_dispatch_witness :
    lookupConn [("H2", "10.0.0.2:7001")]
        ((ConvertInterfaceToString
          [("ComputerName", Value.string "H1"), ("EventCode", Value.string "1"),
           ("ProcessId", Value.string "42"), ("Action", Value.string "kill")]).get
          "ComputerName") = none ∧
      (ConvertInterfaceToString
          [("ComputerName", Value.string "H1"), ("EventCode", Value.string "1"),
           ("ProcessId", Value.string "42"), ("Action", Value.string "kill")]).has "Action"
        = true ∧
      HandleSplunkConn.respond miniRegexp sampleWorld [ruleKill] [("H2", "10.0.0.2:7001")]
          [("ComputerName", Value.string "H1"), ("EventCode", Value.string "1"),
           ("ProcessId", Value.string "42"), ("Action", Value.string "kill")] []
        = (HandleRespone sampleWorld none
            (ConvertInterfaceToString
              [("ComputerName", Value.string "H1"), ("EventCode", Value.string "1"),
               ("ProcessId", Value.string "42"), ("Action", Value.string "kill")]) [], true) :=
  ⟨by decide, by decide,
   (C18_nil_connection_dispatch miniRegexp sampleWorld [ruleKill] [("H2", "10.0.0.2:7001")]
      [("ComputerName", Value.string "H1"), ("EventCode", Value.string "1"),
       ("ProcessId", Value.string "42"), ("Action", Value.string "kill")] []
      (by decide)).1 (by decide)⟩

/-- The `Request` function each branch of `HandleRespone` ends on. -/
theorem HandleRespone.branches (w : World) (conn : Option Conn) (o : StrMap)
    (log : List StrMap) :
    ∃ r, HandleRespone w conn o log = HandleRespone.finish w r o log ∧
      r ∈ [RequestGetFile w o conn, RequestNetworkAdapter w.agent o conn,
        RequestEventCode1 w.agent o conn, RequestEventCode3 w.agent o conn,
        RequestEventCode7 w.agent o conn, RequestEventCode8 w.agent o conn,
        RequestEventCode9 w.agent o conn, RequestEventCode10 w.agent o conn,
        RequestEventCode11 w.agent o conn, RequestEventCode12 w.agent o conn,
        RequestEventCode13 w.agent o conn, RequestEventCode14 w.agent o conn,
        ⟨some ⟨"Error: Not support for EventCode" ++ o.get "EventCode", false⟩,
          ⟨[], [], []⟩⟩] := by
  by_cases ha : o.get "Action" = "getfile"
  · exact ⟨RequestGetFile w o conn, by rw [HandleRespone, if_pos ha], by simp⟩
  by_cases hb : o.get "Action" = "disable" ∨ o.get "Action" = "enable"
  · exact ⟨RequestNetworkAdapter w.agent o conn,
      by rw [HandleRespone, if_neg ha, if_pos hb], by simp⟩
  by_cases e1 : o.get "EventCode" = "1"
  · exact ⟨RequestEventCode1 w.agent o conn,
      by rw [HandleRespone, if_neg ha, if_neg hb, if_pos e1],
      by simp⟩
  by_cases e3 : o.get "EventCode" = "3"
  · exact ⟨RequestEventCode3 w.agent o conn,
      by rw [HandleRespone, if_neg ha, if_neg hb, if_neg e1, if_pos e3],
      by simp⟩
  by_cases e7 : o.get "EventCode" = "7"
  · exact ⟨RequestEventCode7 w.agent o conn,
      by rw [HandleRespone, if_neg ha, if_neg hb, if_neg e1, if_neg e3, if_pos e7],
      by simp⟩
  by_cases e8 : o.get "EventCode" = "8"
  · exact ⟨RequestEventCode8 w.agent o conn,
      by rw [HandleRespone, if_neg ha, if_neg hb, if_neg e1, if_neg e3, if_neg e7, if_pos e8],
      by simp⟩
  by_cases e9 : o.get "EventCode" = "9"
  · exact ⟨RequestEventCode9 w.agent o conn,
      by rw [HandleRespone, if_neg ha, if_neg hb, if_neg e1, if_neg e3, if_neg e7, if_neg e8,
        if_pos e9],
      by simp⟩
  by_cases e10 : o.get "EventCode" = "10"
  · exact ⟨RequestEventCode10 w.agent o conn,
      by rw [HandleRespone, if_neg ha, if_neg hb, if_neg e1, if_neg e3, if_neg e7, if_neg e8,
        if_neg e9, if_pos e10],
      by simp⟩
  by_cases e11 : o.get "EventCode" = "11"
  · exact ⟨RequestEventCode11 w.agent o conn,
      by rw [HandleRespone, if_neg ha, if_neg hb, if_neg e1, if_neg e3, if_neg e7, if_neg e8,
        if_neg e9, if_neg e10, if_pos e11],
      by simp⟩
  by_cases e12 : o.get "EventCode" = "12"
  · exact ⟨RequestEventCode12 w.agent o conn,
      by rw [HandleRespone, if_neg ha, if_neg hb, if_neg e1, if_neg e3, if_neg e7, if_neg e8,
        if_neg e9, if_neg e10, if_neg e11, if_pos e12],
      by simp⟩
  by_cases e13 : o.get "EventCode" = "13"
  · exact ⟨RequestEventCode13 w.agent o conn,
      by rw [HandleRespone, if_neg ha, if_neg hb, if_neg e1, if_neg e3, if_neg e7, if_neg e8,
        if_neg e9, if_neg e10, if_neg e11, if_neg e12, if_pos e13],
      by simp⟩
  by_cases e14 : o.get "EventCode" = "14"
  · exact ⟨RequestEventCode14 w.agent o conn,
      by rw [HandleRespone, if_neg ha, if_neg hb, if_neg e1, if_neg e3, if_neg e7, if_neg e8,
        if_neg e9, if_neg e10, if_neg e11, if_neg e12, if_neg e13, if_pos e14],
      by simp⟩
  exact ⟨⟨some ⟨"Error: Not support for EventCode" ++ o.get "EventCode", false⟩,
      ⟨[], [], []⟩⟩,
    by rw [HandleRespone, if_neg ha, if_neg hb, if_neg e1, if_neg e3, if_neg e7, if_neg e8,
      if_neg e9, if_neg e10, if_neg e11, if_neg e12, if_neg e13, if_neg e14],
    by simp⟩

/-- C19, as stated, fails: the call of the agent returns a reply, but the result log cannot be
opened; `HandleRespone` returns and the result log has no record more. -/
theorem C19_log_write_can_fail :
    (HandleRespone sampleWorldNoLog (some "10.0.0.1:7001") decisionKill []).returned = true ∧
      (HandleRespone sampleWorldNoLog (some "10.0.0.1:7001") decisionKill []).effects.calls
        = [(some "10.0.0.1:7001", Request.EventCode1 "42" "kill")] ∧
      (HandleRespone sampleWorldNoLog (some "10.0.0.1:7001") decisionKill []).resultLog = [] := by
  decide

/-- C19, amended: every call of `HandleRespone` ends, on every branch of the decision table,
on `HandleResult` with the reply of the one `Request` function of the branch.  The call
returns exactly when that function does; it then leaves the decision with `ResultInfo` set to
the `ResultInfo` of the reply, `Result` set to `Success` for a true `Result` and to `Failure`
otherwise, `ResultTime` set, and the other fields as they were, and this one record is
appended to the result log when the log can be opened; the log is left as it was when it
cannot.  A unary `Request` function returns the reply of the agent, and for an error of the
call the reply `Error occurs: ` and the error, with `Result` false. -/
theorem C19_one_outcome_record (w : World) (conn : Option Conn) (o : StrMap)
    (log : List StrMap) :
    (∃ r, HandleRespone w conn o log = HandleRespone.finish w r o log ∧
      r ∈ [RequestGetFile w o conn, RequestNetworkAdapter w.agent o conn,
        RequestEventCode1 w.agent o conn, RequestEventCode3 w.agent o conn,
        RequestEventCode7 w.agent o conn, RequestEventCode8 w.agent o conn,
        RequestEventCode9 w.agent o conn, RequestEventCode10 w.agent o conn,
        RequestEventCode11 w.agent o conn, RequestEventCode12 w.agent o conn,
        RequestEventCode13 w.agent o conn, RequestEventCode14 w.agent o conn,
        ⟨some ⟨"Error: Not support for EventCode" ++ o.get "EventCode", false⟩,
          ⟨[], [], []⟩⟩] ∧
      ((HandleRespone w conn o log).returned = r.result.isSome) ∧
      (r.result = none → (HandleRespone w conn o log).resultLog = log) ∧
      (∀ reply, r.result = some reply →
        (HandleRespone w conn o log).objRequest.get "ResultInfo" = reply.ResultInfo ∧
        (HandleRespone w conn o log).objRequest.get "Result"
          = (if reply.Result then "Success" else "Failure") ∧
        (HandleRespone w conn o log).objRequest.get "ResultTime" = w.now ∧
        (∀ k, k ≠ "ResultInfo" → k ≠ "Result" → k ≠ "ResultTime" →
          (HandleRespone w conn o log).objRequest.get k = o.get k) ∧
        (w.logOk = true →
          (HandleRespone w conn o log).resultLog
            = log ++ [(HandleRespone w conn o log).objRequest]) ∧
        (w.logOk = false → (HandleRespone w conn o log).resultLog = log))) ∧
    (∀ request reply, w.agent.unary conn request = some (Except.ok reply) →
      (requestUnary w.agent conn request).result = some reply) ∧
    (∀ request err, w.agent.unary conn request = some (Except.error err) →
      (requestUnary w.agent conn request).result = some ⟨"Error occurs: " ++ err, false⟩) := by
  refine ⟨?_, ?_, ?_⟩
  · obtain ⟨r, hr, hmem⟩ := HandleRespone.branches w conn o log
    refine ⟨r, hr, hmem, ?_, ?_, ?_⟩
    · rw [hr]
      unfold HandleRespone.finish
      cases r.result <;> rfl
    · intro hnone
      rw [hr]
      unfold HandleRespone.finish
      rw [hnone]
    · intro reply hreply
      have hrec := HandleResult_record w reply o log
      have hfin : HandleRespone.finish w r o log
          = ⟨r.effects, true, (HandleResult w reply o log).1,
              (HandleResult w reply o log).2⟩ := by
        unfold HandleRespone.finish
        rw [hreply]
      rw [hr, hfin]
      refine ⟨hrec.1, hrec.2.1, hrec.2.2.1, hrec.2.2.2.1, ?_, ?_⟩
      · intro hok
        simp only
        rw [hrec.2.2.2.2, if_pos hok]
      · intro hno
        simp only
        rw [hrec.2.2.2.2, hno]
        rfl
  · intro request reply h
    simp [requestUnary, h]
  · intro request err h
    simp [requestUnary, h]

theorem C19_one_outcome_record_witness :
    sampleWorld.logOk = true ∧
      sampleWorld.agent.unary (some "10.0.0.1:7001") (Request.EventCode1 "42" "kill")
        = some (Except.ok ⟨"done", true⟩) ∧
      (requestUnary sampleWorld.agent (some "10.0.0.1:7001")
          (Request.EventCode1 "42" "kill")).result = some ⟨"done", true⟩ ∧
      (HandleRespone sampleWorld (some "10.0.0.1:7001") decisionKill []).resultLog
        = [decisionKill ++ [("ResultInfo", "done"), ("Result", "Success"),
            ("ResultTime", "2024-01-01 12:00:00.000")]] :=
  ⟨rfl, rfl,
   (C19_one_outcome_record sampleWorld (some "10.0.0.1:7001") decisionKill []).2.1
      (Request.EventCode1 "42" "kill") ⟨"done", true⟩ rfl,
   by decide⟩

/-- C20: `RequestGetFile` asks the agent for the file named by `Image` when the `EventCode`
is `1`, by `ImageLoaded` when it is `7` and by `TargetFilename` when it is `11`, and this is
its one call; for every other `EventCode` it returns the reply with `Result` false and the
text `Error: Action get file is not support for EventCode` and the code, and it makes no call,
makes no directory and creates no file. -/
theorem C20_getfile_by_event_code (w : World) (o : StrMap) (conn : Option Conn) :
    (o.get "EventCode" = "1" →
      (RequestGetFile w o conn).effects.calls = [(conn, Request.FileInfo (o.get "Image"))]) ∧
    (o.get "EventCode" = "7" →
      (RequestGetFile w o conn).effects.calls
        = [(conn, Request.FileInfo (o.get "ImageLoaded"))]) ∧
    (o.get "EventCode" = "11" →
      (RequestGetFile w o conn).effects.calls
        = [(conn, Request.FileInfo (o.get "TargetFilename"))]) ∧
    (o.get "EventCode" ≠ "1" → o.get "EventCode" ≠ "7" → o.get "EventCode" ≠ "11" →
      RequestGetFile w o conn
        = ⟨some ⟨"Error: Action get file is not support for EventCode" ++ o.get "EventCode",
            false⟩, ⟨[], [], []⟩⟩) := by
  refine ⟨?_, ?_, ?_, ?_⟩
  · intro he
    simp only [RequestGetFile, he, if_true]
    repeat' split
    all_goals rfl
  · intro he
    have h1 : ¬ ("7" = "1") := by decide
    simp only [RequestGetFile, he, if_neg h1, if_true]
    repeat' split
    all_goals rfl
  · intro he
    have h1 : ¬ ("11" = "1") := by decide
    have h7 : ¬ ("11" = "7") := by decide
    simp only [RequestGetFile, he, if_neg h1, if_neg h7, if_true]
    repeat' split
    all_goals rfl
  · intro h1 h7 h11
    simp only [RequestGetFile, if_neg h1, if_neg h7, if_neg h11]

theorem C20_getfile_by_event_code_witness :
    decisionFetch.get "EventCode" = "11" ∧
      (RequestGetFile sampleWorld decisionFetch (some "10.0.0.1:7001")).effects.calls
        = [(some "10.0.0.1:7001", Request.FileInfo "C:\\a\\b.dat")] ∧
      decisionOther.get "EventCode" ≠ "1" ∧ decisionOther.get "EventCode" ≠ "7" ∧
      decisionOther.get "EventCode" ≠ "11" :=
  ⟨by decide,
   (C20_getfile_by_event_code sampleWorld decisionFetch (some "10.0.0.1:7001")).2.2.1
      (by decide),
   by decide, by decide, by decide⟩


/-! ## The download: what the file holds -/

theorem RequestGetFile.loop_written (write : Nat → Option String) (ending : Option String)
    (chunks : List Bytes) :
    ∀ k, (∀ j, write j = none) → RequestGetFile.loop write ending k chunks = (ending, chunks) := by
  induction chunks with
  | nil => intro k _; rfl
  | cons c rest ih =>
    intro k h
    simp only [RequestGetFile.loop, h k, ih (k + 1) h]

theorem RequestGetFile.loop_write_error (write : Nat → Option String) (ending : Option String)
    (err : String) (pre : List Bytes) :
    ∀ (k : Nat) (c : Bytes) (post : List Bytes),
      (∀ j, j < pre.length → write (k + j) = none) → write (k + pre.length) = some err →
      RequestGetFile.loop write ending k (pre ++ c :: post) = (some err, pre) := by
  induction pre with
  | nil =>
    intro k c post _ he
    simp only [List.length_nil, Nat.add_zero] at he
    simp only [List.nil_append, RequestGetFile.loop, he]
  | cons p rest ih =>
    intro k c post h he
    have h0 : write k = none := by simpa using h 0 (by simp)
    have hrest : ∀ j, j < rest.length → write (k + 1 + j) = none := by
      intro j hj
      have := h (j + 1) (by simpa using hj)
      rwa [show k + 1 + j = k + (j + 1) by omega]
    have he' : write (k + 1 + rest.length) = some err := by
      rw [show k + 1 + rest.length = k + (rest.length + 1) by omega]
      simpa using he
    have hi := ih (k + 1) c post hrest he'
    show RequestGetFile.loop write ending k (p :: (rest ++ c :: post)) = (some err, p :: rest)
    simp only [RequestGetFile.loop, h0, hi]

theorem RequestGetFile_streamed (w : World) (o : StrMap) (conn : Option Conn)
    (filePath dirPath : String) (stream : FileStream)
    (hsel : (o.get "EventCode" = "1" ∧ filePath = o.get "Image") ∨
      (o.get "EventCode" = "7" ∧ filePath = o.get "ImageLoaded") ∨
      (o.get "EventCode" = "11" ∧ filePath = o.get "TargetFilename"))
    (hopen : w.agent.getFile conn filePath = some (Except.ok stream))
    (hdir : (CreateDir w.disk w.parentDirPath (o.get "ComputerName")).1 = Except.ok dirPath)
    (hcreate : w.disk.create = none) :
    RequestGetFile w o conn
      = ⟨some (match (RequestGetFile.loop w.disk.write stream.ending 0 stream.chunks).1 with
          | some err => ⟨"Error: " ++ err, false⟩
          | none => ⟨"Download file " ++ SplitName filePath ++ " successfully", true⟩),
        ⟨[(conn, Request.FileInfo filePath)],
          (CreateDir w.disk w.parentDirPath (o.get "ComputerName")).2,
          [(dirPath ++ "/" ++ w.date ++ SplitName filePath,
            (RequestGetFile.loop w.disk.write stream.ending 0 stream.chunks).2)]⟩⟩ := by
  have h71 : ¬ ("7" = "1") := by decide
  have h111 : ¬ ("11" = "1") := by decide
  have h117 : ¬ ("11" = "7") := by decide
  rcases hsel with ⟨he, hp⟩ | ⟨he, hp⟩ | ⟨he, hp⟩
  · subst hp
    simp only [RequestGetFile, he, if_true, hopen, hdir, hcreate]
    split <;> rfl
  · subst hp
    simp only [RequestGetFile, he, if_neg h71, if_true, hopen, hdir, hcreate]
    split <;> rfl
  · subst hp
    simp only [RequestGetFile, he, if_neg h111, if_neg h117, if_true, hopen, hdir, hcreate]
    split <;> rfl


/-- C21: once the stream is open and the save file created, a stream that delivers its chunks
and then EOF, with every write succeeding, leaves in the save file the concatenation of the
chunks in order and the reply has `Result` true; a receive error after the chunks, or a write
error at the chunk of rank `k`, gives `Result` false with the text of the error, and the file
holds the chunks written before it. -/
theorem C21_file_is_concatenation (w : World) (o : StrMap) (conn : Option Conn)
    (filePath dirPath : String) (stream : FileStream)
    (hsel : (o.get "EventCode" = "1" ∧ filePath = o.get "Image") ∨
      (o.get "EventCode" = "7" ∧ filePath = o.get "ImageLoaded") ∨
      (o.get "EventCode" = "11" ∧ filePath = o.get "TargetFilename"))
    (hopen : w.agent.getFile conn filePath = some (Except.ok stream))
    (hdir : (CreateDir w.disk w.parentDirPath (o.get "ComputerName")).1 = Except.ok dirPath)
    (hcreate : w.disk.create = none) :
    (stream.ending = none → (∀ j, w.disk.write j = none) →
      (RequestGetFile w o conn).result.map (fun r => r.Result) = some true ∧
      (RequestGetFile w o conn).effects.files.map (fun f => (f.1, f.2.flatten))
        = [(dirPath ++ "/" ++ w.date ++ SplitName filePath, stream.chunks.flatten)]) ∧
    (∀ err, stream.ending = some err → (∀ j, w.disk.write j = none) →
      (RequestGetFile w o conn).result = some ⟨"Error: " ++ err, false⟩ ∧
      (RequestGetFile w o conn).effects.files
        = [(dirPath ++ "/" ++ w.date ++ SplitName filePath, stream.chunks)]) ∧
    (∀ k err, k < stream.chunks.length → (∀ j, j < k → w.disk.write j = none) →
      w.disk.write k = some err →
      (RequestGetFile w o conn).result = some ⟨"Error: " ++ err, false⟩ ∧
      (RequestGetFile w o conn).effects.files
        = [(dirPath ++ "/" ++ w.date ++ SplitName filePath, stream.chunks.take k)]) := by
  have hs := RequestGetFile_streamed w o conn filePath dirPath stream hsel hopen hdir hcreate
  refine ⟨?_, ?_, ?_⟩
  · intro hend hw
    have hl := RequestGetFile.loop_written w.disk.write stream.ending stream.chunks 0 hw
    rw [hs, hl, hend]
    exact ⟨rfl, rfl⟩
  · intro err hend hw
    have hl := RequestGetFile.loop_written w.disk.write stream.ending stream.chunks 0 hw
    rw [hs, hl, hend]
    exact ⟨rfl, rfl⟩
  · intro k err hk hw he
    obtain ⟨c, post, hsplit⟩ : ∃ c post, stream.chunks.drop k = c :: post := by
      cases hd : stream.chunks.drop k with
      | nil =>
        have := List.drop_eq_nil_iff.mp hd
        omega
      | cons c post => exact ⟨c, post, rfl⟩
    have hlen : (stream.chunks.take k).length = k := by
      rw [List.length_take]; omega
    have hl := RequestGetFile.loop_write_error w.disk.write stream.ending err
      (stream.chunks.take k) 0 c post
      (by intro j hj; rw [hlen] at hj; simpa using hw j hj)
      (by rw [hlen]; simpa using he)
    rw [← hsplit, List.take_append_drop] at hl
    rw [hs, hl]
    exact ⟨rfl, rfl⟩

theorem C21_file_is_concatenation_witness :
    (RequestGetFile sampleWorld decisionFetch (some "10.0.0.1:7001")).result.map
        (fun r => r.Result) = some true ∧
      (RequestGetFile sampleWorld decisionFetch (some "10.0.0.1:7001")).effects.files.map
          (fun f => (f.1, f.2.flatten))
        = [("/srv/edr/" ++ decisionFetch.get "ComputerName" ++ "/" ++ "20240101_120000_"
            ++ SplitName "C:\\a\\b.dat", [1, 2, 3])] :=
  (C21_file_is_concatenation sampleWorld decisionFetch (some "10.0.0.1:7001") "C:\\a\\b.dat"
    ("/srv/edr/" ++ decisionFetch.get "ComputerName") ⟨[[1, 2], [3]], none⟩
    (Or.inr (Or.inr ⟨by decide, by decide⟩)) rfl rfl rfl).1 rfl (fun _ => rfl)


/-! ## Splitting at backslashes -/

theorem splitBackslash_ne_nil (l : List Char) : splitBackslash l ≠ [] := by
  cases l with
  | nil => simp [splitBackslash]
  | cons c rest =>
    simp only [splitBackslash]
    split
    · simp
    · split <;> simp

theorem splitBackslash_cons (c : Char) (rest : List Char) (hc : c ≠ '\\') :
    ∃ l ls, splitBackslash rest = l :: ls ∧ splitBackslash (c :: rest) = (c :: l) :: ls := by
  cases h : splitBackslash rest with
  | nil => exact absurd h (splitBackslash_ne_nil rest)
  | cons l ls =>
    refine ⟨l, ls, rfl, ?_⟩
    simp only [splitBackslash, if_neg hc, h]

theorem splitBackslash_no_backslash (l : List Char) :
    ∀ piece ∈ splitBackslash l, '\\' ∉ piece := by
  induction l with
  | nil => intro piece hp; simp [splitBackslash] at hp; simp [hp]
  | cons c rest ih =>
    intro piece hp
    by_cases hc : c = '\\'
    · simp only [splitBackslash, if_pos hc, List.mem_cons] at hp
      rcases hp with hp | hp
      · simp [hp]
      · exact ih piece hp
    · obtain ⟨l, ls, h1, h2⟩ := splitBackslash_cons c rest hc
      rw [h2, List.mem_cons] at hp
      rcases hp with hp | hp
      · subst hp
        have := ih l (by rw [h1]; simp)
        simp only [List.mem_cons, not_or]
        exact ⟨fun h => hc h.symm, this⟩
      · exact ih piece (by rw [h1]; simp [hp])

theorem joinBackslash_cons (x : List Char) (y : List Char) (ys : List (List Char)) :
    joinBackslash (x :: y :: ys) = x ++ '\\' :: joinBackslash (y :: ys) := rfl

theorem joinBackslash_split (l : List Char) : joinBackslash (splitBackslash l) = l := by
  induction l with
  | nil => rfl
  | cons c rest ih =>
    by_cases hc : c = '\\'
    · simp only [splitBackslash, if_pos hc]
      cases h : splitBackslash rest with
      | nil => exact absurd h (splitBackslash_ne_nil rest)
      | cons y ys =>
        rw [joinBackslash_cons, ← h, ih, hc]
        rfl
    · obtain ⟨y, ys, h1, h2⟩ := splitBackslash_cons c rest hc
      rw [h2]
      rw [h1] at ih
      cases ys with
      | nil =>
        simp only [joinBackslash] at ih ⊢
        rw [ih]
      | cons z zs =>
        rw [joinBackslash_cons] at ih ⊢
        rw [← ih]
        rfl

theorem splitBackslash_last (l : List Char) :
    ∃ seg, (splitBackslash l).getLast? = some seg ∧
      (l = seg ∨ ∃ front, l = front ++ '\\' :: seg) := by
  induction l with
  | nil => exact ⟨[], rfl, Or.inl rfl⟩
  | cons c rest ih =>
    obtain ⟨seg, hseg, hrest⟩ := ih
    by_cases hc : c = '\\'
    · refine ⟨seg, ?_, Or.inr ?_⟩
      · simp only [splitBackslash, if_pos hc]
        cases h : splitBackslash rest with
        | nil => exact absurd h (splitBackslash_ne_nil rest)
        | cons y ys =>
          rw [h] at hseg
          rw [List.getLast?_cons_cons]
          exact hseg
      · rcases hrest with hr | ⟨front, hr⟩
        · exact ⟨[], by rw [hr, hc]; rfl⟩
        · exact ⟨c :: front, by rw [hr]; rfl⟩
    · obtain ⟨y, ys, h1, h2⟩ := splitBackslash_cons c rest hc
      rw [h1] at hseg
      cases ys with
      | nil =>
        have hy : y = seg := by simpa using hseg
        refine ⟨c :: seg, by rw [h2, hy]; rfl, ?_⟩
        rcases hrest with hr | ⟨front, hr⟩
        · exact Or.inl (by rw [hr])
        · exfalso
          have hmem := splitBackslash_no_backslash rest
          have hj := joinBackslash_split rest
          rw [h1] at hj
          simp only [joinBackslash] at hj
          have : '\\' ∈ rest := by rw [hr]; simp
          rw [← hj] at this
          exact hmem y (by rw [h1]; simp) this
      | cons z zs =>
        refine ⟨seg, by rw [h2, List.getLast?_cons_cons]; rw [List.getLast?_cons_cons] at hseg; exact hseg, ?_⟩
        rcases hrest with hr | ⟨front, hr⟩
        · exfalso
          have hmem := splitBackslash_no_backslash rest
          have hj := joinBackslash_split rest
          rw [h1, joinBackslash_cons] at hj
          have hin : '\\' ∈ rest := by rw [← hj]; simp
          have hlast : seg ∈ splitBackslash rest := by
            rw [h1]
            exact List.mem_of_getLast?_eq_some hseg
          rw [hr] at hin
          exact hmem seg hlast hin
        · exact Or.inr ⟨c :: front, by rw [hr]; rfl⟩


/-- C22: `SplitName p` is the last of the pieces of `p` between backslashes, and there is
always such a piece: it holds no backslash, and `p` is that piece or ends with a backslash
followed by it.  A download that succeeds is saved under the date prefix followed by this
piece, and the reply names the piece. -/
theorem C22_split_name_last_segment (p : String) :
    (splitBackslash p.data).getLast? = some (SplitName p).data ∧
    '\\' ∉ (SplitName p).data ∧
    (p = SplitName p ∨ ∃ front : String, p = front ++ "\\" ++ SplitName p) ∧
    (∀ (w : World) (o : StrMap) (conn : Option Conn) (dirPath : String) (stream : FileStream),
      ((o.get "EventCode" = "1" ∧ p = o.get "Image") ∨
        (o.get "EventCode" = "7" ∧ p = o.get "ImageLoaded") ∨
        (o.get "EventCode" = "11" ∧ p = o.get "TargetFilename")) →
      w.agent.getFile conn p = some (Except.ok stream) →
      (CreateDir w.disk w.parentDirPath (o.get "ComputerName")).1 = Except.ok dirPath →
      w.disk.create = none → stream.ending = none → (∀ j, w.disk.write j = none) →
      (RequestGetFile w o conn).result
        = some ⟨"Download file " ++ SplitName p ++ " successfully", true⟩ ∧
      (RequestGetFile w o conn).effects.files.map (fun f => f.1)
        = [dirPath ++ "/" ++ w.date ++ SplitName p]) := by
  obtain ⟨seg, hseg, hcase⟩ := splitBackslash_last p.data
  have hname : (SplitName p).data = seg := by
    simp only [SplitName, hseg, Option.getD_some]
  refine ⟨by rw [hname]; exact hseg, ?_, ?_, ?_⟩
  · rw [hname]
    exact splitBackslash_no_backslash p.data seg (List.mem_of_getLast?_eq_some hseg)
  · rcases hcase with h | ⟨front, h⟩
    · left
      apply String.ext
      rw [hname]; exact h
    · right
      refine ⟨String.mk front, ?_⟩
      apply String.ext
      simp only [String.data_append, hname]
      rw [h]
      simp
  · intro w o conn dirPath stream hsel hopen hdir hcreate hend hw
    have hs := RequestGetFile_streamed w o conn p dirPath stream hsel hopen hdir hcreate
    have hl := RequestGetFile.loop_written w.disk.write stream.ending stream.chunks 0 hw
    rw [hs, hl, hend]
    exact ⟨rfl, rfl⟩

theorem C22_split_name_last_segment_witness :
    SplitName "C:\\a\\b.dat" = "b.dat" ∧ SplitName "" = "" ∧ SplitName "C:\\a\\" = "" ∧
      (RequestGetFile sampleWorld decisionFetch (some "10.0.0.1:7001")).result
        = some ⟨"Download file " ++ SplitName "C:\\a\\b.dat" ++ " successfully", true⟩ ∧
      (RequestGetFile sampleWorld decisionFetch (some "10.0.0.1:7001")).effects.files.map
          (fun f => f.1)
        = ["/srv/edr/H1" ++ "/" ++ "20240101_120000_" ++ SplitName "C:\\a\\b.dat"] :=
  ⟨by decide, by decide, by decide,
   (C22_split_name_last_segment "C:\\a\\b.dat").2.2.2 sampleWorld decisionFetch
      (some "10.0.0.1:7001") "/srv/edr/H1" ⟨[[1, 2], [3]], none⟩
      (Or.inr (Or.inr ⟨by decide, by decide⟩)) rfl rfl rfl rfl (fun _ => rfl)⟩


theorem splitBackslash_length (l : List Char) :
    (splitBackslash l).length = l.count '\\' + 1 := by
  induction l with
  | nil => rfl
  | cons c rest ih =>
    by_cases hc : c = '\\'
    · subst hc
      have hs : splitBackslash ('\\' :: rest) = [] :: splitBackslash rest := by
        simp only [splitBackslash, if_true]
      rw [hs, List.length_cons, ih, List.count_cons_self]
    · obtain ⟨y, ys, h1, h2⟩ := splitBackslash_cons c rest hc
      rw [h2, List.length_cons, ← List.length_cons y ys, ← h1, ih,
        List.count_cons_of_ne (fun h => hc h.symm)]

theorem splitBackslash_head (l : List Char) :
    ∃ first rest, splitBackslash l = first :: rest ∧ '\\' ∉ first ∧
      (rest = [] → l = first) ∧ (rest ≠ [] → l = first ++ '\\' :: joinBackslash rest) := by
  cases h : splitBackslash l with
  | nil => exact absurd h (splitBackslash_ne_nil l)
  | cons first rest =>
    refine ⟨first, rest, rfl, ?_, ?_, ?_⟩
    · exact splitBackslash_no_backslash l first (by rw [h]; simp)
    · intro hr
      have hj := joinBackslash_split l
      rw [h, hr] at hj
      exact hj.symm
    · intro hr
      have hj := joinBackslash_split l
      rw [h] at hj
      cases rest with
      | nil => exact absurd rfl hr
      | cons y ys => rw [joinBackslash_cons] at hj; exact hj.symm

/-- C24: `SplitKeyPath s` gives a hive that holds no backslash; for `s` without a backslash
the hive is `s` and the path is empty; for `s` with a backslash, the hive, a backslash and
the path make `s`, so the hive is what stands before the first backslash of `s` and the path
what stands after it. -/
theorem C24_split_key_path (s : String) :
    '\\' ∉ (SplitKeyPath s).1.data ∧
    ('\\' ∉ s.data → SplitKeyPath s = (s, "")) ∧
    ('\\' ∈ s.data → (SplitKeyPath s).1 ++ "\\" ++ (SplitKeyPath s).2 = s) := by
  obtain ⟨first, rest, hsplit, hfirst, hnil, hcons⟩ := splitBackslash_head s.data
  have h1 : (SplitKeyPath s).1 = String.mk first := by
    simp only [SplitKeyPath, hsplit, List.head?_cons, Option.getD_some]
  have h2 : (SplitKeyPath s).2 = String.mk (joinBackslash rest) := by
    simp only [SplitKeyPath, hsplit, List.drop_succ_cons, List.drop_zero]
  refine ⟨by rw [h1]; exact hfirst, ?_, ?_⟩
  · intro hno
    have hr : rest = [] := by
      by_contra hne
      apply hno
      rw [hcons hne]
      simp
    have hs : s = String.mk first := String.ext (hnil hr)
    rw [Prod.ext_iff, h1, h2, hr, ← hs]
    exact ⟨rfl, rfl⟩
  · intro hin
    have hr : rest ≠ [] := by
      intro hr
      rw [hnil hr] at hin
      exact hfirst hin
    rw [h1, h2]
    apply String.ext
    rw [hcons hr]
    simp

theorem C24_split_key_path_witness :
    SplitKeyPath "HKLM\\Software\\Run" = ("HKLM", "Software\\Run") ∧
      (SplitKeyPath "HKLM\\Software\\Run").1 ++ "\\" ++ (SplitKeyPath "HKLM\\Software\\Run").2
        = "HKLM\\Software\\Run" ∧
      SplitKeyPath "HKLM" = ("HKLM", "") :=
  ⟨by decide, (C24_split_key_path "HKLM\\Software\\Run").2.2 (by decide),
   (C24_split_key_path "HKLM").2.1 (by decide)⟩

theorem SplitKeyPathName_none_iff (s : String) :
    SplitKeyPathName s = none ↔ '\\' ∉ s.data := by
  have hlen := splitBackslash_length s.data
  simp only [SplitKeyPathName]
  rw [hlen, Nat.add_sub_cancel]
  constructor
  · intro h
    split at h
    · exact absurd h (by simp)
    · rename_i hn
      have : s.data.count '\\' = 0 := by omega
      exact List.count_eq_zero.mp this
  · intro h
    have : s.data.count '\\' = 0 := List.count_eq_zero.mpr h
    rw [if_neg (by omega)]

/-- C25: `SplitKeyPathName` does not return for a text without a backslash: the slice
expression `split[1:len(split)-1]` panics on the one piece of the empty text and of `HKLM`;
with a backslash it returns the first piece, the middle pieces joined, and the last piece. -/
theorem C25_no_backslash_panics :
    SplitKeyPathName "" = none ∧ SplitKeyPathName "HKLM" = none ∧
      SplitKeyPathName "HKLM\\Run" = some ("HKLM", "", "Run") ∧
      SplitKeyPathName "HKLM\\Software\\Microsoft\\Run"
        = some ("HKLM", "Software\\Microsoft", "Run") := by
  decide


/-! ## The agent: an action that a method does not support -/

theorem processCase_none (os : Os) (action pid : String) (pid32 : Int)
    (h1 : action ≠ "killtree") (h2 : action ≠ "kill") :
    processCase os action pid pid32 = none := by
  simp only [processCase, if_neg h1, if_neg h2]

/-- The methods other than `ManagerEventCode13` answer an action they do not support with the
reply of their `default` case and ask nothing of the system, whatever the other fields are;
`ManagerEventCode13` does so when `TargetObject` holds a backslash. -/
theorem Manager_unsupported_action (os : Os) (a b c action : String)
    (hkt : action ≠ "killtree") (hk : action ≠ "kill") (hd : action ≠ "delete") :
    (action ≠ "suspend" →
      ManagerEventCode1 os a action = some (notSupported action "EventCode 1", [])) ∧
    (action ≠ "block_src_ip" → action ≠ "block_dst_ip" →
      ManagerEventCode3 os a b c action = some (notSupported action "EventCode 3", [])) ∧
    ManagerEventCode7 os a b action = some (notSupported action "EventCode 7", []) ∧
    ManagerEventCode8 os a action = some (notSupported action "EventCode 8", []) ∧
    ManagerEventCode9 os a action = some (notSupported action "EventCode 9", []) ∧
    ManagerEventCode10 os a action = some (notSupported action "EventCode 10", []) ∧
    ManagerEventCode11 os a action = some (notSupported action "EventCode 11", []) ∧
    ManagerEventCode12 os a action = some (notSupported action "EventCode 12", []) ∧
    ('\\' ∈ a.data →
      ManagerEventCode13 os a action = some (notSupported action "EventCode 13", [])) ∧
    ManagerEventCode14 os a action = some (notSupported action "EventCode 14", []) ∧
    (action ≠ "disable" → action ≠ "enable" →
      ManagerNetworkAdapter os a action = some (notSupported action "Network Adapter", [])) := by
  refine ⟨?_, ?_, ?_, ?_, ?_, ?_, ?_, ?_, ?_, ?_, ?_⟩
  · intro hs
    simp only [ManagerEventCode1, processCase_none os action _ _ hkt hk, if_neg hs]
  · intro h1 h2
    simp only [ManagerEventCode3, processCase_none os action _ _ hkt hk, if_neg h1, if_neg h2]
  · simp only [ManagerEventCode7, processCase_none os action _ _ hkt hk, if_neg hd]
  · simp only [ManagerEventCode8, processCase_none os action _ _ hkt hk]
  · simp only [ManagerEventCode9, processCase_none os action _ _ hkt hk]
  · simp only [ManagerEventCode10, processCase_none os action _ _ hkt hk]
  · simp only [ManagerEventCode11, if_neg hd]
  · simp only [ManagerEventCode12, if_neg hd]
  · intro hin
    cases h : SplitKeyPathName a with
    | none => exact absurd hin ((SplitKeyPathName_none_iff a).mp h)
    | some t =>
      obtain ⟨keyStr, path, name⟩ := t
      simp only [ManagerEventCode13, h, if_neg hd]
  · simp only [ManagerEventCode14, if_neg hd]
  · intro h1 h2
    simp only [ManagerNetworkAdapter, if_neg h1, if_neg h2]

/-- C23: `ManagerEventCode13` splits `TargetObject` before it looks at the action, so a request
with an action it does not support and a `TargetObject` without a backslash (the empty one of
a request without the field, or `HKLM`) makes the method panic instead of answering; with a
backslash in `TargetObject`, and in `ManagerEventCode1`, the answer is the reply of the
`default` case and nothing is asked of the system. -/
theorem C23_event13_panics_before_switch :
    ManagerEventCode13 sampleOs "" "kill" = none ∧
      ManagerEventCode13 sampleOs "HKLM" "rename" = none ∧
      ManagerEventCode13 sampleOs "HKLM\\Run\\updater" "kill"
        = some (⟨"Error: Action kill is not supported for EventCode 13", false⟩, []) ∧
      ManagerEventCode1 sampleOs "" "rename"
        = some (⟨"Error: Action rename is not supported for EventCode 1", false⟩, []) := by
  refine ⟨rfl, rfl, rfl, rfl⟩


/-! ## A pattern of several lines; a rule without `Data` -/

/-- C27: a pattern of two lines whose second line has the form of a reference is taken as a
reference and never given to the library as an expression: the fixed expressions are in
multi-line mode, so they find the line, and the field compared is named by the whole pattern
without its dollar signs.  A record that has neither field passes the key. -/
theorem C27_line_taken_as_reference :
    reSimilar.FindString "evil\n$Image$" = "$Image$" ∧
      reDifferent.FindString "evil\n$$Image$" = "$$Image$" ∧
      (∀ (lib : Regexp) (log : StrMap) (key : String),
        CheckRule.body lib log key "evil\n$Image$"
          = some (decide (log.get key = log.get "evil\nImage"))) ∧
      (∀ (lib : Regexp) (log : StrMap) (key : String),
        CheckRule.body lib log key "evil\n$$Image$"
          = some (decide (log.get key ≠ log.get "evil\nImage"))) ∧
      (∀ lib : Regexp, CheckRule lib recordEvil [("ParentImage", "evil\n$Image$")] = some true) := by
  have hs : reSimilar.FindString "evil\n$Image$" ≠ "" := by decide
  have hs' : ¬ (reSimilar.FindString "evil\n$$Image$" ≠ "") := by decide
  have hd : reDifferent.FindString "evil\n$$Image$" ≠ "" := by decide
  have h1 : stripDollar "evil\n$Image$" = "evil\nImage" := by decide
  have h2 : stripDollar "evil\n$$Image$" = "evil\nImage" := by decide
  refine ⟨by decide, by decide, ?_, ?_, ?_⟩
  · intro lib log key
    simp only [CheckRule.body, if_pos hs, h1]
    by_cases h : log.get key = log.get "evil\nImage"
    · simp [h]
    · simp [h]
  · intro lib log key
    simp only [CheckRule.body, if_neg hs', if_pos hd, h2]
    by_cases h : log.get key = log.get "evil\nImage"
    · simp [h]
    · simp [h]
  · intro lib
    have hb : CheckRule.body lib recordEvil "ParentImage" "evil\n$Image$" = some true := by
      simp only [CheckRule.body, if_pos hs, h1]
      decide
    simp only [CheckRule, hb]


theorem FilterRulesLog.step_no_data (lib : Regexp) (st : Filtered) (rule : Rule)
    (h : ∀ fields, Rule.index rule "Data" ≠ Value.object fields) :
    FilterRulesLog.step lib st rule = none := by
  unfold FilterRulesLog.step
  split
  · rename_i fields hf
    exact absurd hf (h fields)
  · rfl

/-- C28, the claim as stated fails: with a rule without `Data` in the catalog (after a rule
that matches the record, or as the empty object of a line that is not JSON before it),
`FilterRulesLog` does not return, although the other rule alone gives one decision; and
`HandleRule` appends such a rule when asked to add it. -/
theorem C28_rule_without_data_counterexample :
    FilterRulesLog miniRegexp [ruleKill, ruleNoData] recordEvil = none ∧
      FilterRulesLog miniRegexp [[], ruleKill] recordEvil = none ∧
      (FilterRulesLog miniRegexp [ruleKill] recordEvil).map (fun r => r.hits) = some 1 ∧
      (HandleRule true (("Action Rule", Value.string "add") :: ruleNoData)
          ⟨[ruleKill], [ruleKill]⟩).map (fun r => r.1.rules.length) = some 2 := by
  refine ⟨by decide, by decide, by decide, by decide⟩

/-- C28, amended: when the catalog holds a rule whose `Data` is not an object, the type
assertion of `FilterRulesLog` panics when the loop reaches that rule, so the call returns for
no record, whatever the other rules are. -/
theorem C28_rule_without_data_panics (lib : Regexp) (front back : List Rule) (rule : Rule)
    (log : StrMap) (h : ∀ fields, Rule.index rule "Data" ≠ Value.object fields) :
    FilterRulesLog lib (front ++ rule :: back) log = none := by
  simp only [FilterRulesLog, FilterRulesLog.loop_append]
  cases FilterRulesLog.loop lib front ⟨log, 0⟩ with
  | none => rfl
  | some st =>
    simp only [Option.some_bind, FilterRulesLog.loop, FilterRulesLog.step_no_data lib st rule h]

theorem C28_rule_without_data_panics_witness :
    (∀ fields, Rule.index ruleNoData "Data" ≠ Value.object fields) ∧
      FilterRulesLog miniRegexp ([ruleKill] ++ ruleNoData :: [ruleSuspend]) recordEvil = none :=
  ⟨fun _ h => Value.noConfusion h,
   C28_rule_without_data_panics miniRegexp [ruleKill] [ruleSuspend] ruleNoData recordEvil
    (fun _ h => Value.noConfusion h)⟩


/-! ## The telemetry session: the three kinds of message -/

theorem StrMap.has_set (m : StrMap) (k v k' : String) :
    (m.set k v).has k' = (decide (k = k') || m.has k') := by
  induction m with
  | nil => simp [StrMap.set, StrMap.has]
  | cons e rest ih =>
    obtain ⟨a, b⟩ := e
    simp only [StrMap.has] at ih
    by_cases h : a = k
    · subst h
      simp [StrMap.set, StrMap.has]
    · by_cases hk : k = k'
      · subst hk
        simp [StrMap.set, StrMap.has, h, ih]
      · simp [StrMap.set, StrMap.has, h, ih, hk]

theorem ConvertInterfaceToString_has (m : Rule) (k : String) :
    (ConvertInterfaceToString m).has k = Rule.has m k := by
  have key : ∀ (l : Rule) (acc : StrMap),
      (l.foldl (fun mapString e => mapString.set e.1 (sprintV e.2)) acc).has k
        = (acc.has k || Rule.has l k) := by
    intro l
    induction l with
    | nil => intro acc; simp [Rule.has]
    | cons e rest ih =>
      intro acc
      rw [List.foldl_cons, ih, StrMap.has_set]
      simp only [Rule.has, List.any_cons]
      cases decide (e.1 = k) <;> cases acc.has k <;> simp
  have := key m []
  simpa [ConvertInterfaceToString, StrMap.has] using this

theorem HandleRespone_log_length (w : World) (conn : Option Conn) (o : StrMap)
    (log : List StrMap) (hret : (HandleRespone w conn o log).returned = true)
    (hlog : w.logOk = true) :
    (HandleRespone w conn o log).resultLog.length = log.length + 1 := by
  obtain ⟨r, hr, _⟩ := HandleRespone.branches w conn o log
  rw [hr] at hret ⊢
  unfold HandleRespone.finish at hret ⊢
  cases hres : r.result with
  | none => rw [hres] at hret; simp at hret
  | some reply =>
    simp only [HandleResult, WriteMapString, hlog, if_true, List.length_append,
      List.length_singleton]

theorem HandleSplunkConn.each_log_length (w : World) (conn : Option Conn)
    (hret : ∀ o log, (HandleRespone w conn o log).returned = true) (hlog : w.logOk = true) :
    ∀ (n : Nat) (h : Handled),
      (HandleSplunkConn.each w conn n h).resultLog.length = h.resultLog.length + n := by
  intro n
  induction n with
  | zero => intro h; rfl
  | succ n ih =>
    intro h
    simp only [HandleSplunkConn.each, hret, if_true]
    rw [ih]
    simp only [HandleRespone_log_length w conn h.objRequest h.resultLog (hret _ _) hlog]
    omega


theorem requestUnary_returns (agent : Agent) (conn : Option Conn) (request : Request)
    (h : (agent.unary conn request).isSome = true) :
    (requestUnary agent conn request).result.isSome = true := by
  unfold requestUnary
  cases hu : agent.unary conn request with
  | none => rw [hu] at h; simp at h
  | some e => cases e <;> rfl

theorem RequestGetFile_returns (w : World) (o : StrMap) (conn : Option Conn)
    (h : ∀ p, (w.agent.getFile conn p).isSome = true) :
    (RequestGetFile w o conn).result.isSome = true := by
  unfold RequestGetFile
  simp only
  split
  · rfl
  · rename_i filePath _
    split
    · rename_i hg
      have := h filePath
      rw [hg] at this
      simp at this
    · rfl
    · split
      · rfl
      · split
        · rfl
        · split <;> rfl

/-- A call of `HandleRespone` returns when the agent side answers every call made on the
connection. -/
theorem HandleRespone_returns (w : World) (conn : Option Conn) (o : StrMap)
    (log : List StrMap) (hu : ∀ request, (w.agent.unary conn request).isSome = true)
    (hg : ∀ p, (w.agent.getFile conn p).isSome = true) :
    (HandleRespone w conn o log).returned = true := by
  obtain ⟨r, hr, hmem⟩ := HandleRespone.branches w conn o log
  have hsome : r.result.isSome = true := by
    simp only [List.mem_cons, List.mem_singleton, List.not_mem_nil, or_false] at hmem
    rcases hmem with h | h | h | h | h | h | h | h | h | h | h | h | h
    · rw [h]; exact RequestGetFile_returns w o conn hg
    all_goals first
      | (rw [h]; exact requestUnary_returns _ _ _ (hu _))
      | (rw [h]; rfl)
  rw [hr]
  unfold HandleRespone.finish
  cases hres : r.result with
  | none => rw [hres] at hsome; simp at hsome
  | some reply => rfl


/-! ## The trimming of the output of `netsh` -/

theorem trimOutput_none_iff (output : Bytes) :
    trimOutput output = none ↔ output.length < 6 := by
  simp only [trimOutput]
  constructor
  · intro h
    split at h
    · exact absurd h (by simp)
    · omega
  · intro h
    rw [if_neg (by omega)]

theorem netshError_none_iff (os : Os) (args : List String) :
    netshError os args = none ↔
      (os.netsh args).2 = true ∧ (os.netsh args).1.length < 6 := by
  simp only [netshError]
  cases hf : (os.netsh args).2 with
  | false => simp
  | true =>
    simp only [if_true, Option.map_eq_none', trimOutput_none_iff, true_and]

/-- C30: when `netsh` fails with an output of fewer than six bytes, the slice expression
`output[2 : len(output)-4]` is out of range: `BlockInboundIp`, `DisableNetworkAdapter` and
the method that calls them panic instead of returning an error.  An output of six bytes or
more is trimmed, also when the six bytes are three characters. -/
theorem C30_short_output_panics :
    trimOutput (utf8Bytes "") = none ∧ trimOutput (utf8Bytes "abcde") = none ∧
      (trimOutput (utf8Bytes "\r\nOk.\r\n\r\n")).map stringOfBytes = some "Ok." ∧
      BlockInboundIp sampleOsNoNetsh "10.0.0.5" = none ∧
      DisableNetworkAdapter sampleOsNoNetsh "Ethernet" = none ∧
      ManagerEventCode3 sampleOsNoNetsh "42" "10.0.0.5" "10.0.0.9" "block_src_ip" = none ∧
      (utf8Bytes "ééé").length = 6 ∧
      trimOutput (utf8Bytes "ééé") = some [] := by
  refine ⟨by decide, by decide, by decide, by decide, by decide, by decide, by decide,
    by decide⟩


/-! ## The agent: a process id that is not a number -/

theorem isDigit_iff (c : Char) : c.isDigit = true ↔ 48 ≤ c.toNat ∧ c.toNat ≤ 57 := by
  simp only [Char.isDigit, Bool.and_eq_true, decide_eq_true_eq]
  constructor
  · intro ⟨h1, h2⟩
    exact ⟨show (48 : UInt32).toNat ≤ c.val.toNat from h1,
      show c.val.toNat ≤ (57 : UInt32).toNat from h2⟩
  · intro ⟨h1, h2⟩
    exact ⟨show (48 : UInt32).toNat ≤ c.val.toNat from h1,
      show c.val.toNat ≤ (57 : UInt32).toNat from h2⟩

theorem utf8Bytes.ofChar_head (c : Char) :
    ∃ b bs, utf8Bytes.ofChar c = b :: bs ∧
      ((b = c.toNat ∧ bs = []) ∨ (192 ≤ b ∧ 128 ≤ c.toNat)) := by
  unfold utf8Bytes.ofChar
  split
  · exact ⟨_, _, rfl, Or.inl ⟨rfl, rfl⟩⟩
  · split
    · exact ⟨_, _, rfl, Or.inr ⟨by omega, by omega⟩⟩
    · split
      · exact ⟨_, _, rfl, Or.inr ⟨by omega, by omega⟩⟩
      · exact ⟨_, _, rfl, Or.inr ⟨by omega, by omega⟩⟩

theorem utf8Bytes.ofChar_digit (c : Char) (h : c.isDigit = true) :
    utf8Bytes.ofChar c = [c.toNat] ∧ 48 ≤ c.toNat ∧ c.toNat ≤ 57 := by
  have hd := (isDigit_iff c).mp h
  refine ⟨?_, hd⟩
  unfold utf8Bytes.ofChar
  rw [if_pos (by omega)]

theorem utf8Bytes.ofChar_not_digit (c : Char) (h : c.isDigit = false) :
    ∃ b bs, utf8Bytes.ofChar c = b :: bs ∧ ¬ (48 ≤ b ∧ b ≤ 57) := by
  obtain ⟨b, bs, hb, hcase⟩ := utf8Bytes.ofChar_head c
  refine ⟨b, bs, hb, ?_⟩
  rcases hcase with ⟨hv, _⟩ | ⟨hv, _⟩
  · intro hd
    rw [hv] at hd
    have := (isDigit_iff c).mpr hd
    rw [h] at this
    exact Bool.false_ne_true this
  · omega

theorem char_of_toNat (c : Char) (n : Nat) (h : c.toNat = n) : c = Char.ofNat n := by
  rw [← h]
  exact (Char.ofNat_toNat c).symm

theorem utf8Bytes.ofChar_not_sign (c : Char) (hp : c ≠ '+') (hm : c ≠ '-') :
    ∃ b bs, utf8Bytes.ofChar c = b :: bs ∧ b ≠ 43 ∧ b ≠ 45 := by
  obtain ⟨b, bs, hb, hcase⟩ := utf8Bytes.ofChar_head c
  refine ⟨b, bs, hb, ?_⟩
  rcases hcase with ⟨hv, _⟩ | ⟨hv, _⟩
  · constructor
    · intro h43
      exact hp (char_of_toNat c 43 (by rw [← hv]; exact h43))
    · intro h45
      exact hm (char_of_toNat c 45 (by rw [← hv]; exact h45))
  · omega

theorem Atoi.fast_not_all (l : List Char) :
    ∀ n, l.all Char.isDigit = false → Atoi.fast (utf8Bytes.ofChars l) n = none := by
  induction l with
  | nil => intro n h; simp at h
  | cons c rest ih =>
    intro n h
    cases hc : c.isDigit with
    | false =>
      obtain ⟨b, bs, hb, hnd⟩ := utf8Bytes.ofChar_not_digit c hc
      simp only [utf8Bytes.ofChars, hb, List.cons_append, Atoi.fast, if_neg hnd]
    | true =>
      have hrest : rest.all Char.isDigit = false := by
        simpa [List.all_cons, hc] using h
      obtain ⟨hb, hd⟩ := utf8Bytes.ofChar_digit c hc
      simp only [utf8Bytes.ofChars, hb, List.cons_append, List.nil_append, Atoi.fast,
        if_pos hd, ih _ hrest]

theorem ParseUint.loop_not_all (l : List Char) :
    ∀ n, l.all Char.isDigit = false →
      ParseUint.loop (utf8Bytes.ofChars l) n = (0, some NumError.ErrSyntax) ∨
      ParseUint.loop (utf8Bytes.ofChars l) n
        = (18446744073709551615, some NumError.ErrRange) := by
  induction l with
  | nil => intro n h; simp at h
  | cons c rest ih =>
    intro n h
    cases hc : c.isDigit with
    | false =>
      obtain ⟨b, bs, hb, hnd⟩ := utf8Bytes.ofChar_not_digit c hc
      left
      simp only [utf8Bytes.ofChars, hb, List.cons_append, ParseUint.loop, if_neg hnd]
    | true =>
      have hrest : rest.all Char.isDigit = false := by
        simpa [List.all_cons, hc] using h
      obtain ⟨hb, hd⟩ := utf8Bytes.ofChar_digit c hc
      simp only [utf8Bytes.ofChars, hb, List.cons_append, List.nil_append, ParseUint.loop,
        if_pos hd]
      split
      · exact Or.inr rfl
      · split
        · exact Or.inr rfl
        · exact ih _ hrest

theorem utf8Bytes.ofChars_length_pos (l : List Char) (h : l.all Char.isDigit = false) :
    0 < (utf8Bytes.ofChars l).length := by
  cases l with
  | nil => simp at h
  | cons c rest =>
    obtain ⟨b, bs, hb, _⟩ := utf8Bytes.ofChar_head c
    simp only [utf8Bytes.ofChars, hb, List.cons_append, List.length_cons]
    omega

theorem ParseUint.loop_short (l : List Char) :
    ∀ n k, l.all Char.isDigit = false → n < 10 ^ k →
      k + (utf8Bytes.ofChars l).length ≤ 20 →
      ParseUint.loop (utf8Bytes.ofChars l) n = (0, some NumError.ErrSyntax) := by
  induction l with
  | nil => intro n k h; simp at h
  | cons c rest ih =>
    intro n k h hn hlen
    cases hc : c.isDigit with
    | false =>
      obtain ⟨b, bs, hb, hnd⟩ := utf8Bytes.ofChar_not_digit c hc
      simp only [utf8Bytes.ofChars, hb, List.cons_append, ParseUint.loop, if_neg hnd]
    | true =>
      have hrest : rest.all Char.isDigit = false := by
        simpa [List.all_cons, hc] using h
      obtain ⟨hb, hd⟩ := utf8Bytes.ofChar_digit c hc
      have hpos := utf8Bytes.ofChars_length_pos rest hrest
      simp only [utf8Bytes.ofChars, hb, List.cons_append, List.nil_append,
        List.length_cons] at hlen
      have hk : k ≤ 18 := by omega
      have hpow : 10 ^ k ≤ 10 ^ 18 := Nat.pow_le_pow_right (by decide) hk
      have hn18 : n < 1000000000000000000 := by
        have : (10 : Nat) ^ 18 = 1000000000000000000 := by norm_num
        omega
      have hnext : n * 10 + (c.toNat - 48) < 10 ^ (k + 1) := by
        rw [Nat.pow_succ]
        omega
      simp only [utf8Bytes.ofChars, hb, List.cons_append, List.nil_append, ParseUint.loop,
        if_pos hd]
      rw [if_neg (by omega), if_neg (by omega)]
      exact ih _ (k + 1) hrest hnext (by omega)


theorem ParseUint_not_number (l : List Char) (h : l = [] ∨ l.all Char.isDigit = false) :
    (ParseUint (utf8Bytes.ofChars l) = (0, some NumError.ErrSyntax) ∨
      ParseUint (utf8Bytes.ofChars l) = (18446744073709551615, some NumError.ErrRange)) ∧
    ((utf8Bytes.ofChars l).length ≤ 20 →
      ParseUint (utf8Bytes.ofChars l) = (0, some NumError.ErrSyntax)) := by
  rcases h with h | h
  · subst h
    exact ⟨Or.inl rfl, fun _ => rfl⟩
  · have hpos := utf8Bytes.ofChars_length_pos l h
    have hloop : ParseUint (utf8Bytes.ofChars l) = ParseUint.loop (utf8Bytes.ofChars l) 0 := by
      cases hb : utf8Bytes.ofChars l with
      | nil => rw [hb] at hpos; simp at hpos
      | cons b bs => rfl
    rw [hloop]
    exact ⟨ParseUint.loop_not_all l 0 h,
      fun hlen => ParseUint.loop_short l 0 0 h (by norm_num) (by omega)⟩

theorem ParseInt_of_ParseUint (c : Nat) (rest : Bytes) :
    (ParseUint (if c = 43 then rest else if c = 45 then rest else c :: rest)
        = (0, some NumError.ErrSyntax) →
      ParseInt (c :: rest) = (0, some NumError.ErrSyntax)) ∧
    (ParseUint (if c = 43 then rest else if c = 45 then rest else c :: rest)
        = (18446744073709551615, some NumError.ErrRange) →
      ParseInt (c :: rest)
        = (if c = 45 then -9223372036854775808 else 9223372036854775807,
            some NumError.ErrRange)) := by
  constructor
  · intro h
    simp only [ParseInt, h, if_true]
  · intro h
    by_cases hc : c = 45
    · subst hc
      have h' : ParseUint rest = (18446744073709551615, some NumError.ErrRange) := by
        simpa using h
      simp [ParseInt, h']
    · have h' : ParseUint (if c = 43 then rest else c :: rest)
          = (18446744073709551615, some NumError.ErrRange) := by
        simpa [hc] using h
      simp [ParseInt, hc, h']

/-- What `Atoi` returns for the bytes `c :: rest` of a text, where the bytes after the sign, if
there is one, are those of the characters `l` and do not write a number. -/
theorem Atoi_of_bytes (s : String) (c : Nat) (rest : Bytes) (l : List Char)
    (hs : utf8Bytes s = c :: rest)
    (hl : utf8Bytes.ofChars l = if c = 43 then rest else if c = 45 then rest else c :: rest)
    (h : l = [] ∨ l.all Char.isDigit = false) :
    (Atoi s = (0, some NumError.ErrSyntax) ∨
      Atoi s = (if c = 45 then -9223372036854775808 else 9223372036854775807,
        some NumError.ErrRange)) ∧
    ((utf8Bytes s).length ≤ 20 → Atoi s = (0, some NumError.ErrSyntax)) := by
  have hu := ParseUint_not_number l h
  rw [hl] at hu
  have hp := ParseInt_of_ParseUint c rest
  have hlen : (if c = 43 then rest else if c = 45 then rest else c :: rest).length
      ≤ (c :: rest).length := by
    split
    · simp
    · split <;> simp
  by_cases hfast : 0 < (utf8Bytes s).length ∧ (utf8Bytes s).length < 19
  · have hsyn : Atoi s = (0, some NumError.ErrSyntax) := by
      unfold Atoi
      rw [if_pos hfast]
      simp only [hs]
      by_cases hsign : c = 45 ∨ c = 43
      · have hdig : utf8Bytes.ofChars l = rest := by
          rw [hl]
          rcases hsign with h45 | h43
          · rw [h45]; rfl
          · rw [h43]; rfl
        rcases h with h | h
        · subst h
          have : rest = [] := by rw [← hdig]; rfl
          subst this
          simp [hsign]
        · have hpos := utf8Bytes.ofChars_length_pos l h
          rw [hdig] at hpos
          have hf := Atoi.fast_not_all l 0 h
          rw [hdig] at hf
          rw [if_neg (by omega)]
          simp only [if_pos hsign, hf]
      · have hdig : utf8Bytes.ofChars l = c :: rest := by
          rw [hl]
          have h43 : ¬ c = 43 := fun hc => hsign (Or.inr hc)
          have h45 : ¬ c = 45 := fun hc => hsign (Or.inl hc)
          rw [if_neg h43, if_neg h45]
        rcases h with h | h
        · subst h
          simp [utf8Bytes.ofChars] at hdig
        · have hf := Atoi.fast_not_all l 0 h
          rw [hdig] at hf
          rw [if_neg (fun hc => hsign hc.1)]
          simp only [if_neg hsign, hf]
    exact ⟨Or.inl hsyn, fun _ => hsyn⟩
  · have hslow : Atoi s = ParseInt (c :: rest) := by
      unfold Atoi
      rw [if_neg hfast, hs]
    rw [hslow]
    refine ⟨?_, ?_⟩
    · rcases hu.1 with h1 | h1
      · exact Or.inl (hp.1 h1)
      · exact Or.inr (hp.2 h1)
    · intro h20
      rw [hs] at h20
      exact hp.1 (hu.2 (by omega))


theorem Atoi_not_decimal (s : String) (h : isDecimalInteger s = false) :
    (Atoi s = (0, some NumError.ErrSyntax) ∨
      Atoi s = (9223372036854775807, some NumError.ErrRange) ∨
      Atoi s = (-9223372036854775808, some NumError.ErrRange)) ∧
    ((utf8Bytes s).length ≤ 20 → Atoi s = (0, some NumError.ErrSyntax)) := by
  cases hs : s.data with
  | nil =>
    have hb : utf8Bytes s = [] := by simp only [utf8Bytes, hs, utf8Bytes.ofChars]
    have : Atoi s = (0, some NumError.ErrSyntax) := by
      unfold Atoi
      rw [hb]
      rfl
    exact ⟨Or.inl this, fun _ => this⟩
  | cons c rest =>
    simp only [isDecimalInteger, hs] at h
    have hbytes : utf8Bytes s = utf8Bytes.ofChar c ++ utf8Bytes.ofChars rest := by
      simp only [utf8Bytes, hs, utf8Bytes.ofChars]
    by_cases hm : c = '-'
    · rw [if_pos (Or.inr hm)] at h
      have hl : rest = [] ∨ rest.all Char.isDigit = false := by
        cases rest with
        | nil => exact Or.inl rfl
        | cons x xs => exact Or.inr (by simpa using h)
      have hb : utf8Bytes s = 45 :: utf8Bytes.ofChars rest := by
        rw [hbytes, hm]; rfl
      have hr := Atoi_of_bytes s 45 (utf8Bytes.ofChars rest) rest hb (by simp) hl
      refine ⟨?_, hr.2⟩
      rcases hr.1 with h1 | h1
      · exact Or.inl h1
      · exact Or.inr (Or.inr (by simpa using h1))
    · by_cases hp : c = '+'
      · rw [if_pos (Or.inl hp)] at h
        have hl : rest = [] ∨ rest.all Char.isDigit = false := by
          cases rest with
          | nil => exact Or.inl rfl
          | cons x xs => exact Or.inr (by simpa using h)
        have hb : utf8Bytes s = 43 :: utf8Bytes.ofChars rest := by
          rw [hbytes, hp]; rfl
        have hr := Atoi_of_bytes s 43 (utf8Bytes.ofChars rest) rest hb (by simp) hl
        refine ⟨?_, hr.2⟩
        rcases hr.1 with h1 | h1
        · exact Or.inl h1
        · exact Or.inr (Or.inl (by simpa using h1))
      · rw [if_neg (by rintro (h1 | h1); exact hp h1; exact hm h1)] at h
        obtain ⟨b, bs, hb, h43, h45⟩ := utf8Bytes.ofChar_not_sign c hp hm
        have hb' : utf8Bytes s = b :: (bs ++ utf8Bytes.ofChars rest) := by
          rw [hbytes, hb]; rfl
        have hr := Atoi_of_bytes s b (bs ++ utf8Bytes.ofChars rest) (c :: rest) hb'
          (by rw [if_neg h43, if_neg h45]; simp only [utf8Bytes.ofChars, hb]; rfl)
          (Or.inr h)
        refine ⟨?_, hr.2⟩
        rcases hr.1 with h1 | h1
        · exact Or.inl h1
        · exact Or.inr (Or.inl (by simpa [h45] using h1))

theorem ManagerEventCode1_actions (os : Os) (pid : String) :
    (ManagerEventCode1 os pid "killtree").map Prod.snd
      = some [OsAction.KillTreeProcess (ConvertStringToInt32 pid)] ∧
    (ManagerEventCode1 os pid "kill").map Prod.snd
      = some [OsAction.KillProcess (ConvertStringToInt32 pid)] ∧
    (ManagerEventCode1 os pid "suspend").map Prod.snd
      = some [OsAction.SuspendProcess (ConvertStringToInt32 pid)] := by
  have h1 : ¬ ("kill" = "killtree") := by decide
  have h2 : ¬ ("suspend" = "killtree") := by decide
  have h3 : ¬ ("suspend" = "kill") := by decide
  refine ⟨?_, ?_, ?_⟩
  · simp only [ManagerEventCode1, processCase, if_true, Option.map_some']
  · simp only [ManagerEventCode1, processCase, if_neg h1, if_true, Option.map_some']
  · simp only [ManagerEventCode1, processCase, if_neg h2, if_neg h3, if_true,
      Option.map_some']

/-- C29, the claim as stated fails: in a text of twenty digits followed by a letter, `Atoi`
stops at the twentieth digit with a range error and the largest `int`, before it reads the
letter; `ConvertStringToInt32` returns the low 32 bits, which is -1, and the action `kill` is
asked for the process id -1.  After a minus sign the bound is the smallest `int`, whose low 32
bits are 0. -/
theorem C29_overflow_before_letter :
    isDecimalInteger "99999999999999999999x" = false ∧
      Atoi "99999999999999999999x" = (9223372036854775807, some NumError.ErrRange) ∧
      ConvertStringToInt32 "99999999999999999999x" = -1 ∧
      (ManagerEventCode1 sampleOs "99999999999999999999x" "kill").map Prod.snd
        = some [OsAction.KillProcess (-1)] ∧
      isDecimalInteger "-99999999999999999999x" = false ∧
      Atoi "-99999999999999999999x" = (-9223372036854775808, some NumError.ErrRange) ∧
      ConvertStringToInt32 "-99999999999999999999x" = 0 := by
  refine ⟨by decide, by decide, by decide, by decide, by decide, by decide, by decide⟩

/-- C29, amended: for a text that is not an optional sign followed by decimal digits, `Atoi`
returns an error, which `ConvertStringToInt32` drops, and `ManagerEventCode1` asks the action
for the number returned, with no check.  That number is 0, or -1 when `Atoi` met a range
error first; it is 0 for every such text of at most twenty bytes, the empty text among them,
and the actions `killtree`, `kill` and `suspend` are then asked for the process id 0. -/
theorem C29_not_a_number (s : String) (h : isDecimalInteger s = false) (os : Os) :
    (Atoi s).2 ≠ none ∧
    (ConvertStringToInt32 s = 0 ∨ ConvertStringToInt32 s = -1) ∧
    (ManagerEventCode1 os s "killtree").map Prod.snd
      = some [OsAction.KillTreeProcess (ConvertStringToInt32 s)] ∧
    (ManagerEventCode1 os s "kill").map Prod.snd
      = some [OsAction.KillProcess (ConvertStringToInt32 s)] ∧
    (ManagerEventCode1 os s "suspend").map Prod.snd
      = some [OsAction.SuspendProcess (ConvertStringToInt32 s)] ∧
    ((utf8Bytes s).length ≤ 20 →
      Atoi s = (0, some NumError.ErrSyntax) ∧ ConvertStringToInt32 s = 0 ∧
      (ManagerEventCode1 os s "killtree").map Prod.snd = some [OsAction.KillTreeProcess 0] ∧
      (ManagerEventCode1 os s "kill").map Prod.snd = some [OsAction.KillProcess 0] ∧
      (ManagerEventCode1 os s "suspend").map Prod.snd = some [OsAction.SuspendProcess 0]) := by
  have ha := Atoi_not_decimal s h
  have hact := ManagerEventCode1_actions os s
  refine ⟨?_, ?_, hact.1, hact.2.1, hact.2.2, ?_⟩
  · rcases ha.1 with h1 | h1 | h1 <;> rw [h1] <;> simp
  · rcases ha.1 with h1 | h1 | h1
    · left; simp only [ConvertStringToInt32, h1]; decide
    · right; simp only [ConvertStringToInt32, h1]; decide
    · left; simp only [ConvertStringToInt32, h1]; decide
  · intro hlen
    have h0 := ha.2 hlen
    have hc : ConvertStringToInt32 s = 0 := by
      simp only [ConvertStringToInt32, h0]; decide
    refine ⟨h0, hc, ?_, ?_, ?_⟩
    · rw [hact.1, hc]
    · rw [hact.2.1, hc]
    · rw [hact.2.2, hc]

theorem C29_not_a_number_witness :
    isDecimalInteger "" = false ∧ ConvertStringToInt32 "" = 0 ∧
      (ManagerEventCode1 sampleOs "" "kill").map Prod.snd = some [OsAction.KillProcess 0] ∧
      isDecimalInteger "12a" = false ∧ (utf8Bytes "12a").length ≤ 20 ∧
      ConvertStringToInt32 "12a" = 0 ∧
      isDecimalInteger "1234567890123456789x" = false ∧
      (utf8Bytes "1234567890123456789x").length ≤ 20 ∧
      Atoi "1234567890123456789x" = (0, some NumError.ErrSyntax) :=
  ⟨by decide, ((C29_not_a_number "" (by decide) sampleOs).2.2.2.2.2 (by decide)).2.1,
   ((C29_not_a_number "" (by decide) sampleOs).2.2.2.2.2 (by decide)).2.2.2.1, by decide,
   by decide, ((C29_not_a_number "12a" (by decide) sampleOs).2.2.2.2.2 (by decide)).2.1,
   by decide, by decide,
   ((C29_not_a_number "1234567890123456789x" (by decide) sampleOs).2.2.2.2.2 (by decide)).1⟩

theorem ConvertStringToInt32_values :
    ConvertStringToInt32 "42" = 42 ∧ ConvertStringToInt32 "+5" = 5 ∧
      ConvertStringToInt32 "-7" = -7 ∧ ConvertStringToInt32 "007" = 7 ∧
      ConvertStringToInt32 "4294967297" = 1 ∧ ConvertStringToInt32 "2147483648" = -2147483648 ∧
      Atoi "9223372036854775807" = (9223372036854775807, none) ∧
      Atoi "9223372036854775808" = (9223372036854775807, some NumError.ErrRange) ∧
      Atoi "-9223372036854775808" = (-9223372036854775808, none) ∧
      Atoi "99999999999999999999" = (9223372036854775807, some NumError.ErrRange) ∧
      ConvertStringToInt32 "99999999999999999999" = -1 ∧
      Atoi "-" = (0, some NumError.ErrSyntax) ∧ Atoi "4 2" = (0, some NumError.ErrSyntax) ∧
      Atoi "x99999999999999999999" = (0, some NumError.ErrSyntax) := by
  decide


/-! ## The telemetry session: what is dispatched -/

theorem HandleSplunkConn.each_eq_iterate (w : World) (conn : Option Conn) :
    ∀ (n : Nat) (h : Handled), h.returned = true →
      HandleSplunkConn.each w conn n h
        = Nat.iterate (fun h : Handled =>
            if h.returned then
              ⟨Effects.append h.effects (HandleRespone w conn h.objRequest h.resultLog).effects,
                (HandleRespone w conn h.objRequest h.resultLog).returned,
                (HandleRespone w conn h.objRequest h.resultLog).objRequest,
                (HandleRespone w conn h.objRequest h.resultLog).resultLog⟩
            else h) n h := by
  intro n
  induction n with
  | zero => intro h _; rfl
  | succ n ih =>
    intro h hret
    rw [Function.iterate_succ_apply]
    simp only [HandleSplunkConn.each, hret, if_true]
    by_cases hr : (HandleRespone w conn h.objRequest h.resultLog).returned = true
    · rw [if_pos hr]
      exact ih _ hr
    · rw [if_neg hr]
      symm
      apply Function.iterate_fixed
      simp only [hr, if_false, Bool.false_eq_true]

/-- C26: a message with the key `Action Rule` goes to `HandleRule` only: nothing is
dispatched, and what the handling leaves does not depend on the library or on the agent side,
also when the message has the key `Action`.  Without `Action Rule`, a message with the key
`Action` is given once to `HandleRespone` as decoded, and the dispatch is the same whatever
the catalog holds.  Without either key it is given to `FilterRulesLog`, and `HandleRespone` is
called once for each decision, one call after the other, each on the map of the decisions as
the call before left it, until a call does not return; when every call returns and the result
log can be written, the log grows by one record for each decision. -/
theorem C26_message_routing (lib : Regexp) (w : World) (ioOk : Bool) (c : Catalog)
    (conns : List (String × Conn)) (logMapInterface ruleInterface : Rule)
    (resultLog : List StrMap) :
    (Rule.has logMapInterface "Action Rule" = true →
      HandleSplunkConn.message lib w ioOk c conns logMapInterface ruleInterface resultLog
        = ⟨(HandleRule ioOk ruleInterface c).map Prod.fst, none, true⟩ ∧
      ∀ (lib' : Regexp) (w' : World),
        HandleSplunkConn.message lib' w' ioOk c conns logMapInterface ruleInterface resultLog
          = HandleSplunkConn.message lib w ioOk c conns logMapInterface ruleInterface
              resultLog) ∧
    (Rule.has logMapInterface "Action Rule" = false →
      Rule.has logMapInterface "Action" = true →
      HandleSplunkConn.message lib w ioOk c conns logMapInterface ruleInterface resultLog
        = ⟨some c, some (HandleRespone w
            (lookupConn conns ((ConvertInterfaceToString logMapInterface).get "ComputerName"))
            (ConvertInterfaceToString logMapInterface) resultLog), true⟩ ∧
      ∀ (lib' : Regexp) (c' : Catalog),
        (HandleSplunkConn.message lib' w ioOk c' conns logMapInterface ruleInterface
            resultLog).handled
          = (HandleSplunkConn.message lib w ioOk c conns logMapInterface ruleInterface
              resultLog).handled) ∧
    (Rule.has logMapInterface "Action Rule" = false →
      Rule.has logMapInterface "Action" = false →
      ∀ r, FilterRulesLog lib c.rules (ConvertInterfaceToString logMapInterface) = some r →
        HandleSplunkConn.message lib w ioOk c conns logMapInterface ruleInterface resultLog
          = ⟨some c, some (Nat.iterate (fun h : Handled =>
              if h.returned then
                ⟨Effects.append h.effects
                    (HandleRespone w (lookupConn conns
                      ((ConvertInterfaceToString logMapInterface).get "ComputerName"))
                      h.objRequest h.resultLog).effects,
                  (HandleRespone w (lookupConn conns
                      ((ConvertInterfaceToString logMapInterface).get "ComputerName"))
                      h.objRequest h.resultLog).returned,
                  (HandleRespone w (lookupConn conns
                      ((ConvertInterfaceToString logMapInterface).get "ComputerName"))
                      h.objRequest h.resultLog).objRequest,
                  (HandleRespone w (lookupConn conns
                      ((ConvertInterfaceToString logMapInterface).get "ComputerName"))
                      h.objRequest h.resultLog).resultLog⟩
              else h) r.objRequests.length ⟨⟨[], [], []⟩, true, r.log, resultLog⟩),
            false⟩ ∧
        ((∀ o log, (HandleRespone w
            (lookupConn conns ((ConvertInterfaceToString logMapInterface).get "ComputerName"))
            o log).returned = true) → w.logOk = true →
          ((HandleSplunkConn.message lib w ioOk c conns logMapInterface ruleInterface
              resultLog).handled.map (fun h => h.resultLog.length))
            = some (resultLog.length + r.objRequests.length))) := by
  refine ⟨?_, ?_, ?_⟩
  · intro hrule
    refine ⟨?_, ?_⟩
    · simp only [HandleSplunkConn.message, hrule, if_true]
    · intro lib' w'
      simp only [HandleSplunkConn.message, hrule, if_true]
  · intro hrule haction
    have hs : (ConvertInterfaceToString logMapInterface).has "Action" = true := by
      rw [ConvertInterfaceToString_has]; exact haction
    refine ⟨?_, ?_⟩
    · simp only [HandleSplunkConn.message, hrule, HandleSplunkConn.respond, hs, if_true,
        Bool.false_eq_true, if_false]
    · intro lib' c'
      simp only [HandleSplunkConn.message, hrule, HandleSplunkConn.respond, hs, if_true,
        Bool.false_eq_true, if_false]
  · intro hrule haction r hr
    have hs : (ConvertInterfaceToString logMapInterface).has "Action" = false := by
      rw [ConvertInterfaceToString_has]; exact haction
    have hlen : r.objRequests.length = r.hits := by
      simp only [Filtered.objRequests, List.length_replicate]
    have hmsg : HandleSplunkConn.message lib w ioOk c conns logMapInterface ruleInterface
        resultLog
        = ⟨some c, some (HandleSplunkConn.each w
            (lookupConn conns ((ConvertInterfaceToString logMapInterface).get "ComputerName"))
            r.objRequests.length ⟨⟨[], [], []⟩, true, r.log, resultLog⟩), false⟩ := by
      simp only [HandleSplunkConn.message, hrule, HandleSplunkConn.respond, hs, hr, hlen,
        Bool.false_eq_true, if_false]
    refine ⟨?_, ?_⟩
    · rw [hmsg, HandleSplunkConn.each_eq_iterate w _ _ _ rfl]
    · intro hret hlog
      rw [hmsg]
      simp only [Option.map_some']
      rw [HandleSplunkConn.each_log_length w _ hret hlog _ _]

theorem C26_message_routing_witness :
    Rule.has messageRule "Action Rule" = true ∧ Rule.has messageRule "Action" = true ∧
      (HandleSplunkConn.message miniRegexp sampleWorld true ⟨[ruleKill], [ruleKill]⟩
          [("H1", "10.0.0.1:7001")] messageRule messageRule []).handled.isNone = true ∧
      Rule.has messageDirect "Action Rule" = false ∧ Rule.has messageDirect "Action" = true ∧
      ((HandleSplunkConn.message miniRegexp sampleWorld true ⟨[ruleKill], [ruleKill]⟩
          [("H1", "10.0.0.1:7001")] messageDirect messageDirect []).handled.map
            (fun h => h.effects.calls))
        = some [(some "10.0.0.1:7001", Request.EventCode1 "42" "kill")] ∧
      ((HandleSplunkConn.message miniRegexp sampleWorld true
          ⟨[ruleKill, ruleSuspend], [ruleKill, ruleSuspend]⟩ [("H1", "10.0.0.1:7001")]
          [("ComputerName", Value.string "H1"), ("EventCode", Value.string "1"),
            ("ProcessId", Value.string "42"), ("Image", Value.string "evil")] [] []).handled.map
            (fun h => h.effects.calls))
        = some [(some "10.0.0.1:7001", Request.EventCode1 "42" "suspend"),
            (some "10.0.0.1:7001", Request.EventCode1 "42" "suspend")] ∧
      ((HandleSplunkConn.message miniRegexp sampleWorld true
          ⟨[ruleKill, ruleSuspend], [ruleKill, ruleSuspend]⟩ [("H1", "10.0.0.1:7001")]
          [("ComputerName", Value.string "H1"), ("EventCode", Value.string "1"),
            ("ProcessId", Value.string "42"), ("Image", Value.string "evil")] [] []).handled.map
            (fun h => h.resultLog.length))
        = some (0 + 2) :=
  ⟨by decide, by decide,
   by rw [((C26_message_routing miniRegexp sampleWorld true ⟨[ruleKill], [ruleKill]⟩
      [("H1", "10.0.0.1:7001")] messageRule messageRule []).1 (by decide)).1]; rfl,
   by decide, by decide,
   by rw [((C26_message_routing miniRegexp sampleWorld true ⟨[ruleKill], [ruleKill]⟩
      [("H1", "10.0.0.1:7001")] messageDirect messageDirect []).2.1 (by decide)
      (by decide)).1]
      rfl,
   by rw [((C26_message_routing miniRegexp sampleWorld true
      ⟨[ruleKill, ruleSuspend], [ruleKill, ruleSuspend]⟩ [("H1", "10.0.0.1:7001")]
      [("ComputerName", Value.string "H1"), ("EventCode", Value.string "1"),
        ("ProcessId", Value.string "42"), ("Image", Value.string "evil")] [] []).2.2
      (by decide) (by decide)
      ⟨[("ComputerName", "H1"), ("EventCode", "1"), ("ProcessId", "42"), ("Image", "evil"),
          ("Type", "T2"), ("Message", "M2"), ("Action", "suspend")], 2⟩ (by decide)).1]
      rfl,
   ((C26_message_routing miniRegexp sampleWorld true
      ⟨[ruleKill, ruleSuspend], [ruleKill, ruleSuspend]⟩ [("H1", "10.0.0.1:7001")]
      [("ComputerName", Value.string "H1"), ("EventCode", Value.string "1"),
        ("ProcessId", Value.string "42"), ("Image", Value.string "evil")] [] []).2.2
      (by decide) (by decide)
      ⟨[("ComputerName", "H1"), ("EventCode", "1"), ("ProcessId", "42"), ("Image", "evil"),
          ("Type", "T2"), ("Message", "M2"), ("Action", "suspend")], 2⟩ (by decide)).2
      (fun o log => HandleRespone_returns sampleWorld (some "10.0.0.1:7001") o log
        (fun _ => rfl) (fun _ => rfl)) rfl⟩

end EDR
